import Mathlib

/-! staticimagesrc: a verification development.

Shallow embedding of `src/plugins/gststaticpngsrc.cpp` (the `staticpngsrc`
GStreamer element) and theorems about it.

Conventions of the embedding

* A byte buffer (`guint8*` with its allocation) is a `List Nat`; every read and
  write is bounds checked and an access outside the allocation is reported as a
  `Fault` (undefined behaviour in the C++ source).
* `gint` values are `Int`; casts to `gsize`, `gint`, `gint64`, `gint16` and
  `guint8` are explicit wrap-around functions.
* A function that returns `NULL`/a pointer returns `Option Buf` inside
  `Except Fault`: `.ok none` is a `NULL` return, `.ok (some b)` a buffer and
  `.error f` an out-of-bounds access.
* `g_malloc` never returns `NULL` (GLib aborts the process instead), so the
  `dst == NULL` branches of the source are not reachable and are not modelled.
-/

namespace StaticImageSrc

/-! ## Memory model -/

/-- An access outside an allocation or through a `NULL` pointer, or a loop that
ran out of fuel. -/
inductive Fault where
  | oobRead (idx len : Nat)
  | oobWrite (idx len : Nat)
  | nullDeref
  | fuel
  deriving DecidableEq, Repr

deriving instance DecidableEq for Except

/-- A heap allocation of bytes. -/
abbrev Buf := List Nat

/-- Read of `b[i]`. -/
def rd (b : Buf) (i : Nat) : Except Fault Nat :=
  match b[i]? with
  | some v => .ok v
  | none => .error (.oobRead i b.length)

/-- Write `b[i] = v`. -/
def wr (b : Buf) (i : Nat) (v : Nat) : Except Fault Buf :=
  if i < b.length then .ok (b.set i v) else .error (.oobWrite i b.length)

/-- A fresh allocation of `n` bytes. The content of fresh memory is
indeterminate in C; it is zero here, and every statement below is about bytes
the code has written. -/
def g_malloc (n : Nat) : Buf := List.replicate n 0

/-! ## Machine integers -/

/-- The cast `(gsize)x` of a signed value (64-bit `gsize`). -/
def gsize (x : Int) : Nat := (x % 18446744073709551616).toNat

/-- Multiplication in `gsize`. -/
def gsize_mul (a b : Nat) : Nat := (a * b) % 18446744073709551616

/-- Addition in `gsize`. -/
def gsize_add (a b : Nat) : Nat := (a + b) % 18446744073709551616

/-- The cast `(gint)x` (32-bit two's complement). -/
def gint_cast (x : Int) : Int := (x + 2147483648) % 4294967296 - 2147483648

/-- The value of a computation carried out in `gint64`. -/
def gint64_cast (x : Int) : Int :=
  (x + 9223372036854775808) % 18446744073709551616 - 9223372036854775808

/-- The cast `(gint16)x`. -/
def gint16_cast (x : Int) : Int := (x + 32768) % 65536 - 32768

/-- The cast `(guint8)x`. -/
def guint8_cast (x : Int) : Nat := (x % 256).toNat

/-- The GLib macro `CLAMP(x, low, high)`. -/
def CLAMP (x low high : Int) : Int :=
  if x > high then high else if x < low then low else x

/-! ## Loops -/

/-- The loop `for (i = start; i < stop; i += step) body`, run from the state
`s` with loop variable `i`; it faults when the fuel runs out before the loop
condition fails. -/
def forLoop {σ : Type} (stop : Int) (step : Nat) (body : Nat → σ → Except Fault σ) :
    Nat → Nat → σ → Except Fault σ
  | 0, i, s => if (i : Int) < stop then .error .fuel else .ok s
  | fuel + 1, i, s =>
    if (i : Int) < stop then
      match body i s with
      | .ok s1 => forLoop stop step body fuel (i + step) s1
      | .error e => .error e
    else .ok s

/-! ## The scaler -/

/-- Body of the inner loop of `scale_rgba_nearest` (lines 832-839), for the
row pointers `src_row` and `dst_row` (byte offsets into `src` and `dst`). -/
def scale_pixel (src : Buf) (src_w dst_w : Int) (src_row dst_row : Nat) (x : Nat) (dst : Buf) :
    Except Fault Buf := do
  let sx := gint_cast (Int.tdiv (gint64_cast ((x : Int) * src_w)) dst_w)
  let sp := src_row + gsize_mul (gsize sx) 4
  let dp := dst_row + gsize_mul (gsize x) 4
  let dst ← wr dst (dp + 0) (← rd src (sp + 0))
  let dst ← wr dst (dp + 1) (← rd src (sp + 1))
  let dst ← wr dst (dp + 2) (← rd src (sp + 2))
  let dst ← wr dst (dp + 3) (← rd src (sp + 3))
  pure dst

/-- Body of the outer loop of `scale_rgba_nearest` (lines 826-840). -/
def scale_row (src : Buf) (src_w src_h dst_w dst_h : Int) (y : Nat) (dst : Buf) :
    Except Fault Buf :=
  let sy := gint_cast (Int.tdiv (gint64_cast ((y : Int) * src_h)) dst_h)
  let src_row := gsize_mul (gsize_mul (gsize sy) (gsize src_w)) 4
  let dst_row := gsize_mul (gsize_mul (gsize y) (gsize dst_w)) 4
  forLoop dst_w 1 (scale_pixel src src_w dst_w src_row dst_row) dst_w.toNat 0 dst

/-- Embedding of `scale_rgba_nearest` (lines 811-844). -/
def scale_rgba_nearest (src : Buf) (src_w src_h dst_w dst_h : Int) :
    Except Fault (Option Buf) :=
  if src_w ≤ 0 ∨ src_h ≤ 0 ∨ dst_w ≤ 0 ∨ dst_h ≤ 0 then .ok none
  else
    let dst := g_malloc (gsize_mul (gsize_mul (gsize dst_w) (gsize dst_h)) 4)
    match forLoop dst_h 1 (scale_row src src_w src_h dst_w dst_h) dst_h.toNat 0 dst with
    | .error e => .error e
    | .ok dst => .ok (some dst)

/-! ## Packed swizzle -/

/-- Body of the loop of `swizzle_from_rgba_inplace` (lines 861-891). -/
def swizzle_pixel (fmt : String) (i : Nat) (pixels : Buf) : Except Fault Buf := do
  let p := gsize_mul i 4
  let r ← rd pixels (p + 0)
  let g ← rd pixels (p + 1)
  let b ← rd pixels (p + 2)
  let a ← rd pixels (p + 3)
  if fmt = "BGRA" then do
    let pixels ← wr pixels (p + 0) b
    let pixels ← wr pixels (p + 1) g
    let pixels ← wr pixels (p + 2) r
    let pixels ← wr pixels (p + 3) a
    pure pixels
  else if fmt = "ARGB" then do
    let pixels ← wr pixels (p + 0) a
    let pixels ← wr pixels (p + 1) r
    let pixels ← wr pixels (p + 2) g
    let pixels ← wr pixels (p + 3) b
    pure pixels
  else if fmt = "ABGR" then do
    let pixels ← wr pixels (p + 0) a
    let pixels ← wr pixels (p + 1) b
    let pixels ← wr pixels (p + 2) g
    let pixels ← wr pixels (p + 3) r
    pure pixels
  else
    pure pixels

/-- Embedding of `swizzle_from_rgba_inplace` (lines 846-893). The result is the
content of the memory `pixels` points to when the function returns (`none` for
a `NULL` pointer). -/
def swizzle_from_rgba_inplace (pixels : Option Buf) (width height : Int)
    (fmt : Option String) : Except Fault (Option Buf) :=
  match pixels, fmt with
  | none, _ => .ok none
  | some pixels, none => .ok (some pixels)
  | some pixels, some fmt =>
    if fmt = "RGBA" then .ok (some pixels)
    else
      let num_pixels := gsize_mul (gsize width) (gsize height)
      match forLoop (num_pixels : Int) 1 (swizzle_pixel fmt) num_pixels 0 pixels with
      | .error e => .error e
      | .ok pixels => .ok (some pixels)

/-! ## BT.601 conversion -/

/-- The three outputs of `rgba_to_yuv_bt601`: `*y`, `*u_acc`, `*v_acc`. -/
structure YuvOut where
  y : Nat
  u_acc : Int
  v_acc : Int
  deriving DecidableEq, Repr

/-- Embedding of `rgba_to_yuv_bt601` (lines 896-904); `u_acc` and `v_acc` are
the values of the two `gint16` accumulators on entry. -/
def rgba_to_yuv_bt601 (r g b : Nat) (u_acc v_acc : Int) : YuvOut :=
  let yv : Int := (66 * (r : Int) + 129 * (g : Int) + 25 * (b : Int) + 128) >>> (8 : Nat)
  let uv : Int := (-38 * (r : Int) - 74 * (g : Int) + 112 * (b : Int) + 128) >>> (8 : Nat)
  let vv : Int := (112 * (r : Int) - 94 * (g : Int) - 18 * (b : Int) + 128) >>> (8 : Nat)
  { y := guint8_cast (CLAMP (yv + 16) 0 255),
    u_acc := gint16_cast (u_acc + gint16_cast uv),
    v_acc := gint16_cast (v_acc + gint16_cast vv) }

/-- Body of the inner luma loop (lines 931-936 and 1020-1025, the same
statements in both converters); `y_plane` is offset 0 of `dst`. -/
def luma_pixel (src : Buf) (srow drow : Nat) (x : Nat) (dst : Buf) : Except Fault Buf := do
  let sp := srow + gsize_mul (gsize x) 4
  let o := rgba_to_yuv_bt601 (← rd src (sp + 0)) (← rd src (sp + 1)) (← rd src (sp + 2)) 0 0
  wr dst (drow + x) o.y

/-- Body of the outer luma loop (lines 927-937 and 1016-1026). -/
def luma_row (src : Buf) (width : Int) (y : Nat) (dst : Buf) : Except Fault Buf :=
  let srow := gsize_mul (gsize_mul (gsize y) (gsize width)) 4
  let drow := gsize_mul (gsize y) (gsize width)
  forLoop width 1 (luma_pixel src srow drow) width.toNat 0 dst

/-- The luma loop of both converters (lines 925-938 and 1014-1027). -/
def luma_loop (src : Buf) (width height : Int) (dst : Buf) : Except Fault Buf :=
  forLoop height 1 (luma_row src width) height.toNat 0 dst

/-- The body of the 2x2 chroma loops up to the two clamps (lines 953-985 and
1042-1073, the same statements in both converters): the clamped `U` and `V` of
the block whose four pixels start at the byte offsets `p0 p1 p2 p3` of `src`. -/
def chroma_block (src : Buf) (p0 p1 p2 p3 : Nat) : Except Fault (Int × Int) := do
  let u_sum : Int := 0
  let v_sum : Int := 0
  let o := rgba_to_yuv_bt601 (← rd src (p0 + 0)) (← rd src (p0 + 1)) (← rd src (p0 + 2)) 0 0
  let u_sum := u_sum + o.u_acc
  let v_sum := v_sum + o.v_acc
  let o := rgba_to_yuv_bt601 (← rd src (p1 + 0)) (← rd src (p1 + 1)) (← rd src (p1 + 2)) 0 0
  let u_sum := u_sum + o.u_acc
  let v_sum := v_sum + o.v_acc
  let o := rgba_to_yuv_bt601 (← rd src (p2 + 0)) (← rd src (p2 + 1)) (← rd src (p2 + 2)) 0 0
  let u_sum := u_sum + o.u_acc
  let v_sum := v_sum + o.v_acc
  let o := rgba_to_yuv_bt601 (← rd src (p3 + 0)) (← rd src (p3 + 1)) (← rd src (p3 + 2)) 0 0
  let u_sum := u_sum + o.u_acc
  let v_sum := v_sum + o.v_acc
  let U : Int := Int.tdiv u_sum 4 + 128
  let V : Int := Int.tdiv v_sum 4 + 128
  let U := if U < 0 then 0 else U
  let U := if U > 255 then 255 else U
  let V := if V < 0 then 0 else V
  let V := if V > 255 then 255 else V
  pure (U, V)

/-- Body of the inner chroma loop of `convert_rgba_to_nv12` (lines 948-988). -/
def nv12_chroma_pixel (src : Buf) (srow0 srow1 uvrow : Nat) (x : Nat) (dst : Buf) :
    Except Fault Buf := do
  let p0 := srow0 + gsize_mul (gsize x) 4
  let p1 := srow0 + gsize_mul (gsize ((x : Int) + 1)) 4
  let p2 := srow1 + gsize_mul (gsize x) 4
  let p3 := srow1 + gsize_mul (gsize ((x : Int) + 1)) 4
  let (U, V) ← chroma_block src p0 p1 p2 p3
  let dst ← wr dst (uvrow + (x + 0)) (guint8_cast U)
  let dst ← wr dst (uvrow + (x + 1)) (guint8_cast V)
  pure dst

/-- Body of the outer chroma loop of `convert_rgba_to_nv12` (lines 943-989);
`uv_plane` is the byte offset of the interleaved plane in `dst`. -/
def nv12_chroma_row (src : Buf) (width : Int) (uv_plane : Nat) (y : Nat) (dst : Buf) :
    Except Fault Buf :=
  let srow0 := gsize_mul (gsize_mul (gsize y) (gsize width)) 4
  let srow1 := gsize_mul (gsize_mul (gsize ((y : Int) + 1)) (gsize width)) 4
  let uvrow := uv_plane + gsize_mul (gsize (Int.tdiv (y : Int) 2)) (gsize width)
  forLoop width 2 (nv12_chroma_pixel src srow0 srow1 uvrow) width.toNat 0 dst

/-- Embedding of `convert_rgba_to_nv12` (lines 906-993). -/
def convert_rgba_to_nv12 (src : Option Buf) (width height : Int) :
    Except Fault (Option Buf) :=
  match src with
  | none => .ok none
  | some src =>
    if width ≤ 0 ∨ height ≤ 0 then .ok none
    else
      let y_size := gsize_mul (gsize width) (gsize height)
      let uv_size := y_size / 2
      let dst := g_malloc (gsize_add y_size uv_size)
      let uv_plane := y_size
      match luma_loop src width height dst with
      | .error e => .error e
      | .ok dst =>
        match forLoop height 2 (nv12_chroma_row src width uv_plane) height.toNat 0 dst with
        | .error e => .error e
        | .ok dst => .ok (some dst)

/-- Body of the inner chroma loop of `convert_rgba_to_i420` (lines 1037-1075). -/
def i420_chroma_pixel (src : Buf) (srow0 srow1 urow vrow : Nat) (x : Nat) (dst : Buf) :
    Except Fault Buf := do
  let p0 := srow0 + gsize_mul (gsize x) 4
  let p1 := srow0 + gsize_mul (gsize ((x : Int) + 1)) 4
  let p2 := srow1 + gsize_mul (gsize x) 4
  let p3 := srow1 + gsize_mul (gsize ((x : Int) + 1)) 4
  let (U, V) ← chroma_block src p0 p1 p2 p3
  let dst ← wr dst (urow + gsize (Int.tdiv (x : Int) 2)) (guint8_cast U)
  let dst ← wr dst (vrow + gsize (Int.tdiv (x : Int) 2)) (guint8_cast V)
  pure dst

/-- Body of the outer chroma loop of `convert_rgba_to_i420` (lines 1031-1076);
`u_plane` and `v_plane` are the byte offsets of the two chroma planes in
`dst`. -/
def i420_chroma_row (src : Buf) (width : Int) (u_plane v_plane : Nat) (y : Nat) (dst : Buf) :
    Except Fault Buf :=
  let srow0 := gsize_mul (gsize_mul (gsize y) (gsize width)) 4
  let srow1 := gsize_mul (gsize_mul (gsize ((y : Int) + 1)) (gsize width)) 4
  let urow := u_plane + gsize_mul (gsize (Int.tdiv (y : Int) 2)) (gsize (Int.tdiv width 2))
  let vrow := v_plane + gsize_mul (gsize (Int.tdiv (y : Int) 2)) (gsize (Int.tdiv width 2))
  forLoop width 2 (i420_chroma_pixel src srow0 srow1 urow vrow) width.toNat 0 dst

/-- Embedding of `convert_rgba_to_i420` (lines 995-1080). -/
def convert_rgba_to_i420 (src : Option Buf) (width height : Int) :
    Except Fault (Option Buf) :=
  match src with
  | none => .ok none
  | some src =>
    if width ≤ 0 ∨ height ≤ 0 then .ok none
    else
      let y_size := gsize_mul (gsize width) (gsize height)
      let uv_plane := y_size / 4
      let dst := g_malloc (gsize_add y_size (gsize_mul uv_plane 2))
      let u_plane := y_size
      let v_plane := u_plane + uv_plane
      match luma_loop src width height dst with
      | .error e => .error e
      | .ok dst =>
        match forLoop height 2 (i420_chroma_row src width u_plane v_plane) height.toNat 0 dst with
        | .error e => .error e
        | .ok dst => .ok (some dst)

/-! ## The element -/

/-- One structure of a `GstCaps`, reduced to the fields the element reads:
`gst_structure_get_string(s, "format")` and `gst_structure_get_int` of
`"width"` and `"height"` (which succeed only on a field holding one fixed
integer, not a range or a list). -/
structure GstStructure where
  format : Option String
  width : Option Int
  height : Option Int
  framerate : Option (Int × Int)
  deriving DecidableEq, Repr

/-- A `GstCaps*` that is not `NULL`: its structures in order. -/
abbrev GstCaps := List GstStructure

/-- The values of `GstVideoFormat` the element distinguishes; `OTHER` stands for
every further format the GStreamer library knows by name. -/
inductive GstVideoFormat where
  | UNKNOWN | RGBA | BGRA | ARGB | ABGR | NV12 | I420
  | OTHER (id : Nat)
  deriving DecidableEq, Repr

/-- The arguments of `gst_buffer_add_video_meta_full`. -/
structure GstVideoMeta where
  format : GstVideoFormat
  width : Int
  height : Int
  n_planes : Nat
  offsets : List Nat
  strides : List Int
  deriving DecidableEq, Repr

/-- The buffer handed to the host by `create`. -/
structure GstBuffer where
  memory : Buf
  vmeta : GstVideoMeta
  pts : Nat
  dts : Option Nat
  duration : Nat
  deriving DecidableEq, Repr

/-- The fields of `struct _GstStaticPngSrc` (lines 44-71). `shared_mem` holds the
bytes of the wrapped memory, `rgba_data` and `frame_data` the bytes they point
to; `none` is `NULL`. -/
structure GstStaticPngSrc where
  location : Option String
  selected_format : String
  target_width : Int
  target_height : Int
  fps_n : Int
  fps_d : Int
  rgba_data : Option Buf
  rgba_size : Nat
  rgba_stride : Int
  frame_data : Option Buf
  frame_size : Nat
  frame_stride : Int
  actual_width : Int
  actual_height : Int
  num_planes : Int
  shared_mem : Option Buf
  frame_count : Nat
  frame_duration : Nat
  deriving DecidableEq, Repr

/-- `GST_SECOND`, in nanoseconds. -/
def GST_SECOND : Nat := 1000000000

/-- `G_MAXUINT64`. -/
def G_MAXUINT64 : Nat := 18446744073709551615

/-- The GStreamer library function `gst_util_uint64_scale_int (val, num, denom)`:
`val * num / denom` rounded down, computed without intermediate overflow, and
`G_MAXUINT64` when the result does not fit. -/
def gst_util_uint64_scale_int (val : Nat) (num denom : Int) : Nat :=
  let r := val * num.toNat / denom.toNat
  if r > G_MAXUINT64 then G_MAXUINT64 else r

/-- `g_strlcpy (self->selected_format, s, sizeof (self->selected_format))` into
the `gchar[5]` field: at most four characters are kept. -/
def g_strlcpy5 (s : String) : String := String.mk (s.data.take 4)

/-- Embedding of `gst_static_png_src_init` (lines 152-175). -/
def gst_static_png_src_init : GstStaticPngSrc :=
  { location := none,
    selected_format := g_strlcpy5 "RGBA",
    target_width := 0,
    target_height := 0,
    fps_n := 25,
    fps_d := 1,
    rgba_data := none,
    rgba_size := 0,
    rgba_stride := 0,
    frame_data := none,
    frame_size := 0,
    frame_stride := 0,
    actual_width := 0,
    actual_height := 0,
    num_planes := 1,
    shared_mem := none,
    frame_count := 0,
    frame_duration := gst_util_uint64_scale_int GST_SECOND 1 25 }

/-- A property write reaching `gst_static_png_src_set_property`. -/
inductive PropValue where
  | location (str : Option String)
  | fps (numerator denominator : Int)
  | width (v : Int)
  | height (v : Int)
  deriving DecidableEq, Repr

/-- Embedding of `gst_static_png_src_set_property` (lines 196-237). -/
def gst_static_png_src_set_property (self : GstStaticPngSrc) : PropValue → GstStaticPngSrc
  | .location str => { self with location := str }
  | .fps numerator denominator =>
    let self : GstStaticPngSrc := { self with fps_n := numerator, fps_d := denominator }
    let self : GstStaticPngSrc :=
      if self.fps_n ≤ 0 ∨ self.fps_d ≤ 0 then { self with fps_n := 25, fps_d := 1 } else self
    { self with frame_duration := gst_util_uint64_scale_int GST_SECOND self.fps_d self.fps_n }
  | .width v => { self with target_width := v }
  | .height v => { self with target_height := v }

/-- The text after the last occurrence of `c`: `strrchr (s, c) + 1`, `none` when
`strrchr` returns `NULL`. -/
def strrchr_tail (c : Char) : List Char → Option (List Char)
  | [] => none
  | x :: xs =>
    match strrchr_tail c xs with
    | some r => some r
    | none => if x = c then some xs else none

/-- The GLib function `g_ascii_strdown`. -/
def g_ascii_strdown (s : List Char) : List Char := s.map Char.toLower

/-- A decoded image: pixels, width, height. -/
abbrev Decoded := Buf × Int × Int

/-- What `start` takes from outside the element: the two decoders (they read
the file system through libpng and libjpeg) and the result of
`gst_pad_peer_query_caps` on the source pad (`none` when the pad or the caps
are `NULL`). -/
structure StartEnv where
  decode_png_to_rgba : String → Option Decoded
  decode_jpeg_to_rgba : String → Option Decoded
  peer_caps : Option GstCaps

/-- The decode step of `gst_static_png_src_start` (lines 284-308): the decoder is
chosen by the lower-cased text after the last dot. -/
def decode_by_extension (env : StartEnv) (location : String) : Option Decoded :=
  match strrchr_tail '.' location.data with
  | none => none
  | some [] => none
  | some (c :: cs) =>
    let ext := String.mk (g_ascii_strdown (c :: cs))
    if ext = "png" then env.decode_png_to_rgba location
    else if ext = "jpg" ∨ ext = "jpeg" ∨ ext = "jpp" then env.decode_jpeg_to_rgba location
    else none

/-- The body of the loop over the peer caps in `gst_static_png_src_start`
(lines 332-351), acting on `out_w`, `out_h` and `selected_format`. -/
def peer_caps_step (acc : Int × Int × String) (s : GstStructure) : Int × Int × String :=
  let (out_w, out_h, selected_format) := acc
  let (out_w, out_h) :=
    match s.width, s.height with
    | some w, some h => if w > 0 ∧ h > 0 then (w, h) else (out_w, out_h)
    | _, _ => (out_w, out_h)
  let selected_format :=
    match s.format with
    | some fmt =>
      if fmt = "RGBA" ∨ fmt = "BGRA" ∨ fmt = "ARGB" ∨ fmt = "ABGR" then g_strlcpy5 fmt
      else selected_format
    | none => selected_format
  (out_w, out_h, selected_format)

/-- The output dimensions `out_w`, `out_h` and the `selected_format` computed by
`gst_static_png_src_start` (lines 316-361) for a decoded image of
`img_w x img_h` pixels. -/
def resolve_output (self : GstStaticPngSrc) (peer_caps : Option GstCaps) (img_w img_h : Int) :
    Int × Int × String :=
  let acc : Int × Int × String := (img_w, img_h, self.selected_format)
  let acc :=
    match peer_caps with
    | some caps => caps.foldl peer_caps_step acc
    | none => acc
  let (out_w, out_h, selected_format) := acc
  if self.target_width > 0 ∧ self.target_height > 0 then
    (self.target_width, self.target_height, selected_format)
  else (out_w, out_h, selected_format)

/-- Embedding of `gst_static_png_src_start` (lines 273-394): the element after
the call and the returned `gboolean`. -/
def gst_static_png_src_start (env : StartEnv) (self : GstStaticPngSrc) :
    Except Fault (GstStaticPngSrc × Bool) :=
  match self.location with
  | none => .ok (self, false)
  | some location =>
    if location.data = [] then .ok (self, false)
    else
      match decode_by_extension env location with
      | none => .ok (self, false)
      | some (decoded, img_w, img_h) =>
        let (out_w, out_h, selected_format) := resolve_output self env.peer_caps img_w img_h
        let self : GstStaticPngSrc := { self with selected_format := selected_format }
        let scaled : Except Fault (Option Buf) :=
          if out_w ≠ img_w ∨ out_h ≠ img_h then
            scale_rgba_nearest decoded img_w img_h out_w out_h
          else .ok (some decoded)
        match scaled with
        | .error e => .error e
        | .ok none => .ok (self, false)
        | .ok (some final_pixels) =>
          let self : GstStaticPngSrc := { self with actual_width := out_w, actual_height := out_h }
          let self : GstStaticPngSrc := { self with rgba_stride := gint_cast (self.actual_width * 4) }
          let self : GstStaticPngSrc := { self with
            rgba_size := gsize_mul (gsize self.rgba_stride) (gsize self.actual_height),
            rgba_data := some final_pixels }
          .ok ({ self with
                  frame_data := none, frame_size := 0, frame_stride := 0, num_planes := 1,
                  shared_mem := none, frame_count := 0 }, true)

/-- Embedding of `gst_static_png_src_stop` (lines 396-422). -/
def gst_static_png_src_stop (self : GstStaticPngSrc) : GstStaticPngSrc × Bool :=
  let self : GstStaticPngSrc := { self with shared_mem := none }
  let self : GstStaticPngSrc := { self with
    frame_data := none, frame_size := 0, frame_stride := 0,
    actual_width := 0, actual_height := 0 }
  let self : GstStaticPngSrc :=
    match self.rgba_data with
    | some _ => { self with rgba_data := none, rgba_size := 0, rgba_stride := 0 }
    | none => self
  ({ self with frame_count := 0 }, true)

/-- Embedding of `memdup_fallback` (lines 93-108): `memcpy` reads `size` bytes of
`src`. -/
def memdup_fallback (src : Option Buf) (size : Nat) : Except Fault (Option Buf) :=
  match src with
  | none => .ok none
  | some src =>
    if size = 0 then .ok none
    else if size ≤ src.length then .ok (some (src.take size))
    else .error (.oobRead src.length src.length)

/-- What `create` takes from outside the element: the caps
`gst_pad_get_current_caps` returns on entry (`none` for `NULL`), whether
`gst_base_src_set_caps` accepts the default caps (after which they are the
current caps of the pad), and the library lookup
`gst_video_format_from_string`. -/
structure CreateEnv where
  current_caps : Option GstCaps
  set_caps_ok : Bool
  gst_video_format_from_string : String → GstVideoFormat

/-- The negotiation step of `gst_static_png_src_create` (lines 437-471): the
current caps of the pad, after the default RGBA caps have been set when there
were none. The outer `none` is a `GST_FLOW_ERROR` return, the inner `none` a
`NULL` caps pointer. -/
def negotiated_caps (env : CreateEnv) (self : GstStaticPngSrc) : Option (Option GstCaps) :=
  match env.current_caps with
  | some current => some (some current)
  | none =>
    let default_caps : GstCaps :=
      [{ format := some "RGBA", width := some self.actual_width,
         height := some self.actual_height,
         framerate := some (self.fps_n, self.fps_d) }]
    if env.set_caps_ok then some (some default_caps) else none

/-- The format name `fmt` read from the caps (lines 472-482). -/
def negotiated_format (current : Option GstCaps) : String :=
  match current with
  | some (s :: _) =>
    match s.format with
    | some f => f
    | none => "RGBA"
  | _ => "RGBA"

/-- The conversion step of `gst_static_png_src_create` (lines 485-524) for the
format name `fmt` and the bytes `rgba` of `rgba_data`: the element afterwards
and whether the step ran to its end (`false`: `GST_FLOW_ERROR` was
returned). -/
def convert_output (fmt : String) (rgba : Buf) (self : GstStaticPngSrc) :
    Except Fault (GstStaticPngSrc × Bool) :=
  if fmt = "NV12" then
    match convert_rgba_to_nv12 (some rgba) self.actual_width self.actual_height with
    | .error e => .error e
    | .ok none => .ok ({ self with frame_data := none }, false)
    | .ok (some d) =>
      .ok ({ self with
        frame_data := some d,
        frame_stride := self.actual_width,
        frame_size :=
          gsize_mul (gsize_mul (gsize self.actual_width) (gsize self.actual_height)) 3 / 2,
        num_planes := 2 }, true)
  else if fmt = "I420" then
    match convert_rgba_to_i420 (some rgba) self.actual_width self.actual_height with
    | .error e => .error e
    | .ok none => .ok ({ self with frame_data := none }, false)
    | .ok (some d) =>
      .ok ({ self with
        frame_data := some d,
        frame_stride := self.actual_width,
        frame_size :=
          gsize_mul (gsize_mul (gsize self.actual_width) (gsize self.actual_height)) 3 / 2,
        num_planes := 3 }, true)
  else
    match memdup_fallback (some rgba) self.rgba_size with
    | .error e => .error e
    | .ok none =>
      .ok ({ self with
        frame_size := self.rgba_size, frame_stride := self.rgba_stride,
        frame_data := none }, false)
    | .ok (some d) =>
      let swizzled : Except Fault (Option Buf) :=
        if fmt ≠ "RGBA" then
          swizzle_from_rgba_inplace (some d) self.actual_width self.actual_height (some fmt)
        else .ok (some d)
      match swizzled with
      | .error e => .error e
      | .ok d =>
        .ok ({ self with
          frame_size := self.rgba_size, frame_stride := self.rgba_stride,
          frame_data := d, num_planes := 1 }, true)

/-- The first half of `gst_static_png_src_create` (lines 429-535), entered when
`shared_mem` is `NULL`: the element afterwards and whether the half ran to its
end (`false`: `GST_FLOW_ERROR` was returned). -/
def build_output (env : CreateEnv) (self : GstStaticPngSrc) :
    Except Fault (GstStaticPngSrc × Bool) :=
  match self.rgba_data with
  | none => .ok (self, false)
  | some rgba =>
    match negotiated_caps env self with
    | none => .ok (self, false)
    | some current =>
      let fmt := negotiated_format current
      match convert_output fmt rgba { self with selected_format := g_strlcpy5 fmt } with
      | .error e => .error e
      | .ok (self, false) => .ok (self, false)
      | .ok (self, true) => .ok ({ self with shared_mem := self.frame_data }, true)

/-- The second half of `gst_static_png_src_create` (lines 537-590): the video
meta attached to the buffer. -/
def video_meta (env : CreateEnv) (self : GstStaticPngSrc) : GstVideoMeta :=
  let vfmt := env.gst_video_format_from_string self.selected_format
  let vfmt := if vfmt = GstVideoFormat.UNKNOWN then GstVideoFormat.RGBA else vfmt
  if vfmt = GstVideoFormat.NV12 then
    { format := vfmt, width := gint_cast self.actual_width,
      height := gint_cast self.actual_height, n_planes := 2,
      offsets := [0, gsize_mul (gsize self.actual_width) (gsize self.actual_height), 0, 0],
      strides := [self.actual_width, self.actual_width, 0, 0] }
  else if vfmt = GstVideoFormat.I420 then
    let y_size := gsize_mul (gsize self.actual_width) (gsize self.actual_height)
    let uv_size := gsize_mul (gsize self.actual_width / 2) (gsize self.actual_height / 2)
    { format := vfmt, width := gint_cast self.actual_width,
      height := gint_cast self.actual_height, n_planes := 3,
      offsets := [0, y_size, gsize_add y_size uv_size, 0],
      strides := [self.actual_width, Int.tdiv self.actual_width 2,
                  Int.tdiv self.actual_width 2, 0] }
  else
    { format := vfmt, width := gint_cast self.actual_width,
      height := gint_cast self.actual_height, n_planes := 1,
      offsets := [0, 0, 0, 0],
      strides := [self.frame_stride, 0, 0, 0] }

/-- Embedding of `gst_static_png_src_create` (lines 424-591): the element after
the call and the buffer stored in `*buf`; `none` is a `GST_FLOW_ERROR` return,
`some` a `GST_FLOW_OK` return. -/
def gst_static_png_src_create (env : CreateEnv) (self : GstStaticPngSrc) :
    Except Fault (GstStaticPngSrc × Option GstBuffer) :=
  let built : Except Fault (GstStaticPngSrc × Bool) :=
    match self.shared_mem with
    | none => build_output env self
    | some _ => .ok (self, true)
  match built with
  | .error e => .error e
  | .ok (self, false) => .ok (self, none)
  | .ok (self, true) =>
    match self.shared_mem with
    | none => .error .nullDeref
    | some mem =>
      let pts := (self.frame_count * self.frame_duration) % 18446744073709551616
      let buffer : GstBuffer :=
        { memory := mem, vmeta := video_meta env self, pts := pts, dts := none,
          duration := self.frame_duration }
      .ok ({ self with frame_count := (self.frame_count + 1) % 18446744073709551616 },
           some buffer)

/-- Consecutive frame requests, one for each environment of the list: the
buffers they hand out and the element afterwards when every one of them returns
`GST_FLOW_OK`, `none` as soon as one does not. -/
def frames_of : List CreateEnv → GstStaticPngSrc → Option (List GstBuffer × GstStaticPngSrc)
  | [], self => some ([], self)
  | env :: envs, self =>
    match gst_static_png_src_create env self with
    | .ok (self1, some buffer) =>
      match frames_of envs self1 with
      | some (buffers, self2) => some (buffer :: buffers, self2)
      | none => none
    | _ => none

/-- The library lookup `gst_video_format_from_string` on the six names of the
pad template (lines 36-42); every other name is unknown to this table. -/
def video_format_of_name (s : String) : GstVideoFormat :=
  if s = "RGBA" then .RGBA else if s = "BGRA" then .BGRA
  else if s = "ARGB" then .ARGB else if s = "ABGR" then .ABGR
  else if s = "NV12" then .NV12 else if s = "I420" then .I420
  else .UNKNOWN

/-! ## Specification-side definitions -/

/-- The source byte a nearest-neighbour scaler samples for destination byte
`j`: channel `j % 4` of the source pixel
`(⌊x * src_w / dst_w⌋, ⌊y * src_h / dst_h⌋)`, where `(x, y)` is the
destination pixel `j / 4` in row-major order. -/
def scale_src_index (sw sh dw dh j : Nat) : Nat :=
  ((j / 4 / dw * sh / dh) * sw + (j / 4 % dw) * sw / dw) * 4 + j % 4

/-- The channel of the RGBA source pixel that lands in byte `c` of the swizzled
pixel: `(r,g,b,a)` becomes `(b,g,r,a)` for BGRA, `(a,r,g,b)` for ARGB and
`(a,b,g,r)` for ABGR; every other tag leaves the pixel as it is. -/
def swizzle_perm (fmt : String) (c : Nat) : Nat :=
  if fmt = "BGRA" then (match c with | 0 => 2 | 1 => 1 | 2 => 0 | _ => c)
  else if fmt = "ARGB" then (match c with | 0 => 3 | 1 => 0 | 2 => 1 | 3 => 2 | _ => c)
  else if fmt = "ABGR" then (match c with | 0 => 3 | 1 => 2 | 2 => 1 | 3 => 0 | _ => c)
  else c

/-- The specification's `clamp(x, 0, 255)`, as a byte. -/
def spec_clamp (x : Int) : Nat :=
  if x < 0 then 0 else if x > 255 then 255 else x.toNat

/-- The specification's luma byte `clamp(((66R + 129G + 25B + 128) >> 8) + 16, 0, 255)`. -/
def spec_luma (r g b : Nat) : Nat :=
  spec_clamp (((66 * (r : Int) + 129 * (g : Int) + 25 * (b : Int) + 128) >>> (8 : Nat)) + 16)

/-- The specification's per-pixel chroma term `(-38R - 74G + 112B + 128) >> 8`
(arithmetic shift). -/
def spec_chroma_u (r g b : Nat) : Int :=
  (-38 * (r : Int) - 74 * (g : Int) + 112 * (b : Int) + 128) >>> (8 : Nat)

/-- The specification's per-pixel chroma term `(112R - 94G - 18B + 128) >> 8`
(arithmetic shift). -/
def spec_chroma_v (r g b : Nat) : Int :=
  (112 * (r : Int) - 94 * (g : Int) - 18 * (b : Int) + 128) >>> (8 : Nat)

/-- The per-pixel term `f` at the pixel whose first byte is at offset `p`. -/
def term_at (f : Nat → Nat → Nat → Int) (src : Buf) (p : Nat) : Int :=
  f (src.getD p 0) (src.getD (p + 1) 0) (src.getD (p + 2) 0)

/-- The chroma byte of the 2x2 block whose top-left pixel is `(x, y)` in an
image of width `w`: the sum of the four per-pixel terms, divided by four
truncating toward zero, plus 128, clamped to `[0, 255]`. -/
def spec_block (f : Nat → Nat → Nat → Int) (src : Buf) (w x y : Nat) : Nat :=
  spec_clamp (Int.tdiv
    (term_at f src ((y * w + x) * 4) + term_at f src ((y * w + (x + 1)) * 4)
      + term_at f src (((y + 1) * w + x) * 4) + term_at f src (((y + 1) * w + (x + 1)) * 4)) 4
    + 128)

/-- The luma byte of pixel `k` (row-major) of `src`. -/
def spec_luma_at (src : Buf) (k : Nat) : Nat :=
  spec_luma (src.getD (k * 4) 0) (src.getD (k * 4 + 1) 0) (src.getD (k * 4 + 2) 0)

/-- Byte `k` of the interleaved NV12 chroma plane (row stride `w`): the `U`
byte at even columns and the `V` byte at odd columns of the block in chroma row
`k / w`. -/
def spec_nv12_uv (src : Buf) (w k : Nat) : Nat :=
  if k % w % 2 = 0 then spec_block spec_chroma_u src w (k % w / 2 * 2) (k / w * 2)
  else spec_block spec_chroma_v src w (k % w / 2 * 2) (k / w * 2)

/-- Byte `k` of an I420 chroma plane (row stride `w / 2`) for the per-pixel
term `f`. -/
def spec_i420_plane (f : Nat → Nat → Nat → Int) (src : Buf) (w k : Nat) : Nat :=
  spec_block f src w (k % (w / 2) * 2) (k / (w / 2) * 2)

/-- A 2x2 RGBA test image: a red, a green, a blue and a white pixel. -/
def sample_2x2 : Buf :=
  [255, 0, 0, 255, 0, 255, 0, 255, 0, 0, 255, 255, 255, 255, 255, 255]

/-- A caps structure pins a size: it holds one fixed positive width and one
fixed positive height. -/
def pins_size (s : GstStructure) : Bool :=
  match s.width, s.height with
  | some w, some h => decide (0 < w ∧ 0 < h)
  | _, _ => false

/-- The element as a successful `start` leaves it: the format `f` kept from the
peer caps, the resolved size `ow x oh` and the canonical pixels `p`. -/
def loaded_state (self : GstStaticPngSrc) (f : String) (ow oh : Int) (p : Buf) :
    GstStaticPngSrc :=
  { self with
    selected_format := f, actual_width := ow, actual_height := oh,
    rgba_stride := gint_cast (ow * 4),
    rgba_size := gsize_mul (gsize (gint_cast (ow * 4))) (gsize oh),
    rgba_data := some p,
    frame_data := none, frame_size := 0, frame_stride := 0, num_planes := 1,
    shared_mem := none, frame_count := 0 }

/-- The 2x2 fully opaque red image of the specification's scenario. -/
def red_2x2 : Buf :=
  [255, 0, 0, 255, 255, 0, 0, 255, 255, 0, 0, 255, 255, 0, 0, 255]

/-- A 1x1 image: one opaque red pixel. -/
def red_1x1 : Buf := [255, 0, 0, 255]

/-- Scenario for the dimension priority: the element with `location` set to a
PNG file and the properties `width = 1`, `height = 2`. -/
def priority_element : GstStaticPngSrc :=
  gst_static_png_src_set_property
    (gst_static_png_src_set_property
      (gst_static_png_src_set_property gst_static_png_src_init (.location (some "image.png")))
      (.width 1))
    (.height 2)

/-- Scenario for the dimension priority: the PNG decoder yields a 1x1 image and
the downstream peer pins `width = 2`, `height = 1`. -/
def priority_env : StartEnv :=
  { decode_png_to_rgba := fun _ => some (red_1x1, 1, 1),
    decode_jpeg_to_rgba := fun _ => none,
    peer_caps := some [{ format := none, width := some 2, height := some 1, framerate := none }] }

/-- A loaded element holding a 1x1 image, as `start` leaves it. -/
def loaded_1x1 : GstStaticPngSrc :=
  { gst_static_png_src_init with
    location := some "image.png",
    rgba_data := some red_1x1, rgba_size := 4, rgba_stride := 4,
    actual_width := 1, actual_height := 1 }

/-- A frame request for which the negotiated caps name the format `GRAY8`,
which is none of the six formats of the pad template. -/
def gray8_env : CreateEnv :=
  { current_caps := some [{ format := some "GRAY8", width := some 1, height := some 1,
                            framerate := some (25, 1) }],
    set_caps_ok := true,
    gst_video_format_from_string := video_format_of_name }

/-- A frame request for which the negotiated caps name the format
`I420_10LE`, which is none of the six formats of the pad template. -/
def i420_10le_env : CreateEnv :=
  { current_caps := some [{ format := some "I420_10LE", width := some 1, height := some 1,
                            framerate := some (25, 1) }],
    set_caps_ok := true,
    gst_video_format_from_string := video_format_of_name }

/-- Scenario for the timestamps: a PNG location and a frame rate of 1/1. -/
def one_fps_element : GstStaticPngSrc :=
  gst_static_png_src_set_property
    (gst_static_png_src_set_property gst_static_png_src_init (.location (some "image.png")))
    (.fps 1 1)

/-- Scenario for the timestamps: the PNG decoder yields a 1x1 image, no peer. -/
def one_fps_start_env : StartEnv :=
  { decode_png_to_rgba := fun _ => some (red_1x1, 1, 1),
    decode_jpeg_to_rgba := fun _ => none,
    peer_caps := none }

/-- Scenario for the timestamps: the element after `start`. -/
def one_fps_loaded : GstStaticPngSrc :=
  { one_fps_element with
    rgba_data := some red_1x1, rgba_size := 4, rgba_stride := 4,
    actual_width := 1, actual_height := 1 }

/-- Scenario for the timestamps: the element after the first frame request. -/
def one_fps_serving : GstStaticPngSrc :=
  { one_fps_loaded with
    frame_data := some red_1x1, frame_size := 4, frame_stride := 4,
    shared_mem := some red_1x1, frame_count := 1 }

/-- Scenario for the timestamps: a frame request with no caps negotiated yet. -/
def default_caps_env : CreateEnv :=
  { current_caps := none, set_caps_ok := true,
    gst_video_format_from_string := video_format_of_name }

/-- Scenario for the timestamps: the buffer of the first frame request. -/
def one_fps_first_frame : GstBuffer :=
  { memory := red_1x1, vmeta := video_meta default_caps_env one_fps_serving,
    pts := 0, dts := none, duration := 1000000000 }

/-- Scenario for the timestamps: the buffers of the first three frame
requests. -/
def one_fps_three_frames : List GstBuffer :=
  [one_fps_first_frame,
   { one_fps_first_frame with pts := 1000000000 },
   { one_fps_first_frame with pts := 2000000000 }]

/-- The buffer a serving element hands out `k` requests from now. -/
def serving_frame (env : CreateEnv) (self : GstStaticPngSrc) (mem : Buf) (k : Nat) : GstBuffer :=
  { memory := mem, vmeta := video_meta env self,
    pts := ((self.frame_count + k) % 18446744073709551616 * self.frame_duration)
      % 18446744073709551616,
    dts := none, duration := self.frame_duration }

/-- The environment of a frame request whose negotiated caps name NV12 at
2x2. -/
def nv12_env : CreateEnv :=
  { current_caps := some [{ format := some "NV12", width := some 2, height := some 2,
                            framerate := some (25, 1) }],
    set_caps_ok := true,
    gst_video_format_from_string := video_format_of_name }

/-! # Theorems -/

/-! ## Memory and machine-integer lemmas -/

theorem ok_bind {α β : Type} (a : α) (f : α → Except Fault β) :
    ((Except.ok a : Except Fault α) >>= f) = f a := rfl

theorem pure_eq_ok {α : Type} (a : α) : (pure a : Except Fault α) = Except.ok a := rfl

theorem rd_of_lt (b : Buf) (i : Nat) (h : i < b.length) : rd b i = .ok (b.getD i 0) := by
  simp [rd, List.getElem?_eq_getElem h]

theorem wr_of_lt (b : Buf) (i v : Nat) (h : i < b.length) : wr b i v = .ok (b.set i v) := by
  simp [wr, h]

theorem getD_eq_of_lt (b : Buf) (i : Nat) (h : i < b.length) : b[i]? = some (b.getD i 0) := by
  simp [List.getElem?_eq_getElem h]

theorem gsize_natCast (n : Nat) (h : n < 18446744073709551616) : gsize (n : Int) = n := by
  unfold gsize; omega

theorem gsize_mul_of_lt (a b : Nat) (h : a * b < 18446744073709551616) :
    gsize_mul a b = a * b := by
  unfold gsize_mul; exact Nat.mod_eq_of_lt h

theorem gsize_add_of_lt (a b : Nat) (h : a + b < 18446744073709551616) :
    gsize_add a b = a + b := by
  unfold gsize_add; exact Nat.mod_eq_of_lt h

/-- Products of two `gint`-sized naturals stay below `2^62`. -/
theorem mul_lt_two62 (a b : Nat) (ha : a < 2147483648) (hb : b < 2147483648) :
    a * b < 4611686018427387904 := by
  calc a * b ≤ 2147483647 * 2147483647 := Nat.mul_le_mul (by omega) (by omega)
    _ < 4611686018427387904 := by norm_num

/-- Row-major indices stay inside the rectangle. -/
theorem index_lt (a m b n : Nat) (ha : a < m) (hb : b < n) : a * n + b < m * n := by
  calc a * n + b < a * n + n := by omega
    _ = (a + 1) * n := by ring
    _ ≤ m * n := Nat.mul_le_mul_right n ha

theorem forLoop_inv {σ : Type} (stop : Int) (step : Nat) (hstep : 0 < step)
    (body : Nat → σ → Except Fault σ) (Inv : Nat → σ → Prop)
    (hbody : ∀ (i : Nat) (s : σ), (i : Int) < stop → Inv i s → ∃ s1, body i s = .ok s1 ∧ Inv (i + step) s1) :
    ∀ (fuel i : Nat) (s : σ), stop ≤ (i : Int) + fuel → Inv i s →
      ∃ j s1, forLoop stop step body fuel i s = .ok s1 ∧ Inv j s1 ∧ stop ≤ (j : Int) := by
  intro fuel
  induction fuel with
  | zero =>
    intro i s hf hi
    refine ⟨i, s, ?_, hi, by simpa using hf⟩
    have : ¬ ((i : Int) < stop) := by simp at hf; omega
    simp [forLoop, this]
  | succ n ih =>
    intro i s hf hi
    by_cases hlt : (i : Int) < stop
    · obtain ⟨s1, hb, hi1⟩ := hbody i s hlt hi
      obtain ⟨j, s2, hrun, hj, hstop⟩ := ih (i + step) s1 (by push_cast at hf ⊢; omega) hi1
      exact ⟨j, s2, by simp [forLoop, hlt, hb, hrun], hj, hstop⟩
    · exact ⟨i, s, by simp [forLoop, hlt], hi, by omega⟩

/-- Four consecutive byte stores. -/
theorem set4_getElem_opt (b : Buf) (k v0 v1 v2 v3 j : Nat) (hk : k + 3 < b.length) :
    ((((b.set k v0).set (k + 1) v1).set (k + 2) v2).set (k + 3) v3)[j]? =
      if j = k then some v0 else if j = k + 1 then some v1 else if j = k + 2 then some v2
      else if j = k + 3 then some v3 else b[j]? := by
  simp only [List.getElem?_set, List.length_set]
  split_ifs <;> first | rfl | omega

/-- Source coordinate of the scaler: the wrapped 64-bit computation is the
rounded-down quotient, and it stays inside the source. -/
theorem scale_coord (n s d : Nat) (hn : n < d) (hd : d < 2147483648) (hs : s < 2147483648) :
    gint_cast (Int.tdiv (gint64_cast ((n : Int) * (s : Int))) (d : Int)) = ((n * s / d : Nat) : Int)
      ∧ (0 < s → n * s / d < s) := by
  have h1 : n * s < 4611686018427387904 := mul_lt_two62 n s (by omega) hs
  have h2 : (n : Int) * (s : Int) = ((n * s : Nat) : Int) := by push_cast; rfl
  have h3 : gint64_cast ((n : Int) * (s : Int)) = ((n * s : Nat) : Int) := by
    rw [h2]; unfold gint64_cast; omega
  have h4 : n * s / d ≤ n * s / d := le_rfl
  have h5 : n * s / d < s ∨ s = 0 := by
    rcases Nat.eq_zero_or_pos s with h0 | h0
    · right; exact h0
    · left
      rw [Nat.div_lt_iff_lt_mul (by omega)]
      exact Nat.mul_lt_mul_of_lt_of_le hn le_rfl h0 |>.trans_le (by rw [Nat.mul_comm])
  constructor
  · rw [h3, ← Int.ofNat_tdiv]
    unfold gint_cast
    rcases h5 with h5 | h5
    · generalize n * s / d = q at h5 ⊢
      omega
    · subst h5; simp
  · intro h0
    rcases h5 with h5 | h5
    · exact h5
    · omega

/-! ## The scaler (C2) -/

/-- One step of the inner loop of the scaler with the row offsets in closed
form: four bytes are copied. -/
theorem scale_pixel_ok (src dst : Buf) (sw dw sy y x : Nat) (N M : Nat)
    (hsw : 0 < sw) (hsw2 : sw < 2147483648) (hdw2 : dw < 2147483648)
    (hx : x < dw) (hsy : sy * sw + x * sw / dw < N) (hy : y * dw + x < M)
    (hsrc : src.length = N * 4) (hdst : dst.length = M * 4) :
    ∃ d1, scale_pixel src sw dw (sy * sw * 4) (y * dw * 4) x dst = .ok d1 ∧
      d1.length = dst.length ∧
      ∀ j, d1[j]? =
        if (y * dw + x) * 4 ≤ j ∧ j < (y * dw + x) * 4 + 4 then
          src[(sy * sw + x * sw / dw) * 4 + (j - (y * dw + x) * 4)]?
        else dst[j]? := by
  obtain ⟨hc, hlt⟩ := scale_coord x sw dw hx hdw2 hsw2
  have hsx : x * sw / dw < sw := hlt hsw
  unfold scale_pixel
  simp only [hc]
  clear hc hlt
  generalize x * sw / dw = sx at *
  rw [gsize_natCast sx (by omega), gsize_natCast x (by omega),
    gsize_mul_of_lt sx 4 (by omega), gsize_mul_of_lt x 4 (by omega)]
  have e1 : sy * sw * 4 + sx * 4 = (sy * sw + sx) * 4 := by ring
  have e2 : y * dw * 4 + x * 4 = (y * dw + x) * 4 := by ring
  rw [e1, e2]
  generalize sy * sw + sx = J at *
  generalize y * dw + x = Q at *
  rw [rd_of_lt src (J * 4 + 0) (by omega), rd_of_lt src (J * 4 + 1) (by omega),
    rd_of_lt src (J * 4 + 2) (by omega), rd_of_lt src (J * 4 + 3) (by omega)]
  simp only [ok_bind]
  rw [wr_of_lt _ _ _ (by omega)]
  simp only [ok_bind]
  rw [wr_of_lt _ _ _ (by simp only [List.length_set]; omega)]
  simp only [ok_bind]
  rw [wr_of_lt _ _ _ (by simp only [List.length_set]; omega)]
  simp only [ok_bind]
  rw [wr_of_lt _ _ _ (by simp only [List.length_set]; omega)]
  simp only [ok_bind, pure_eq_ok]
  refine ⟨_, rfl, by simp only [List.length_set], ?_⟩
  intro j
  have hs := set4_getElem_opt dst (Q * 4) (src.getD (J * 4 + 0) 0) (src.getD (J * 4 + 1) 0)
    (src.getD (J * 4 + 2) 0) (src.getD (J * 4 + 3) 0) j (by omega)
  simp only [Nat.add_zero] at hs ⊢
  rw [hs]
  by_cases hin : Q * 4 ≤ j ∧ j < Q * 4 + 4
  · rw [if_pos hin]
    obtain ⟨c, rfl⟩ : ∃ c, j = Q * 4 + c := ⟨j - Q * 4, by omega⟩
    have hc : c < 4 := by omega
    rw [Nat.add_sub_cancel_left, getD_eq_of_lt src (J * 4 + c) (by omega)]
    interval_cases c
    · rw [if_pos (by omega)]; rfl
    · rw [if_neg (by omega), if_pos (by omega)]
    · rw [if_neg (by omega), if_neg (by omega), if_pos (by omega)]
    · rw [if_neg (by omega), if_neg (by omega), if_neg (by omega), if_pos (by omega)]
  · rw [if_neg hin, if_neg (by omega), if_neg (by omega), if_neg (by omega), if_neg (by omega)]

theorem index_div_mod (y dw x : Nat) (hx : x < dw) :
    (y * dw + x) / dw = y ∧ (y * dw + x) % dw = x := by
  have hdw : 0 < dw := by omega
  constructor
  · rw [Nat.add_comm, Nat.add_mul_div_right _ _ hdw, Nat.div_eq_of_lt hx, Nat.zero_add]
  · rw [Nat.add_comm, Nat.add_mul_mod_self_right, Nat.mod_eq_of_lt hx]

/-- One row of the scaler: the bytes of row `y` of the destination are filled
from the source, every other byte is left as it was. -/
theorem scale_row_ok (src dst : Buf) (sw sh dw dh y : Nat)
    (hsw : 0 < sw) (hsh : 0 < sh) (hsw2 : sw < 2147483648) (hsh2 : sh < 2147483648)
    (hdw2 : dw < 2147483648) (hdh2 : dh < 2147483648) (hy : y < dh)
    (hsrc : src.length = sw * sh * 4) (hdst : dst.length = dw * dh * 4) :
    ∃ d1, scale_row src sw sh dw dh y dst = .ok d1 ∧ d1.length = dst.length ∧
      ∀ j, d1[j]? =
        if y * dw * 4 ≤ j ∧ j < (y * dw + dw) * 4 then src[scale_src_index sw sh dw dh j]?
        else dst[j]? := by
  obtain ⟨hc, hlt⟩ := scale_coord y sh dh hy hdh2 hsh2
  have hsy : y * sh / dh < sh := hlt hsh
  unfold scale_row
  simp only [hc]
  clear hc hlt
  have hsydef : y * sh / dh = y * sh / dh := rfl
  generalize hsyv : y * sh / dh = sy at hsy ⊢
  have b1 : sy * sw < 4611686018427387904 := mul_lt_two62 sy sw (by omega) hsw2
  have b2 : y * dw < 4611686018427387904 := mul_lt_two62 y dw (by omega) hdw2
  rw [gsize_natCast sy (by omega), gsize_natCast sw (by omega), gsize_natCast y (by omega),
    gsize_natCast dw (by omega), gsize_mul_of_lt sy sw (by omega),
    gsize_mul_of_lt (sy * sw) 4 (by omega), gsize_mul_of_lt y dw (by omega),
    gsize_mul_of_lt (y * dw) 4 (by omega)]
  have key := forLoop_inv (dw : Int) 1 Nat.one_pos
    (scale_pixel src sw dw (sy * sw * 4) (y * dw * 4))
    (fun x d => x ≤ dw ∧ d.length = dst.length ∧ ∀ j, d[j]? =
        if y * dw * 4 ≤ j ∧ j < (y * dw + x) * 4 then src[scale_src_index sw sh dw dh j]?
        else dst[j]?)
    (by
      intro x d hx ⟨_, hlen, hd⟩
      have hx : x < dw := by omega
      have hJ : sy * sw + x * sw / dw < sh * sw := by
        have := (scale_coord x sw dw hx hdw2 hsw2).2 hsw
        exact index_lt sy sh _ sw hsy this
      have hQ : y * dw + x < dh * dw := index_lt y dh x dw hy hx
      obtain ⟨d1, hrun, hlen1, hd1⟩ := scale_pixel_ok src d sw dw sy y x (sh * sw) (dh * dw)
        hsw hsw2 hdw2 hx hJ hQ (by rw [hsrc]; ring) (by rw [hlen, hdst]; ring)
      refine ⟨d1, hrun, by omega, by omega, ?_⟩
      intro j
      rw [hd1 j, hd j]
      by_cases h1 : (y * dw + x) * 4 ≤ j ∧ j < (y * dw + x) * 4 + 4
      · rw [if_pos h1, if_pos (by omega)]
        have hj4 : j / 4 = y * dw + x := by omega
        obtain ⟨hdv, hmd⟩ := index_div_mod y dw x hx
        unfold scale_src_index
        rw [hj4, hdv, hmd, hsyv]
        congr 1
        omega
      · rw [if_neg h1]
        by_cases h2 : y * dw * 4 ≤ j ∧ j < (y * dw + x) * 4
        · rw [if_pos h2, if_pos (by omega)]
        · rw [if_neg h2, if_neg (by omega)])
    (dw : Int).toNat 0 dst (by omega) ⟨by omega, rfl, by
      intro j
      rw [if_neg (by omega)]⟩
  obtain ⟨x, d1, hrun, ⟨hxle, hlen, hd⟩, hstop⟩ := key
  have hx : x = dw := by omega
  subst hx
  exact ⟨d1, hrun, hlen, hd⟩

theorem g_malloc_length (n : Nat) : (g_malloc n).length = n := by
  simp [g_malloc]

/-- C2. For positive dimensions in the `gint` range and a source of
`src_w*src_h*4` bytes, `scale_rgba_nearest` returns a buffer of exactly
`dst_w*dst_h*4` bytes in which each of the four bytes of destination pixel
`(x, y)` is the same byte of source pixel
`(⌊x*src_w/dst_w⌋, ⌊y*src_h/dst_h⌋)`, which lies inside the source. -/
theorem scale_rgba_nearest_spec (src : Buf) (sw sh dw dh : Nat)
    (hsw : 0 < sw) (hsh : 0 < sh) (hdw : 0 < dw) (hdh : 0 < dh)
    (hsw2 : sw < 2147483648) (hsh2 : sh < 2147483648)
    (hdw2 : dw < 2147483648) (hdh2 : dh < 2147483648)
    (hsrc : src.length = sw * sh * 4) :
    ∃ dst, scale_rgba_nearest src sw sh dw dh = .ok (some dst) ∧
      dst.length = dw * dh * 4 ∧
      ∀ x y c, x < dw → y < dh → c < 4 →
        ((y * sh / dh) * sw + x * sw / dw) * 4 + c < src.length ∧
        dst[(y * dw + x) * 4 + c]? = src[((y * sh / dh) * sw + x * sw / dw) * 4 + c]? := by
  have b1 : dw * dh < 4611686018427387904 := mul_lt_two62 dw dh hdw2 hdh2
  have hguard : ¬ ((sw : Int) ≤ 0 ∨ (sh : Int) ≤ 0 ∨ (dw : Int) ≤ 0 ∨ (dh : Int) ≤ 0) := by omega
  unfold scale_rgba_nearest
  rw [if_neg hguard]
  simp only []
  rw [gsize_natCast dw (by omega), gsize_natCast dh (by omega), gsize_mul_of_lt dw dh (by omega),
    gsize_mul_of_lt (dw * dh) 4 (by omega)]
  have key := forLoop_inv (dh : Int) 1 Nat.one_pos (scale_row src sw sh dw dh)
    (fun y d => y ≤ dh ∧ d.length = dw * dh * 4 ∧
      ∀ j, j < y * dw * 4 → d[j]? = src[scale_src_index sw sh dw dh j]?)
    (by
      intro y d hy ⟨_, hlen, hd⟩
      have hy : y < dh := by omega
      obtain ⟨d1, hrun, hlen1, hd1⟩ := scale_row_ok src d sw sh dw dh y hsw hsh hsw2 hsh2
        hdw2 hdh2 hy hsrc hlen
      refine ⟨d1, hrun, by omega, by omega, ?_⟩
      intro j hj
      have e : (y + 1) * dw * 4 = (y * dw + dw) * 4 := by ring
      rw [hd1 j]
      by_cases h1 : y * dw * 4 ≤ j ∧ j < (y * dw + dw) * 4
      · rw [if_pos h1]
      · rw [if_neg h1]
        exact hd j (by omega))
    (dh : Int).toNat 0 (g_malloc (dw * dh * 4)) (by omega)
    ⟨by omega, g_malloc_length _, by intro j hj; omega⟩
  obtain ⟨y, d1, hrun, ⟨hyle, hlen, hd⟩, hstop⟩ := key
  have hy : y = dh := by omega
  subst hy
  refine ⟨d1, by rw [hrun], hlen, ?_⟩
  intro x y' c hx hy' hc
  have hsx := (scale_coord x sw dw hx hdw2 hsw2).2 hsw
  have hsy := (scale_coord y' sh y hy' hdh2 hsh2).2 hsh
  have hJ := index_lt _ sh _ sw hsy hsx
  have hQ := index_lt y' y x dw hy' hx
  constructor
  · rw [hsrc]
    have : sh * sw = sw * sh := Nat.mul_comm _ _
    omega
  · have e : y * dw * 4 = (y * dw) * 4 := rfl
    rw [hd ((y' * dw + x) * 4 + c) (by omega)]
    obtain ⟨hdv, hmd⟩ := index_div_mod y' dw x hx
    unfold scale_src_index
    have hj4 : ((y' * dw + x) * 4 + c) / 4 = y' * dw + x := by omega
    have hj5 : ((y' * dw + x) * 4 + c) % 4 = c := by omega
    rw [hj4, hj5, hdv, hmd]

/-- Witness of C2, on the scenario of the specification: a 2x2 source scaled to
4x2. -/
theorem scale_rgba_nearest_spec_witness :
    ∃ dst, scale_rgba_nearest [1, 2, 3, 4, 5, 6, 7, 8, 9, 10, 11, 12, 13, 14, 15, 16]
        ((2 : Nat) : Int) ((2 : Nat) : Int) ((4 : Nat) : Int) ((2 : Nat) : Int) = .ok (some dst) ∧
      dst.length = 4 * 2 * 4 ∧
      ∀ x y c, x < 4 → y < 2 → c < 4 →
        ((y * 2 / 2) * 2 + x * 2 / 4) * 4 + c
          < [1, 2, 3, 4, 5, 6, 7, 8, 9, 10, 11, 12, 13, 14, 15, 16].length ∧
        dst[(y * 4 + x) * 4 + c]? =
          [1, 2, 3, 4, 5, 6, 7, 8, 9, 10, 11, 12, 13, 14, 15, 16][((y * 2 / 2) * 2 + x * 2 / 4) * 4 + c]? :=
  scale_rgba_nearest_spec [1, 2, 3, 4, 5, 6, 7, 8, 9, 10, 11, 12, 13, 14, 15, 16] 2 2 4 2
    (by decide) (by decide) (by decide) (by decide) (by decide) (by decide) (by decide)
    (by decide) (by decide)

/-! ## Packed swizzle (C7, C8) -/

/-- One step of the swizzle loop: pixel `i` is permuted, every other byte is
left as it was. -/
theorem swizzle_pixel_ok (fmt : String) (i : Nat) (pixels : Buf)
    (hi : i * 4 + 3 < pixels.length) (hi2 : i < 4611686018427387904) :
    ∃ d1, swizzle_pixel fmt i pixels = .ok d1 ∧ d1.length = pixels.length ∧
      ∀ j, d1[j]? =
        if i * 4 ≤ j ∧ j < i * 4 + 4 then pixels[i * 4 + swizzle_perm fmt (j - i * 4)]?
        else pixels[j]? := by
  unfold swizzle_pixel
  simp only []
  rw [gsize_mul_of_lt i 4 (by omega)]
  generalize i * 4 = Q at *
  rw [rd_of_lt pixels (Q + 0) (by omega), rd_of_lt pixels (Q + 1) (by omega),
    rd_of_lt pixels (Q + 2) (by omega), rd_of_lt pixels (Q + 3) (by omega)]
  simp only [ok_bind, Nat.add_zero]
  have fin : ∀ (v0 v1 v2 v3 : Nat) (s0 s1 s2 s3 : Nat),
      pixels[Q + s0]? = some v0 → pixels[Q + s1]? = some v1 →
      pixels[Q + s2]? = some v2 → pixels[Q + s3]? = some v3 →
      swizzle_perm fmt 0 = s0 → swizzle_perm fmt 1 = s1 →
      swizzle_perm fmt 2 = s2 → swizzle_perm fmt 3 = s3 →
      ∃ d1, (do
          let p1 ← wr pixels Q v0
          let p2 ← wr p1 (Q + 1) v1
          let p3 ← wr p2 (Q + 2) v2
          let p4 ← wr p3 (Q + 3) v3
          pure p4) = Except.ok d1 ∧ d1.length = pixels.length ∧
        ∀ j, d1[j]? =
          if Q ≤ j ∧ j < Q + 4 then pixels[Q + swizzle_perm fmt (j - Q)]? else pixels[j]? := by
    intro v0 v1 v2 v3 s0 s1 s2 s3 h0 h1 h2 h3 e0 e1 e2 e3
    rw [wr_of_lt _ _ _ (by omega)]
    simp only [ok_bind]
    rw [wr_of_lt _ _ _ (by simp only [List.length_set]; omega)]
    simp only [ok_bind]
    rw [wr_of_lt _ _ _ (by simp only [List.length_set]; omega)]
    simp only [ok_bind]
    rw [wr_of_lt _ _ _ (by simp only [List.length_set]; omega)]
    simp only [ok_bind, pure_eq_ok]
    refine ⟨_, rfl, by simp only [List.length_set], ?_⟩
    intro j
    rw [set4_getElem_opt pixels Q v0 v1 v2 v3 j (by omega)]
    by_cases hin : Q ≤ j ∧ j < Q + 4
    · rw [if_pos hin]
      obtain ⟨c, rfl⟩ : ∃ c, j = Q + c := ⟨j - Q, by omega⟩
      have hc : c < 4 := by omega
      rw [Nat.add_sub_cancel_left]
      interval_cases c
      · rw [if_pos (by omega), e0, h0]
      · rw [if_neg (by omega), if_pos (by omega), e1, h1]
      · rw [if_neg (by omega), if_neg (by omega), if_pos (by omega), e2, h2]
      · rw [if_neg (by omega), if_neg (by omega), if_neg (by omega), if_pos (by omega), e3, h3]
    · rw [if_neg hin, if_neg (by omega), if_neg (by omega), if_neg (by omega),
        if_neg (by omega)]
  have g0 := getD_eq_of_lt pixels Q (by omega)
  have g1 := getD_eq_of_lt pixels (Q + 1) (by omega)
  have g2 := getD_eq_of_lt pixels (Q + 2) (by omega)
  have g3 := getD_eq_of_lt pixels (Q + 3) (by omega)
  by_cases hb : fmt = "BGRA"
  · rw [if_pos hb]
    subst hb
    exact fin _ _ _ _ 2 1 0 3 g2 g1 g0 g3 (by decide) (by decide) (by decide) (by decide)
  · rw [if_neg hb]
    by_cases ha : fmt = "ARGB"
    · rw [if_pos ha]
      subst ha
      exact fin _ _ _ _ 3 0 1 2 g3 g0 g1 g2 (by decide) (by decide) (by decide) (by decide)
    · rw [if_neg ha]
      by_cases hc : fmt = "ABGR"
      · rw [if_pos hc]
        subst hc
        exact fin _ _ _ _ 3 2 1 0 g3 g2 g1 g0 (by decide) (by decide) (by decide) (by decide)
      · rw [if_neg hc]
        refine ⟨pixels, rfl, rfl, ?_⟩
        intro j
        by_cases hin : Q ≤ j ∧ j < Q + 4
        · rw [if_pos hin]
          have : swizzle_perm fmt (j - Q) = j - Q := by
            unfold swizzle_perm
            rw [if_neg hb, if_neg ha, if_neg hc]
          rw [this]
          congr 1
          omega
        · rw [if_neg hin]

/-- The whole swizzle, byte by byte: byte `j` of the result is byte
`swizzle_perm fmt (j % 4)` of the same pixel of the input. -/
theorem swizzle_ok (pixels : Buf) (w h : Nat) (fmt : String)
    (hw : w < 2147483648) (hh : h < 2147483648) (hlen : pixels.length = w * h * 4) :
    ∃ out, swizzle_from_rgba_inplace (some pixels) w h (some fmt) = .ok (some out) ∧
      out.length = pixels.length ∧
      ∀ j, out[j]? = pixels[j / 4 * 4 + swizzle_perm fmt (j % 4)]? := by
  have hperm : ∀ c, c < 4 → swizzle_perm fmt c < 4 := by
    intro c hc
    unfold swizzle_perm
    interval_cases c <;> split_ifs <;> simp
  have hid : ∀ j, j / 4 * 4 + j % 4 = j := by intro j; omega
  have hout : ∀ j, pixels.length ≤ j →
      pixels[j / 4 * 4 + swizzle_perm fmt (j % 4)]? = none := by
    intro j hj
    apply List.getElem?_eq_none
    have := hperm (j % 4) (by omega)
    omega
  unfold swizzle_from_rgba_inplace
  simp only []
  by_cases hr : fmt = "RGBA"
  · rw [if_pos hr]
    refine ⟨pixels, rfl, rfl, ?_⟩
    intro j
    have : swizzle_perm fmt (j % 4) = j % 4 := by
      subst hr
      unfold swizzle_perm
      rw [if_neg (by decide), if_neg (by decide), if_neg (by decide)]
    rw [this, hid]
  · rw [if_neg hr]
    have b1 : w * h < 4611686018427387904 := mul_lt_two62 w h hw hh
    rw [gsize_natCast w (by omega), gsize_natCast h (by omega), gsize_mul_of_lt w h (by omega)]
    have key := forLoop_inv ((w * h : Nat) : Int) 1 Nat.one_pos (swizzle_pixel fmt)
      (fun i d => i ≤ w * h ∧ d.length = pixels.length ∧
        ∀ j, d[j]? = if j < i * 4 then pixels[j / 4 * 4 + swizzle_perm fmt (j % 4)]?
          else pixels[j]?)
      (by
        intro i d hi ⟨_, hl, hd⟩
        have hi : i < w * h := by omega
        obtain ⟨d1, hrun, hl1, hd1⟩ := swizzle_pixel_ok fmt i d (by omega) (by omega)
        refine ⟨d1, hrun, by omega, by omega, ?_⟩
        intro j
        rw [hd1 j]
        by_cases h1 : i * 4 ≤ j ∧ j < i * 4 + 4
        · have hp := hperm (j - i * 4) (by omega)
          rw [if_pos h1, if_pos (by omega), hd _, if_neg (by omega)]
          have e1 : j / 4 = i := by omega
          have e2 : j % 4 = j - i * 4 := by omega
          rw [e1, e2]
        · rw [if_neg h1, hd j]
          by_cases h2 : j < i * 4
          · rw [if_pos h2, if_pos (by omega)]
          · rw [if_neg h2, if_neg (by omega)])
      (w * h) 0 pixels (by omega) ⟨by omega, rfl, by intro j; rw [if_neg (by omega)]⟩
    obtain ⟨i, d1, hrun, ⟨hile, hl, hd⟩, hstop⟩ := key
    have hi : i = w * h := by omega
    subst hi
    refine ⟨d1, by rw [hrun], hl, ?_⟩
    intro j
    rw [hd j]
    by_cases h2 : j < w * h * 4
    · rw [if_pos h2]
    · rw [if_neg h2, hout j (by omega)]
      exact List.getElem?_eq_none (by omega)

/-- C8. `swizzle_from_rgba_inplace` keeps the number of bytes and permutes the
four bytes of every pixel: `(r,g,b,a)` becomes `(b,g,r,a)` for BGRA,
`(a,r,g,b)` for ARGB and `(a,b,g,r)` for ABGR; for RGBA and for every
unrecognized tag the buffer is returned unmodified. (The row stride is not an
argument of the function; it is not touched.) -/
theorem swizzle_from_rgba_inplace_spec (pixels : Buf) (w h : Nat) (fmt : String)
    (hw : w < 2147483648) (hh : h < 2147483648) (hlen : pixels.length = w * h * 4) :
    ∃ out, swizzle_from_rgba_inplace (some pixels) w h (some fmt) = .ok (some out) ∧
      out.length = pixels.length ∧
      (fmt = "BGRA" → ∀ i, i < w * h →
        out[i * 4]? = pixels[i * 4 + 2]? ∧ out[i * 4 + 1]? = pixels[i * 4 + 1]? ∧
        out[i * 4 + 2]? = pixels[i * 4]? ∧ out[i * 4 + 3]? = pixels[i * 4 + 3]?) ∧
      (fmt = "ARGB" → ∀ i, i < w * h →
        out[i * 4]? = pixels[i * 4 + 3]? ∧ out[i * 4 + 1]? = pixels[i * 4]? ∧
        out[i * 4 + 2]? = pixels[i * 4 + 1]? ∧ out[i * 4 + 3]? = pixels[i * 4 + 2]?) ∧
      (fmt = "ABGR" → ∀ i, i < w * h →
        out[i * 4]? = pixels[i * 4 + 3]? ∧ out[i * 4 + 1]? = pixels[i * 4 + 2]? ∧
        out[i * 4 + 2]? = pixels[i * 4 + 1]? ∧ out[i * 4 + 3]? = pixels[i * 4]?) ∧
      (fmt ≠ "BGRA" → fmt ≠ "ARGB" → fmt ≠ "ABGR" → out = pixels) := by
  obtain ⟨out, hrun, hl, hout⟩ := swizzle_ok pixels w h fmt hw hh hlen
  have hbyte : ∀ i c s, c < 4 → swizzle_perm fmt c = s →
      out[i * 4 + c]? = pixels[i * 4 + s]? := by
    intro i c s hc hs
    rw [hout (i * 4 + c)]
    have e1 : (i * 4 + c) / 4 = i := by omega
    have e2 : (i * 4 + c) % 4 = c := by omega
    rw [e1, e2, hs]
  refine ⟨out, hrun, hl, ?_, ?_, ?_, ?_⟩
  · intro hf i _
    subst hf
    exact ⟨hbyte i 0 2 (by omega) (by decide), hbyte i 1 1 (by omega) (by decide),
      hbyte i 2 0 (by omega) (by decide), hbyte i 3 3 (by omega) (by decide)⟩
  · intro hf i _
    subst hf
    exact ⟨hbyte i 0 3 (by omega) (by decide), hbyte i 1 0 (by omega) (by decide),
      hbyte i 2 1 (by omega) (by decide), hbyte i 3 2 (by omega) (by decide)⟩
  · intro hf i _
    subst hf
    exact ⟨hbyte i 0 3 (by omega) (by decide), hbyte i 1 2 (by omega) (by decide),
      hbyte i 2 1 (by omega) (by decide), hbyte i 3 0 (by omega) (by decide)⟩
  · intro hb ha hc
    apply List.ext_getElem?
    intro j
    rw [hout j]
    have : swizzle_perm fmt (j % 4) = j % 4 := by
      unfold swizzle_perm
      rw [if_neg hb, if_neg ha, if_neg hc]
    rw [this]
    congr 1
    omega

/-- Witness of C8: two pixels swizzled to ARGB. -/
theorem swizzle_from_rgba_inplace_spec_witness :
    ∃ out, swizzle_from_rgba_inplace (some [1, 2, 3, 4, 5, 6, 7, 8]) ((2 : Nat) : Int)
        ((1 : Nat) : Int) (some "ARGB") = .ok (some out) ∧
      out.length = [1, 2, 3, 4, 5, 6, 7, 8].length ∧
      ("ARGB" = "BGRA" → ∀ i, i < 2 * 1 →
        out[i * 4]? = [1, 2, 3, 4, 5, 6, 7, 8][i * 4 + 2]? ∧
        out[i * 4 + 1]? = [1, 2, 3, 4, 5, 6, 7, 8][i * 4 + 1]? ∧
        out[i * 4 + 2]? = [1, 2, 3, 4, 5, 6, 7, 8][i * 4]? ∧
        out[i * 4 + 3]? = [1, 2, 3, 4, 5, 6, 7, 8][i * 4 + 3]?) ∧
      ("ARGB" = "ARGB" → ∀ i, i < 2 * 1 →
        out[i * 4]? = [1, 2, 3, 4, 5, 6, 7, 8][i * 4 + 3]? ∧
        out[i * 4 + 1]? = [1, 2, 3, 4, 5, 6, 7, 8][i * 4]? ∧
        out[i * 4 + 2]? = [1, 2, 3, 4, 5, 6, 7, 8][i * 4 + 1]? ∧
        out[i * 4 + 3]? = [1, 2, 3, 4, 5, 6, 7, 8][i * 4 + 2]?) ∧
      ("ARGB" = "ABGR" → ∀ i, i < 2 * 1 →
        out[i * 4]? = [1, 2, 3, 4, 5, 6, 7, 8][i * 4 + 3]? ∧
        out[i * 4 + 1]? = [1, 2, 3, 4, 5, 6, 7, 8][i * 4 + 2]? ∧
        out[i * 4 + 2]? = [1, 2, 3, 4, 5, 6, 7, 8][i * 4 + 1]? ∧
        out[i * 4 + 3]? = [1, 2, 3, 4, 5, 6, 7, 8][i * 4]?) ∧
      ("ARGB" ≠ "BGRA" → "ARGB" ≠ "ARGB" → "ARGB" ≠ "ABGR" → out = [1, 2, 3, 4, 5, 6, 7, 8]) :=
  swizzle_from_rgba_inplace_spec [1, 2, 3, 4, 5, 6, 7, 8] 2 1 "ARGB" (by decide) (by decide)
    (by decide)

/-- The BGRA swap is an involution on channel indices. -/
theorem swizzle_perm_bgra_twice (c : Nat) :
    swizzle_perm "BGRA" (swizzle_perm "BGRA" c) = c ∧ (c < 4 → swizzle_perm "BGRA" c < 4) := by
  unfold swizzle_perm
  rw [if_pos rfl]
  rcases c with _ | _ | _ | c
  · exact ⟨rfl, fun _ => by decide⟩
  · exact ⟨rfl, fun _ => by decide⟩
  · exact ⟨rfl, fun _ => by decide⟩
  · exact ⟨rfl, fun h => h⟩

/-- C7. Swizzling an RGBA buffer of `width*height` pixels to BGRA and swizzling
the result once more with the same R/B swap gives back the original buffer,
byte for byte. -/
theorem swizzle_bgra_roundtrip (pixels : Buf) (w h : Nat)
    (hw : w < 2147483648) (hh : h < 2147483648) (hlen : pixels.length = w * h * 4) :
    ∃ mid, swizzle_from_rgba_inplace (some pixels) w h (some "BGRA") = .ok (some mid) ∧
      swizzle_from_rgba_inplace (some mid) w h (some "BGRA") = .ok (some pixels) := by
  obtain ⟨mid, hrun, hl, hmid⟩ := swizzle_ok pixels w h "BGRA" hw hh hlen
  obtain ⟨out, hrun2, _, hout⟩ := swizzle_ok mid w h "BGRA" hw hh (by rw [hl, hlen])
  refine ⟨mid, hrun, ?_⟩
  rw [hrun2]
  congr 2
  apply List.ext_getElem?
  intro j
  rw [hout j, hmid _]
  obtain ⟨h1, h2⟩ := swizzle_perm_bgra_twice (j % 4)
  have h3 := h2 (Nat.mod_lt _ (by decide))
  generalize swizzle_perm "BGRA" (j % 4) = s at h1 h3
  have e1 : (j / 4 * 4 + s) / 4 = j / 4 := by omega
  have e2 : (j / 4 * 4 + s) % 4 = s := by omega
  rw [e1, e2, h1]
  congr 1
  omega

/-- Witness of C7: a 2x1 image. -/
theorem swizzle_bgra_roundtrip_witness :
    ∃ mid, swizzle_from_rgba_inplace (some [1, 2, 3, 4, 5, 6, 7, 8]) ((2 : Nat) : Int)
        ((1 : Nat) : Int) (some "BGRA") = .ok (some mid) ∧
      swizzle_from_rgba_inplace (some mid) ((2 : Nat) : Int) ((1 : Nat) : Int) (some "BGRA")
        = .ok (some [1, 2, 3, 4, 5, 6, 7, 8]) :=
  swizzle_bgra_roundtrip [1, 2, 3, 4, 5, 6, 7, 8] 2 1 (by decide) (by decide) (by decide)

/-! ## BT.601 conversion (C3, C4) -/

theorem shiftRight_eight (t : Int) : t >>> (8 : Nat) = t / 256 := by
  rw [Int.shiftRight_eq_div_pow]
  norm_num

theorem bt601_y (r g b : Nat) (u v : Int) :
    (rgba_to_yuv_bt601 r g b u v).y = spec_luma r g b := by
  unfold rgba_to_yuv_bt601 spec_luma spec_clamp guint8_cast CLAMP
  simp only []
  generalize ((66 * (r : Int) + 129 * (g : Int) + 25 * (b : Int) + 128) >>> (8 : Nat)) + 16 = t
  split_ifs <;> omega

theorem bt601_u_acc (r g b : Nat) (hr : r < 256) (hg : g < 256) (hb : b < 256) :
    (rgba_to_yuv_bt601 r g b 0 0).u_acc = spec_chroma_u r g b := by
  unfold rgba_to_yuv_bt601 spec_chroma_u gint16_cast
  simp only [shiftRight_eight]
  omega

theorem bt601_v_acc (r g b : Nat) (hr : r < 256) (hg : g < 256) (hb : b < 256) :
    (rgba_to_yuv_bt601 r g b 0 0).v_acc = spec_chroma_v r g b := by
  unfold rgba_to_yuv_bt601 spec_chroma_v gint16_cast
  simp only [shiftRight_eight]
  omega

theorem getD_lt_of_bytes (src : Buf) (hb : ∀ v ∈ src, v < 256) (i : Nat) : src.getD i 0 < 256 := by
  by_cases h : i < src.length
  · have := hb (src[i]) (List.getElem_mem h)
    simpa [List.getD_eq_getElem?_getD, List.getElem?_eq_getElem h] using this
  · simp [List.getD_eq_getElem?_getD, List.getElem?_eq_none (Nat.le_of_not_lt h)]

theorem guint8_cast_spec_clamp (t : Int) :
    guint8_cast (if (if t < 0 then 0 else t) > 255 then 255 else (if t < 0 then 0 else t))
      = spec_clamp t := by
  unfold guint8_cast spec_clamp
  split_ifs <;> omega

/-- One step of the inner luma loop with the row offsets in closed form. -/
theorem luma_pixel_ok (src dst : Buf) (w y x N : Nat) (hx : x < 2147483648)
    (hQ : y * w + x < N) (hsrc : src.length = N * 4) (hdst : y * w + x < dst.length) :
    ∃ d1, luma_pixel src (y * w * 4) (y * w) x dst = .ok d1 ∧ d1.length = dst.length ∧
      ∀ j, d1[j]? = if j = y * w + x then some (spec_luma_at src j) else dst[j]? := by
  unfold luma_pixel
  simp only []
  rw [gsize_natCast x (by omega), gsize_mul_of_lt x 4 (by omega)]
  have e2 : y * w * 4 + x * 4 = (y * w + x) * 4 := by ring
  rw [e2]
  generalize y * w + x = Q at *
  rw [rd_of_lt src (Q * 4 + 0) (by omega), rd_of_lt src (Q * 4 + 1) (by omega),
    rd_of_lt src (Q * 4 + 2) (by omega)]
  simp only [ok_bind, Nat.add_zero]
  rw [wr_of_lt _ _ _ (by omega), bt601_y]
  refine ⟨_, rfl, by simp only [List.length_set], ?_⟩
  intro j
  rw [List.getElem?_set]
  by_cases h : j = Q
  · subst h
    rw [if_pos rfl, if_pos hdst, if_pos rfl]
    rfl
  · rw [if_neg (fun e => h e.symm), if_neg h]

/-- One row of the luma loop. -/
theorem luma_row_ok (src dst : Buf) (w h y : Nat) (hw : w < 2147483648) (hh : h < 2147483648)
    (hy : y < h) (hsrc : src.length = w * h * 4) (hdst : w * h ≤ dst.length) :
    ∃ d1, luma_row src w y dst = .ok d1 ∧ d1.length = dst.length ∧
      ∀ j, d1[j]? = if y * w ≤ j ∧ j < y * w + w then some (spec_luma_at src j) else dst[j]? := by
  unfold luma_row
  simp only []
  have b2 : y * w < 4611686018427387904 := mul_lt_two62 y w (by omega) hw
  rw [gsize_natCast y (by omega), gsize_natCast w (by omega), gsize_mul_of_lt y w (by omega),
    gsize_mul_of_lt (y * w) 4 (by omega)]
  have key := forLoop_inv (w : Int) 1 Nat.one_pos (luma_pixel src (y * w * 4) (y * w))
    (fun x d => x ≤ w ∧ d.length = dst.length ∧ ∀ j, d[j]? =
        if y * w ≤ j ∧ j < y * w + x then some (spec_luma_at src j) else dst[j]?)
    (by
      intro x d hx ⟨_, hlen, hd⟩
      have hx : x < w := by omega
      have hQ : y * w + x < h * w := index_lt y h x w hy hx
      have hwh : h * w = w * h := Nat.mul_comm _ _
      obtain ⟨d1, hrun, hlen1, hd1⟩ := luma_pixel_ok src d w y x (h * w) (by omega) hQ
        (by rw [hsrc, hwh]) (by omega)
      refine ⟨d1, hrun, by omega, by omega, ?_⟩
      intro j
      rw [hd1 j, hd j]
      by_cases h1 : j = y * w + x
      · rw [if_pos h1, if_pos (by omega)]
      · rw [if_neg h1]
        by_cases h2 : y * w ≤ j ∧ j < y * w + x
        · rw [if_pos h2, if_pos (by omega)]
        · rw [if_neg h2, if_neg (by omega)])
    (w : Int).toNat 0 dst (by omega) ⟨by omega, rfl, by intro j; rw [if_neg (by omega)]⟩
  obtain ⟨x, d1, hrun, ⟨hxle, hlen, hd⟩, hstop⟩ := key
  have hx : x = w := by omega
  subst hx
  exact ⟨d1, hrun, hlen, hd⟩

/-- The luma loop fills the first `w*h` bytes of `dst` and leaves the rest. -/
theorem luma_loop_ok (src dst : Buf) (w h : Nat) (hw : w < 2147483648) (hh : h < 2147483648)
    (hsrc : src.length = w * h * 4) (hdst : w * h ≤ dst.length) :
    ∃ d1, luma_loop src w h dst = .ok d1 ∧ d1.length = dst.length ∧
      ∀ j, d1[j]? = if j < w * h then some (spec_luma_at src j) else dst[j]? := by
  unfold luma_loop
  have key := forLoop_inv (h : Int) 1 Nat.one_pos (luma_row src w)
    (fun y d => y ≤ h ∧ d.length = dst.length ∧ ∀ j, d[j]? =
        if j < y * w then some (spec_luma_at src j) else dst[j]?)
    (by
      intro y d hy ⟨_, hlen, hd⟩
      have hy : y < h := by omega
      obtain ⟨d1, hrun, hlen1, hd1⟩ := luma_row_ok src d w h y hw hh hy hsrc (by omega)
      refine ⟨d1, hrun, by omega, by omega, ?_⟩
      intro j
      have e : (y + 1) * w = y * w + w := by ring
      rw [hd1 j, hd j, e]
      by_cases h1 : y * w ≤ j ∧ j < y * w + w
      · rw [if_pos h1, if_pos (by omega)]
      · rw [if_neg h1]
        by_cases h2 : j < y * w
        · rw [if_pos h2, if_pos (by omega)]
        · rw [if_neg h2, if_neg (by omega)])
    (h : Int).toNat 0 dst (by omega) ⟨by omega, rfl, by intro j; rw [if_neg (by omega)]⟩
  obtain ⟨y, d1, hrun, ⟨hyle, hlen, hd⟩, hstop⟩ := key
  have hy : y = h := by omega
  subst hy
  refine ⟨d1, hrun, hlen, ?_⟩
  intro j
  rw [hd j, Nat.mul_comm]

/-- The clamped chroma pair computed for one 2x2 block. -/
theorem chroma_block_ok (src : Buf) (p0 p1 p2 p3 : Nat)
    (h0 : p0 + 2 < src.length) (h1 : p1 + 2 < src.length) (h2 : p2 + 2 < src.length)
    (h3 : p3 + 2 < src.length) (hb : ∀ v ∈ src, v < 256) :
    ∃ U V, chroma_block src p0 p1 p2 p3 = .ok (U, V) ∧
      guint8_cast U = spec_clamp (Int.tdiv
        (term_at spec_chroma_u src p0 + term_at spec_chroma_u src p1
          + term_at spec_chroma_u src p2 + term_at spec_chroma_u src p3) 4 + 128) ∧
      guint8_cast V = spec_clamp (Int.tdiv
        (term_at spec_chroma_v src p0 + term_at spec_chroma_v src p1
          + term_at spec_chroma_v src p2 + term_at spec_chroma_v src p3) 4 + 128) := by
  have hlt := getD_lt_of_bytes src hb
  unfold chroma_block
  rw [rd_of_lt src (p0 + 0) (by omega), rd_of_lt src (p0 + 1) (by omega),
    rd_of_lt src (p0 + 2) (by omega), rd_of_lt src (p1 + 0) (by omega),
    rd_of_lt src (p1 + 1) (by omega), rd_of_lt src (p1 + 2) (by omega),
    rd_of_lt src (p2 + 0) (by omega), rd_of_lt src (p2 + 1) (by omega),
    rd_of_lt src (p2 + 2) (by omega), rd_of_lt src (p3 + 0) (by omega),
    rd_of_lt src (p3 + 1) (by omega), rd_of_lt src (p3 + 2) (by omega)]
  simp only [ok_bind, pure_eq_ok, Nat.add_zero]
  rw [bt601_u_acc _ _ _ (hlt _) (hlt _) (hlt _), bt601_v_acc _ _ _ (hlt _) (hlt _) (hlt _),
    bt601_u_acc _ _ _ (hlt _) (hlt _) (hlt _), bt601_v_acc _ _ _ (hlt _) (hlt _) (hlt _),
    bt601_u_acc _ _ _ (hlt _) (hlt _) (hlt _), bt601_v_acc _ _ _ (hlt _) (hlt _) (hlt _),
    bt601_u_acc _ _ _ (hlt _) (hlt _) (hlt _), bt601_v_acc _ _ _ (hlt _) (hlt _) (hlt _)]
  refine ⟨_, _, rfl, ?_, ?_⟩
  · rw [guint8_cast_spec_clamp, Int.zero_add]
    rfl
  · rw [guint8_cast_spec_clamp, Int.zero_add]
    rfl

theorem gsize_natCast_succ (n : Nat) (h : n + 1 < 18446744073709551616) :
    gsize ((n : Int) + 1) = n + 1 := by
  unfold gsize; omega

theorem gsize_tdiv_two (n : Nat) (h : n < 18446744073709551616) :
    gsize (Int.tdiv (n : Int) 2) = n / 2 := by
  have : Int.tdiv (n : Int) 2 = ((n / 2 : Nat) : Int) := (Int.ofNat_tdiv n 2).symm
  rw [this]
  unfold gsize; omega

theorem even_half_mul (w h : Nat) (hh : h % 2 = 0) : w * h / 2 = h / 2 * w := by
  obtain ⟨b, rfl⟩ : ∃ b, h = 2 * b := ⟨h / 2, by omega⟩
  rw [show w * (2 * b) = 2 * (w * b) by ring, Nat.mul_div_cancel_left _ (by decide),
    Nat.mul_div_cancel_left _ (by decide), Nat.mul_comm]

/-- The four pixel offsets of a 2x2 block with the row offsets in closed form,
and their bounds. -/
theorem block_offsets (w h y x : Nat) (hx : x + 1 < w) (hy : y + 1 < h)
    (hw : w < 2147483648) :
    y * w * 4 + gsize_mul (gsize x) 4 = (y * w + x) * 4 ∧
    y * w * 4 + gsize_mul (gsize ((x : Int) + 1)) 4 = (y * w + (x + 1)) * 4 ∧
    (y + 1) * w * 4 + gsize_mul (gsize x) 4 = ((y + 1) * w + x) * 4 ∧
    (y + 1) * w * 4 + gsize_mul (gsize ((x : Int) + 1)) 4 = ((y + 1) * w + (x + 1)) * 4 ∧
    (y * w + x) * 4 + 2 < w * h * 4 ∧ (y * w + (x + 1)) * 4 + 2 < w * h * 4 ∧
    ((y + 1) * w + x) * 4 + 2 < w * h * 4 ∧ ((y + 1) * w + (x + 1)) * 4 + 2 < w * h * 4 := by
  rw [gsize_natCast x (by omega), gsize_natCast_succ x (by omega),
    gsize_mul_of_lt x 4 (by omega), gsize_mul_of_lt (x + 1) 4 (by omega)]
  have i0 := index_lt y h x w (by omega) (by omega)
  have i1 := index_lt y h (x + 1) w (by omega) (by omega)
  have i2 := index_lt (y + 1) h x w (by omega) (by omega)
  have i3 := index_lt (y + 1) h (x + 1) w (by omega) (by omega)
  have hwh : h * w = w * h := Nat.mul_comm _ _
  refine ⟨by ring, by ring, by ring, by ring, by omega, by omega, by omega, by omega⟩

/-- One step of the inner chroma loop of the NV12 converter. -/
theorem nv12_chroma_pixel_ok (src dst : Buf) (w h y x uvrow : Nat)
    (hx : x + 1 < w) (hy : y + 1 < h) (hw : w < 2147483648)
    (hsrc : src.length = w * h * 4) (hb : ∀ v ∈ src, v < 256)
    (hdst : uvrow + x + 1 < dst.length) :
    ∃ d1, nv12_chroma_pixel src (y * w * 4) ((y + 1) * w * 4) uvrow x dst = .ok d1 ∧
      d1.length = dst.length ∧
      ∀ j, d1[j]? =
        if j = uvrow + x then some (spec_block spec_chroma_u src w x y)
        else if j = uvrow + x + 1 then some (spec_block spec_chroma_v src w x y)
        else dst[j]? := by
  obtain ⟨e0, e1, e2, e3, b0, b1, b2, b3⟩ := block_offsets w h y x hx hy hw
  unfold nv12_chroma_pixel
  simp only []
  rw [e0, e1, e2, e3]
  obtain ⟨U, V, hrun, hU, hV⟩ := chroma_block_ok src _ _ _ _ (by rw [hsrc]; exact b0)
    (by rw [hsrc]; exact b1) (by rw [hsrc]; exact b2) (by rw [hsrc]; exact b3) hb
  rw [hrun]
  simp only [ok_bind, Nat.add_zero]
  rw [wr_of_lt _ _ _ (by omega)]
  simp only [ok_bind]
  rw [wr_of_lt _ _ _ (by simp only [List.length_set]; omega)]
  simp only [ok_bind, pure_eq_ok]
  refine ⟨_, rfl, by simp only [List.length_set], ?_⟩
  intro j
  simp only [List.getElem?_set, List.length_set]
  rw [hU, hV]
  by_cases h1 : j = uvrow + x
  · subst h1
    rw [if_neg (by omega), if_pos rfl, if_pos (by omega), if_pos rfl]
    rfl
  · rw [if_neg h1]
    by_cases h2 : j = uvrow + x + 1
    · subst h2
      rw [if_pos (by omega), if_pos (by omega), if_pos rfl]
      rfl
    · rw [if_neg (by omega), if_neg (by omega), if_neg h2]

/-- One row of the chroma loop of the NV12 converter: chroma row `y / 2` of the
interleaved plane starting at offset `B` is filled. -/
theorem nv12_chroma_row_ok (src dst : Buf) (w h y B : Nat)
    (hwe : w % 2 = 0) (hye : y % 2 = 0) (hy : y + 1 < h)
    (hw : w < 2147483648) (hh : h < 2147483648)
    (hsrc : src.length = w * h * 4) (hb : ∀ v ∈ src, v < 256)
    (hdst : B + y / 2 * w + w ≤ dst.length) :
    ∃ d1, nv12_chroma_row src w B y dst = .ok d1 ∧ d1.length = dst.length ∧
      ∀ j, d1[j]? =
        if B + y / 2 * w ≤ j ∧ j < B + y / 2 * w + w then some (spec_nv12_uv src w (j - B))
        else dst[j]? := by
  unfold nv12_chroma_row
  simp only []
  have b1 : y * w < 4611686018427387904 := mul_lt_two62 y w (by omega) hw
  have b2 : (y + 1) * w < 4611686018427387904 := mul_lt_two62 (y + 1) w (by omega) hw
  have b3 : y / 2 * w < 4611686018427387904 := mul_lt_two62 (y / 2) w (by omega) hw
  rw [gsize_natCast y (by omega), gsize_natCast w (by omega), gsize_natCast_succ y (by omega),
    gsize_tdiv_two y (by omega),
    gsize_mul_of_lt y w (by omega), gsize_mul_of_lt (y * w) 4 (by omega),
    gsize_mul_of_lt (y + 1) w (by omega), gsize_mul_of_lt ((y + 1) * w) 4 (by omega),
    gsize_mul_of_lt (y / 2) w (by omega)]
  have key := forLoop_inv (w : Int) 2 (by decide)
    (nv12_chroma_pixel src (y * w * 4) ((y + 1) * w * 4) (B + y / 2 * w))
    (fun x d => x % 2 = 0 ∧ x ≤ w ∧ d.length = dst.length ∧ ∀ j, d[j]? =
        if B + y / 2 * w ≤ j ∧ j < B + y / 2 * w + x then some (spec_nv12_uv src w (j - B))
        else dst[j]?)
    (by
      intro x d hx ⟨hxe, _, hlen, hd⟩
      have hx : x + 1 < w := by omega
      obtain ⟨d1, hrun, hlen1, hd1⟩ := nv12_chroma_pixel_ok src d w h y x (B + y / 2 * w)
        hx hy hw hsrc hb (by omega)
      refine ⟨d1, hrun, by omega, by omega, by omega, ?_⟩
      intro j
      rw [hd1 j, hd j]
      by_cases h1 : j = B + y / 2 * w + x
      · rw [if_pos h1, if_pos (by omega)]
        have hk : j - B = y / 2 * w + x := by omega
        obtain ⟨hdv, hmd⟩ := index_div_mod (y / 2) w x (by omega)
        unfold spec_nv12_uv
        rw [hk, hmd, hdv, if_pos hxe]
        have ex : x / 2 * 2 = x := by omega
        have ey : y / 2 * 2 = y := by omega
        rw [ex, ey]
      · rw [if_neg h1]
        by_cases h2 : j = B + y / 2 * w + x + 1
        · rw [if_pos h2, if_pos (by omega)]
          have hk : j - B = y / 2 * w + (x + 1) := by omega
          obtain ⟨hdv, hmd⟩ := index_div_mod (y / 2) w (x + 1) (by omega)
          unfold spec_nv12_uv
          rw [hk, hmd, hdv, if_neg (by omega)]
          have ex : (x + 1) / 2 * 2 = x := by omega
          have ey : y / 2 * 2 = y := by omega
          rw [ex, ey]
        · rw [if_neg h2]
          by_cases h3 : B + y / 2 * w ≤ j ∧ j < B + y / 2 * w + x
          · rw [if_pos h3, if_pos (by omega)]
          · rw [if_neg h3, if_neg (by omega)])
    (w : Int).toNat 0 dst (by omega)
    ⟨by omega, by omega, rfl, by intro j; rw [if_neg (by omega)]⟩
  obtain ⟨x, d1, hrun, ⟨hxe, hxle, hlen, hd⟩, hstop⟩ := key
  have hx : x = w := by omega
  subst hx
  exact ⟨d1, hrun, hlen, hd⟩

/-- The chroma loop of the NV12 converter fills the `h/2` rows of the
interleaved plane at offset `B` and leaves every other byte. -/
theorem nv12_chroma_loop_ok (src dst : Buf) (w h B : Nat)
    (hwe : w % 2 = 0) (hhe : h % 2 = 0)
    (hw : w < 2147483648) (hh : h < 2147483648)
    (hsrc : src.length = w * h * 4) (hb : ∀ v ∈ src, v < 256)
    (hdst : B + h / 2 * w ≤ dst.length) :
    ∃ d1, forLoop (h : Int) 2 (nv12_chroma_row src w B) (h : Int).toNat 0 dst = .ok d1 ∧
      d1.length = dst.length ∧
      ∀ j, d1[j]? =
        if B ≤ j ∧ j < B + h / 2 * w then some (spec_nv12_uv src w (j - B)) else dst[j]? := by
  have key := forLoop_inv (h : Int) 2 (by decide) (nv12_chroma_row src w B)
    (fun y d => y % 2 = 0 ∧ y ≤ h ∧ d.length = dst.length ∧ ∀ j, d[j]? =
        if B ≤ j ∧ j < B + y / 2 * w then some (spec_nv12_uv src w (j - B)) else dst[j]?)
    (by
      intro y d hy ⟨hye, _, hlen, hd⟩
      have hy : y + 1 < h := by omega
      have hrow : y / 2 * w + w ≤ h / 2 * w := by
        have : (y / 2 + 1) * w ≤ h / 2 * w := Nat.mul_le_mul_right w (by omega)
        calc y / 2 * w + w = (y / 2 + 1) * w := by ring
          _ ≤ h / 2 * w := this
      obtain ⟨d1, hrun, hlen1, hd1⟩ := nv12_chroma_row_ok src d w h y B hwe hye hy hw hh hsrc hb
        (by omega)
      refine ⟨d1, hrun, by omega, by omega, by omega, ?_⟩
      intro j
      have e : (y + 2) / 2 * w = y / 2 * w + w := by
        have : (y + 2) / 2 = y / 2 + 1 := by omega
        rw [this]; ring
      rw [hd1 j, hd j, e]
      by_cases h1 : B + y / 2 * w ≤ j ∧ j < B + y / 2 * w + w
      · rw [if_pos h1, if_pos (by omega)]
      · rw [if_neg h1]
        by_cases h2 : B ≤ j ∧ j < B + y / 2 * w
        · rw [if_pos h2, if_pos (by omega)]
        · rw [if_neg h2, if_neg (by omega)])
    (h : Int).toNat 0 dst (by omega)
    ⟨by omega, by omega, rfl, by
      intro j
      rw [if_neg (by simp only [Nat.zero_div, Nat.zero_mul]; omega)]⟩
  obtain ⟨y, d1, hrun, ⟨hye, hyle, hlen, hd⟩, hstop⟩ := key
  have hy : y = h := by omega
  subst hy
  exact ⟨d1, hrun, hlen, hd⟩

/-- C3. For positive even `w`, `h` (in the `gint` range) and an RGBA buffer of
`w*h*4` bytes, `convert_rgba_to_nv12` succeeds with a buffer of
`w*h + w*h/2 = w*h*3/2` bytes; byte `y*w+x` is the clamped luma of pixel
`(x, y)`, and for even `x`, `y` the bytes at `w*h + (y/2)*w + x` and the next
one are the clamped `Su/4 + 128` and `Sv/4 + 128` of the 2x2 block at
`(x, y)`. -/
theorem convert_rgba_to_nv12_spec (src : Buf) (w h : Nat)
    (hw : 0 < w) (hh : 0 < h) (hwe : w % 2 = 0) (hhe : h % 2 = 0)
    (hw2 : w < 2147483648) (hh2 : h < 2147483648)
    (hsrc : src.length = w * h * 4) (hb : ∀ v ∈ src, v < 256) :
    ∃ dst, convert_rgba_to_nv12 (some src) w h = .ok (some dst) ∧
      dst.length = w * h + w * h / 2 ∧ dst.length = w * h * 3 / 2 ∧
      (∀ x y, x < w → y < h →
        dst[y * w + x]? = some (spec_luma (src.getD ((y * w + x) * 4) 0)
          (src.getD ((y * w + x) * 4 + 1) 0) (src.getD ((y * w + x) * 4 + 2) 0))) ∧
      (∀ x y, x < w → y < h → x % 2 = 0 → y % 2 = 0 →
        dst[w * h + y / 2 * w + x]? = some (spec_block spec_chroma_u src w x y) ∧
        dst[w * h + y / 2 * w + x + 1]? = some (spec_block spec_chroma_v src w x y)) := by
  have b1 : w * h < 4611686018427387904 := mul_lt_two62 w h hw2 hh2
  have hhalf := even_half_mul w h hhe
  have hguard : ¬ ((w : Int) ≤ 0 ∨ (h : Int) ≤ 0) := by omega
  unfold convert_rgba_to_nv12
  simp only []
  rw [if_neg hguard, gsize_natCast w (by omega), gsize_natCast h (by omega),
    gsize_mul_of_lt w h (by omega), gsize_add_of_lt _ _ (by omega)]
  obtain ⟨d0, hrun0, hlen0, hd0⟩ := luma_loop_ok src (g_malloc (w * h + w * h / 2)) w h hw2 hh2
    hsrc (by rw [g_malloc_length]; omega)
  rw [g_malloc_length] at hlen0
  obtain ⟨d1, hrun1, hlen1, hd1⟩ := nv12_chroma_loop_ok src d0 w h (w * h) hwe hhe hw2 hh2
    hsrc hb (by omega)
  rw [hrun0]
  simp only []
  rw [hrun1]
  refine ⟨d1, rfl, by omega, by omega, ?_, ?_⟩
  · intro x y hx hy
    have hQ : y * w + x < h * w := index_lt y h x w hy hx
    have hwh : h * w = w * h := Nat.mul_comm _ _
    rw [hd1, if_neg (by omega), hd0, if_pos (by omega)]
    rfl
  · intro x y hx hy hxe hye
    have hr : y / 2 * w + (x + 1) < h / 2 * w :=
      index_lt (y / 2) (h / 2) (x + 1) w (by omega) (by omega)
    have ex : x / 2 * 2 = x := by omega
    have ex1 : (x + 1) / 2 * 2 = x := by omega
    have ey : y / 2 * 2 = y := by omega
    constructor
    · rw [hd1, if_pos (by omega)]
      have hk : w * h + y / 2 * w + x - w * h = y / 2 * w + x := by omega
      obtain ⟨hdv, hmd⟩ := index_div_mod (y / 2) w x (by omega)
      unfold spec_nv12_uv
      rw [hk, hmd, hdv, if_pos hxe, ex, ey]
    · rw [hd1, if_pos (by omega)]
      have hk : w * h + y / 2 * w + x + 1 - w * h = y / 2 * w + (x + 1) := by omega
      obtain ⟨hdv, hmd⟩ := index_div_mod (y / 2) w (x + 1) (by omega)
      unfold spec_nv12_uv
      rw [hk, hmd, hdv, if_neg (by omega), ex1, ey]

theorem even_quarter_mul (w h : Nat) (hw : w % 2 = 0) (hh : h % 2 = 0) :
    w * h / 4 = h / 2 * (w / 2) := by
  obtain ⟨a, rfl⟩ : ∃ a, w = 2 * a := ⟨w / 2, by omega⟩
  obtain ⟨b, rfl⟩ : ∃ b, h = 2 * b := ⟨h / 2, by omega⟩
  rw [show 2 * a * (2 * b) = 4 * (b * a) by ring, Nat.mul_div_cancel_left _ (by decide),
    Nat.mul_div_cancel_left _ (by decide), Nat.mul_div_cancel_left _ (by decide)]

/-- One step of the inner chroma loop of the I420 converter. -/
theorem i420_chroma_pixel_ok (src dst : Buf) (w h y x urow vrow : Nat)
    (hx : x + 1 < w) (hy : y + 1 < h) (hw : w < 2147483648)
    (hsrc : src.length = w * h * 4) (hb : ∀ v ∈ src, v < 256)
    (huv : urow < vrow) (hdst : vrow + x / 2 < dst.length) :
    ∃ d1, i420_chroma_pixel src (y * w * 4) ((y + 1) * w * 4) urow vrow x dst = .ok d1 ∧
      d1.length = dst.length ∧
      ∀ j, d1[j]? =
        if j = urow + x / 2 then some (spec_block spec_chroma_u src w x y)
        else if j = vrow + x / 2 then some (spec_block spec_chroma_v src w x y)
        else dst[j]? := by
  obtain ⟨e0, e1, e2, e3, b0, b1, b2, b3⟩ := block_offsets w h y x hx hy hw
  unfold i420_chroma_pixel
  simp only []
  rw [e0, e1, e2, e3, gsize_tdiv_two x (by omega)]
  obtain ⟨U, V, hrun, hU, hV⟩ := chroma_block_ok src _ _ _ _ (by rw [hsrc]; exact b0)
    (by rw [hsrc]; exact b1) (by rw [hsrc]; exact b2) (by rw [hsrc]; exact b3) hb
  rw [hrun]
  simp only [ok_bind]
  rw [wr_of_lt _ _ _ (by omega)]
  simp only [ok_bind]
  rw [wr_of_lt _ _ _ (by simp only [List.length_set]; omega)]
  simp only [ok_bind, pure_eq_ok]
  refine ⟨_, rfl, by simp only [List.length_set], ?_⟩
  intro j
  simp only [List.getElem?_set, List.length_set]
  rw [hU, hV]
  by_cases h1 : j = urow + x / 2
  · subst h1
    rw [if_neg (by omega), if_pos rfl, if_pos (by omega), if_pos rfl]
    rfl
  · rw [if_neg h1]
    by_cases h2 : j = vrow + x / 2
    · subst h2
      rw [if_pos rfl, if_pos (by omega), if_pos rfl]
      rfl
    · rw [if_neg (fun e => h2 e.symm), if_neg (fun e => h1 e.symm), if_neg h2]

/-- One row of the chroma loop of the I420 converter: chroma row `y / 2` of the
`U` plane at offset `U0` and of the `V` plane at offset `V0` is filled. -/
theorem i420_chroma_row_ok (src dst : Buf) (w h y U0 V0 : Nat)
    (hwe : w % 2 = 0) (hye : y % 2 = 0) (hy : y + 1 < h)
    (hw : w < 2147483648) (hh : h < 2147483648)
    (hsrc : src.length = w * h * 4) (hb : ∀ v ∈ src, v < 256)
    (huv : U0 + y / 2 * (w / 2) + w / 2 ≤ V0)
    (hdst : V0 + y / 2 * (w / 2) + w / 2 ≤ dst.length) :
    ∃ d1, i420_chroma_row src w U0 V0 y dst = .ok d1 ∧ d1.length = dst.length ∧
      ∀ j, d1[j]? =
        if U0 + y / 2 * (w / 2) ≤ j ∧ j < U0 + y / 2 * (w / 2) + w / 2 then
          some (spec_i420_plane spec_chroma_u src w (j - U0))
        else if V0 + y / 2 * (w / 2) ≤ j ∧ j < V0 + y / 2 * (w / 2) + w / 2 then
          some (spec_i420_plane spec_chroma_v src w (j - V0))
        else dst[j]? := by
  unfold i420_chroma_row
  simp only []
  have b1 : y * w < 4611686018427387904 := mul_lt_two62 y w (by omega) hw
  have b2 : (y + 1) * w < 4611686018427387904 := mul_lt_two62 (y + 1) w (by omega) hw
  have b3 : y / 2 * (w / 2) < 4611686018427387904 := mul_lt_two62 (y / 2) (w / 2) (by omega)
    (by omega)
  rw [gsize_natCast y (by omega), gsize_natCast w (by omega), gsize_natCast_succ y (by omega),
    gsize_tdiv_two y (by omega), gsize_tdiv_two w (by omega),
    gsize_mul_of_lt y w (by omega), gsize_mul_of_lt (y * w) 4 (by omega),
    gsize_mul_of_lt (y + 1) w (by omega), gsize_mul_of_lt ((y + 1) * w) 4 (by omega),
    gsize_mul_of_lt (y / 2) (w / 2) (by omega)]
  generalize hR : y / 2 * (w / 2) = R at *
  have key := forLoop_inv (w : Int) 2 (by decide)
    (i420_chroma_pixel src (y * w * 4) ((y + 1) * w * 4) (U0 + R) (V0 + R))
    (fun x d => x % 2 = 0 ∧ x ≤ w ∧ d.length = dst.length ∧ ∀ j, d[j]? =
        if U0 + R ≤ j ∧ j < U0 + R + x / 2 then
          some (spec_i420_plane spec_chroma_u src w (j - U0))
        else if V0 + R ≤ j ∧ j < V0 + R + x / 2 then
          some (spec_i420_plane spec_chroma_v src w (j - V0))
        else dst[j]?)
    (by
      intro x d hx ⟨hxe, _, hlen, hd⟩
      have hx : x + 1 < w := by omega
      obtain ⟨d1, hrun, hlen1, hd1⟩ := i420_chroma_pixel_ok src d w h y x (U0 + R) (V0 + R)
        hx hy hw hsrc hb (by omega) (by omega)
      refine ⟨d1, hrun, by omega, by omega, by omega, ?_⟩
      intro j
      have hx2 : (x + 2) / 2 = x / 2 + 1 := by omega
      obtain ⟨hdv, hmd⟩ := index_div_mod (y / 2) (w / 2) (x / 2) (by omega)
      rw [hR] at hdv hmd
      have ex : x / 2 * 2 = x := by omega
      have ey : y / 2 * 2 = y := by omega
      rw [hd1 j, hd j, hx2]
      by_cases h1 : j = U0 + R + x / 2
      · have p1 : U0 + R ≤ j ∧ j < U0 + R + (x / 2 + 1) := by omega
        rw [if_pos h1, if_pos p1]
        have hk : j - U0 = R + x / 2 := by omega
        unfold spec_i420_plane
        rw [hk, hmd, hdv, ex, ey]
      · rw [if_neg h1]
        by_cases h2 : j = V0 + R + x / 2
        · have n1 : ¬ (U0 + R ≤ j ∧ j < U0 + R + (x / 2 + 1)) := by omega
          have p2 : V0 + R ≤ j ∧ j < V0 + R + (x / 2 + 1) := by omega
          rw [if_pos h2, if_neg n1, if_pos p2]
          have hk : j - V0 = R + x / 2 := by omega
          unfold spec_i420_plane
          rw [hk, hmd, hdv, ex, ey]
        · rw [if_neg h2]
          by_cases h3 : U0 + R ≤ j ∧ j < U0 + R + x / 2
          · have p1 : U0 + R ≤ j ∧ j < U0 + R + (x / 2 + 1) := by omega
            rw [if_pos h3, if_pos p1]
          · have n1 : ¬ (U0 + R ≤ j ∧ j < U0 + R + (x / 2 + 1)) := by omega
            rw [if_neg h3, if_neg n1]
            by_cases h4 : V0 + R ≤ j ∧ j < V0 + R + x / 2
            · have p2 : V0 + R ≤ j ∧ j < V0 + R + (x / 2 + 1) := by omega
              rw [if_pos h4, if_pos p2]
            · have n2 : ¬ (V0 + R ≤ j ∧ j < V0 + R + (x / 2 + 1)) := by omega
              rw [if_neg h4, if_neg n2])
    (w : Int).toNat 0 dst (by omega)
    ⟨by omega, by omega, rfl, by
      intro j
      have n1 : ¬ (U0 + R ≤ j ∧ j < U0 + R + 0 / 2) := by omega
      have n2 : ¬ (V0 + R ≤ j ∧ j < V0 + R + 0 / 2) := by omega
      rw [if_neg n1, if_neg n2]⟩
  obtain ⟨x, d1, hrun, ⟨hxe, hxle, hlen, hd⟩, hstop⟩ := key
  have hx : x = w := by omega
  subst hx
  exact ⟨d1, hrun, hlen, hd⟩

/-- The chroma loop of the I420 converter fills the `U` plane at offset `U0`
and the `V` plane at offset `V0` and leaves every other byte. -/
theorem i420_chroma_loop_ok (src dst : Buf) (w h U0 V0 : Nat)
    (hwe : w % 2 = 0) (hhe : h % 2 = 0)
    (hw : w < 2147483648) (hh : h < 2147483648)
    (hsrc : src.length = w * h * 4) (hb : ∀ v ∈ src, v < 256)
    (huv : U0 + h / 2 * (w / 2) ≤ V0) (hdst : V0 + h / 2 * (w / 2) ≤ dst.length) :
    ∃ d1, forLoop (h : Int) 2 (i420_chroma_row src w U0 V0) (h : Int).toNat 0 dst = .ok d1 ∧
      d1.length = dst.length ∧
      ∀ j, d1[j]? =
        if U0 ≤ j ∧ j < U0 + h / 2 * (w / 2) then
          some (spec_i420_plane spec_chroma_u src w (j - U0))
        else if V0 ≤ j ∧ j < V0 + h / 2 * (w / 2) then
          some (spec_i420_plane spec_chroma_v src w (j - V0))
        else dst[j]? := by
  have key := forLoop_inv (h : Int) 2 (by decide) (i420_chroma_row src w U0 V0)
    (fun y d => y % 2 = 0 ∧ y ≤ h ∧ d.length = dst.length ∧ ∀ j, d[j]? =
        if U0 ≤ j ∧ j < U0 + y / 2 * (w / 2) then
          some (spec_i420_plane spec_chroma_u src w (j - U0))
        else if V0 ≤ j ∧ j < V0 + y / 2 * (w / 2) then
          some (spec_i420_plane spec_chroma_v src w (j - V0))
        else dst[j]?)
    (by
      intro y d hy ⟨hye, _, hlen, hd⟩
      have hy : y + 1 < h := by omega
      have hrow : y / 2 * (w / 2) + w / 2 ≤ h / 2 * (w / 2) := by
        have : (y / 2 + 1) * (w / 2) ≤ h / 2 * (w / 2) := Nat.mul_le_mul_right _ (by omega)
        calc y / 2 * (w / 2) + w / 2 = (y / 2 + 1) * (w / 2) := by ring
          _ ≤ h / 2 * (w / 2) := this
      obtain ⟨d1, hrun, hlen1, hd1⟩ := i420_chroma_row_ok src d w h y U0 V0 hwe hye hy hw hh
        hsrc hb (by omega) (by omega)
      refine ⟨d1, hrun, by omega, by omega, by omega, ?_⟩
      intro j
      have e : (y + 2) / 2 * (w / 2) = y / 2 * (w / 2) + w / 2 := by
        have : (y + 2) / 2 = y / 2 + 1 := by omega
        rw [this]; ring
      rw [hd1 j, hd j, e]
      generalize y / 2 * (w / 2) = R at *
      generalize h / 2 * (w / 2) = T at *
      generalize w / 2 = c at *
      by_cases h1 : U0 + R ≤ j ∧ j < U0 + R + c
      · have p1 : U0 ≤ j ∧ j < U0 + (R + c) := by omega
        rw [if_pos h1, if_pos p1]
      · rw [if_neg h1]
        by_cases h2 : V0 + R ≤ j ∧ j < V0 + R + c
        · have n1 : ¬ (U0 ≤ j ∧ j < U0 + (R + c)) := by omega
          have p2 : V0 ≤ j ∧ j < V0 + (R + c) := by omega
          rw [if_pos h2, if_neg n1, if_pos p2]
        · rw [if_neg h2]
          by_cases h3 : U0 ≤ j ∧ j < U0 + R
          · have p1 : U0 ≤ j ∧ j < U0 + (R + c) := by omega
            rw [if_pos h3, if_pos p1]
          · have n1 : ¬ (U0 ≤ j ∧ j < U0 + (R + c)) := by omega
            rw [if_neg h3, if_neg n1]
            by_cases h4 : V0 ≤ j ∧ j < V0 + R
            · have p2 : V0 ≤ j ∧ j < V0 + (R + c) := by omega
              rw [if_pos h4, if_pos p2]
            · have n2 : ¬ (V0 ≤ j ∧ j < V0 + (R + c)) := by omega
              rw [if_neg h4, if_neg n2])
    (h : Int).toNat 0 dst (by omega)
    ⟨by omega, by omega, rfl, by
      intro j
      have n1 : ¬ (U0 ≤ j ∧ j < U0 + 0 / 2 * (w / 2)) := by
        simp only [Nat.zero_div, Nat.zero_mul]; omega
      have n2 : ¬ (V0 ≤ j ∧ j < V0 + 0 / 2 * (w / 2)) := by
        simp only [Nat.zero_div, Nat.zero_mul]; omega
      rw [if_neg n1, if_neg n2]⟩
  obtain ⟨y, d1, hrun, ⟨hye, hyle, hlen, hd⟩, hstop⟩ := key
  have hy : y = h := by omega
  subst hy
  exact ⟨d1, hrun, hlen, hd⟩

/-- C4. For positive even `w`, `h` (in the `gint` range) and an RGBA buffer of
`w*h*4` bytes, `convert_rgba_to_i420` succeeds with a buffer of
`w*h + 2*(w*h/4) = w*h*3/2` bytes: a luma plane of `w*h` bytes (byte `y*w+x`
the clamped luma of pixel `(x, y)`), then a `U` plane and a `V` plane of
`w*h/4` bytes each with row stride `w/2`, whose byte `(y/2)*(w/2) + x/2` is the
clamped 2x2-block average plus 128 of the block at `(x, y)`. -/
theorem convert_rgba_to_i420_spec (src : Buf) (w h : Nat)
    (hw : 0 < w) (hh : 0 < h) (hwe : w % 2 = 0) (hhe : h % 2 = 0)
    (hw2 : w < 2147483648) (hh2 : h < 2147483648)
    (hsrc : src.length = w * h * 4) (hb : ∀ v ∈ src, v < 256) :
    ∃ dst, convert_rgba_to_i420 (some src) w h = .ok (some dst) ∧
      dst.length = w * h + 2 * (w * h / 4) ∧ dst.length = w * h * 3 / 2 ∧
      (∀ x y, x < w → y < h →
        dst[y * w + x]? = some (spec_luma (src.getD ((y * w + x) * 4) 0)
          (src.getD ((y * w + x) * 4 + 1) 0) (src.getD ((y * w + x) * 4 + 2) 0))) ∧
      (∀ x y, x < w → y < h → x % 2 = 0 → y % 2 = 0 →
        y / 2 * (w / 2) + x / 2 < w * h / 4 ∧
        dst[w * h + (y / 2 * (w / 2) + x / 2)]? = some (spec_block spec_chroma_u src w x y) ∧
        dst[w * h + w * h / 4 + (y / 2 * (w / 2) + x / 2)]?
          = some (spec_block spec_chroma_v src w x y)) := by
  have b1 : w * h < 4611686018427387904 := mul_lt_two62 w h hw2 hh2
  have hq := even_quarter_mul w h hwe hhe
  have h4 : w * h % 4 = 0 := by
    obtain ⟨a, rfl⟩ : ∃ a, w = 2 * a := ⟨w / 2, by omega⟩
    obtain ⟨b, rfl⟩ : ∃ b, h = 2 * b := ⟨h / 2, by omega⟩
    rw [show 2 * a * (2 * b) = 4 * (a * b) by ring]
    exact Nat.mul_mod_right 4 _
  have hguard : ¬ ((w : Int) ≤ 0 ∨ (h : Int) ≤ 0) := by omega
  unfold convert_rgba_to_i420
  simp only []
  rw [if_neg hguard, gsize_natCast w (by omega), gsize_natCast h (by omega),
    gsize_mul_of_lt w h (by omega), gsize_mul_of_lt _ 2 (by omega),
    gsize_add_of_lt _ _ (by omega)]
  obtain ⟨d0, hrun0, hlen0, hd0⟩ := luma_loop_ok src (g_malloc (w * h + w * h / 4 * 2)) w h
    hw2 hh2 hsrc (by rw [g_malloc_length]; omega)
  rw [g_malloc_length] at hlen0
  obtain ⟨d1, hrun1, hlen1, hd1⟩ := i420_chroma_loop_ok src d0 w h (w * h) (w * h + w * h / 4)
    hwe hhe hw2 hh2 hsrc hb (by omega) (by omega)
  rw [hrun0]
  simp only []
  rw [hrun1]
  refine ⟨d1, rfl, by omega, by omega, ?_, ?_⟩
  · intro x y hx hy
    have hQ : y * w + x < h * w := index_lt y h x w hy hx
    have hwh : h * w = w * h := Nat.mul_comm _ _
    have n1 : ¬ (w * h ≤ y * w + x ∧ y * w + x < w * h + h / 2 * (w / 2)) := by omega
    have n2 : ¬ (w * h + w * h / 4 ≤ y * w + x ∧
        y * w + x < w * h + w * h / 4 + h / 2 * (w / 2)) := by omega
    rw [hd1, if_neg n1, if_neg n2, hd0, if_pos (by omega)]
    rfl
  · intro x y hx hy hxe hye
    have hr : y / 2 * (w / 2) + x / 2 < h / 2 * (w / 2) :=
      index_lt (y / 2) (h / 2) (x / 2) (w / 2) (by omega) (by omega)
    have ex : x / 2 * 2 = x := by omega
    have ey : y / 2 * 2 = y := by omega
    obtain ⟨hdv, hmd⟩ := index_div_mod (y / 2) (w / 2) (x / 2) (by omega)
    refine ⟨by omega, ?_, ?_⟩
    · have p1 : w * h ≤ w * h + (y / 2 * (w / 2) + x / 2) ∧
          w * h + (y / 2 * (w / 2) + x / 2) < w * h + h / 2 * (w / 2) := by omega
      rw [hd1, if_pos p1]
      unfold spec_i420_plane
      rw [Nat.add_sub_cancel_left, hmd, hdv, ex, ey]
    · have n1 : ¬ (w * h ≤ w * h + w * h / 4 + (y / 2 * (w / 2) + x / 2) ∧
          w * h + w * h / 4 + (y / 2 * (w / 2) + x / 2) < w * h + h / 2 * (w / 2)) := by omega
      have p2 : w * h + w * h / 4 ≤ w * h + w * h / 4 + (y / 2 * (w / 2) + x / 2) ∧
          w * h + w * h / 4 + (y / 2 * (w / 2) + x / 2)
            < w * h + w * h / 4 + h / 2 * (w / 2) := by omega
      rw [hd1, if_neg n1, if_pos p2]
      unfold spec_i420_plane
      rw [Nat.add_sub_cancel_left, hmd, hdv, ex, ey]

/-- Witness of C3: the 2x2 test image. -/
theorem convert_rgba_to_nv12_spec_witness :
    (∀ v ∈ sample_2x2, v < 256) ∧
    ∃ dst, convert_rgba_to_nv12 (some sample_2x2) ((2 : Nat) : Int) ((2 : Nat) : Int)
        = .ok (some dst) ∧
      dst.length = 2 * 2 + 2 * 2 / 2 ∧ dst.length = 2 * 2 * 3 / 2 ∧
      (∀ x y, x < 2 → y < 2 →
        dst[y * 2 + x]? = some (spec_luma (sample_2x2.getD ((y * 2 + x) * 4) 0)
          (sample_2x2.getD ((y * 2 + x) * 4 + 1) 0) (sample_2x2.getD ((y * 2 + x) * 4 + 2) 0))) ∧
      (∀ x y, x < 2 → y < 2 → x % 2 = 0 → y % 2 = 0 →
        dst[2 * 2 + y / 2 * 2 + x]? = some (spec_block spec_chroma_u sample_2x2 2 x y) ∧
        dst[2 * 2 + y / 2 * 2 + x + 1]? = some (spec_block spec_chroma_v sample_2x2 2 x y)) :=
  ⟨by decide, convert_rgba_to_nv12_spec sample_2x2 2 2 (by decide) (by decide) (by decide)
    (by decide) (by decide) (by decide) (by decide) (by decide)⟩

/-- Witness of C4: the 2x2 test image. -/
theorem convert_rgba_to_i420_spec_witness :
    (∀ v ∈ sample_2x2, v < 256) ∧
    ∃ dst, convert_rgba_to_i420 (some sample_2x2) ((2 : Nat) : Int) ((2 : Nat) : Int)
        = .ok (some dst) ∧
      dst.length = 2 * 2 + 2 * (2 * 2 / 4) ∧ dst.length = 2 * 2 * 3 / 2 ∧
      (∀ x y, x < 2 → y < 2 →
        dst[y * 2 + x]? = some (spec_luma (sample_2x2.getD ((y * 2 + x) * 4) 0)
          (sample_2x2.getD ((y * 2 + x) * 4 + 1) 0) (sample_2x2.getD ((y * 2 + x) * 4 + 2) 0))) ∧
      (∀ x y, x < 2 → y < 2 → x % 2 = 0 → y % 2 = 0 →
        y / 2 * (2 / 2) + x / 2 < 2 * 2 / 4 ∧
        dst[2 * 2 + (y / 2 * (2 / 2) + x / 2)]? = some (spec_block spec_chroma_u sample_2x2 2 x y) ∧
        dst[2 * 2 + 2 * 2 / 4 + (y / 2 * (2 / 2) + x / 2)]?
          = some (spec_block spec_chroma_v sample_2x2 2 x y)) :=
  ⟨by decide, convert_rgba_to_i420_spec sample_2x2 2 2 (by decide) (by decide) (by decide)
    (by decide) (by decide) (by decide) (by decide) (by decide)⟩

/-! ## Start: output dimensions (C1) -/

/-- C1 (code defect). With a downstream peer pinning 2x1 and the properties
`width = 1`, `height = 2` both set, `start` on a 1x1 image resolves the output
to the properties, 1x2, not to the pinned 2x1: the properties are applied after
the peer caps and overwrite them. -/
theorem start_properties_override_pinned_caps :
    (gst_static_png_src_start priority_env priority_element).map
        (fun r => (r.1.actual_width, r.1.actual_height, r.2))
      = .ok (1, 2, true) := by
  decide

/-! ## The red 2x2 scenario (C5) -/

/-- C5, as stated, fails: the luma of opaque red is 82, not 90, and the NV12
conversion of the red 2x2 image has no luma byte equal to 90. -/
theorem red_2x2_nv12_luma_is_not_90 :
    spec_luma 255 0 0 ≠ 90 ∧
    ¬ ∃ dst, convert_rgba_to_nv12 (some red_2x2) 2 2 = .ok (some dst) ∧
        ∀ i, i < 4 → dst[i]? = some 90 := by
  refine ⟨by decide, ?_⟩
  rintro ⟨dst, h, h90⟩
  have e : convert_rgba_to_nv12 (some red_2x2) 2 2 = .ok (some [82, 82, 82, 82, 90, 240]) := by
    decide
  rw [e] at h
  injection h with h
  injection h with h
  subst h
  have := h90 0 (by decide)
  revert this
  decide

/-- C5, amended. The NV12 conversion of the red 2x2 image is four luma bytes
`clamp(((66*255+128)>>8)+16, 0, 255) = 82` followed by one chroma sample
`U = 90`, `V = 240`, the 2x2-block average of the four identical red pixels. -/
theorem red_2x2_nv12 :
    convert_rgba_to_nv12 (some red_2x2) 2 2 = .ok (some [82, 82, 82, 82, 90, 240]) ∧
    spec_luma 255 0 0 = 82 ∧
    spec_block spec_chroma_u red_2x2 2 0 0 = 90 ∧
    spec_block spec_chroma_v red_2x2 2 0 0 = 240 := by
  decide

/-! ## The 1x1 image (C6) -/

/-- C6 (code defect). On a 1x1 image the packed formats convert inside their
buffers, but both planar converters leave the 4-byte source: their 2x2 chroma
loop reads the pixel to the right of pixel (0,0), at byte offset 4; and were
the source longer, it would store the chroma sample at offset 1 of the 1-byte
output allocation. -/
theorem one_by_one_planar_out_of_bounds :
    convert_rgba_to_nv12 (some red_1x1) 1 1 = .error (.oobRead 4 4) ∧
    convert_rgba_to_i420 (some red_1x1) 1 1 = .error (.oobRead 4 4) ∧
    convert_rgba_to_nv12 (some red_2x2) 1 1 = .error (.oobWrite 1 1) ∧
    convert_rgba_to_i420 (some red_2x2) 1 1 = .error (.oobWrite 1 1) ∧
    swizzle_from_rgba_inplace (some red_1x1) 1 1 (some "BGRA") = .ok (some [0, 0, 255, 255]) ∧
    swizzle_from_rgba_inplace (some red_1x1) 1 1 (some "ARGB") = .ok (some [255, 255, 0, 0]) ∧
    swizzle_from_rgba_inplace (some red_1x1) 1 1 (some "ABGR") = .ok (some [255, 0, 0, 255]) := by
  decide

/-! ## Unrecognized format tags (C9) -/

/-- A tag that is none of BGRA, ARGB, ABGR leaves the buffer as it is. -/
theorem swizzle_unrecognized (pixels : Buf) (w h : Nat) (fmt : String)
    (hw : w < 2147483648) (hh : h < 2147483648) (hlen : pixels.length = w * h * 4)
    (hb : fmt ≠ "BGRA") (ha : fmt ≠ "ARGB") (hc : fmt ≠ "ABGR") :
    swizzle_from_rgba_inplace (some pixels) w h (some fmt) = .ok (some pixels) := by
  obtain ⟨out, hrun, _, hout⟩ := swizzle_ok pixels w h fmt hw hh hlen
  rw [hrun]
  congr 2
  apply List.ext_getElem?
  intro j
  rw [hout j]
  have : swizzle_perm fmt (j % 4) = j % 4 := by
    unfold swizzle_perm
    rw [if_neg hb, if_neg ha, if_neg hc]
  rw [this]
  congr 1
  omega

/-- The video meta of a frame whose stored tag the format lookup resolves to
neither NV12 nor I420: one plane at offset 0 with the frame stride, tagged RGBA
when the lookup yields `UNKNOWN`. -/
theorem video_meta_packed (env : CreateEnv) (s : GstStaticPngSrc) (t : String)
    (ht : s.selected_format = t)
    (hn : env.gst_video_format_from_string t ≠ GstVideoFormat.NV12)
    (hi : env.gst_video_format_from_string t ≠ GstVideoFormat.I420) :
    (video_meta env s).n_planes = 1 ∧ (video_meta env s).offsets = [0, 0, 0, 0] ∧
    (video_meta env s).strides = [s.frame_stride, 0, 0, 0] ∧
    (video_meta env s).width = gint_cast s.actual_width ∧
    (video_meta env s).height = gint_cast s.actual_height ∧
    (env.gst_video_format_from_string t = GstVideoFormat.UNKNOWN →
      (video_meta env s).format = GstVideoFormat.RGBA) ∧
    (env.gst_video_format_from_string t ≠ GstVideoFormat.UNKNOWN →
      (video_meta env s).format = env.gst_video_format_from_string t) := by
  unfold video_meta
  simp only [ht]
  by_cases hu : env.gst_video_format_from_string t = GstVideoFormat.UNKNOWN
  · rw [if_pos hu, if_neg (by decide), if_neg (by decide)]
    exact ⟨rfl, rfl, rfl, rfl, rfl, fun _ => rfl, fun h => absurd hu h⟩
  · rw [if_neg hu, if_neg hn, if_neg hi]
    exact ⟨rfl, rfl, rfl, rfl, rfl, fun h => absurd h hu, fun _ => rfl⟩

/-- C9, amended. For a negotiated format name outside the six of the pad
template that the format lookup of the element (on `selected_format`) does not
resolve to NV12 or I420, the first frame request of a loaded element does not
fail: it returns `GST_FLOW_OK` and caches and hands out a buffer holding the
canonical RGBA bytes, unmodified, tagged as one plane at offset 0 with stride
`4*w`, width `w`, height `h` and size `4*w*h`, and tagged RGBA when the lookup
yields `UNKNOWN`. -/
theorem create_unrecognized_format_passes_rgba (env : CreateEnv) (self : GstStaticPngSrc)
    (rgba : Buf) (w h : Nat) (s : GstStructure) (rest : List GstStructure) (fmt : String)
    (hfmt : fmt ≠ "RGBA" ∧ fmt ≠ "BGRA" ∧ fmt ≠ "ARGB" ∧ fmt ≠ "ABGR" ∧ fmt ≠ "NV12"
      ∧ fmt ≠ "I420")
    (hvn : env.gst_video_format_from_string (g_strlcpy5 fmt) ≠ GstVideoFormat.NV12)
    (hvi : env.gst_video_format_from_string (g_strlcpy5 fmt) ≠ GstVideoFormat.I420)
    (hcaps : env.current_caps = some (s :: rest)) (hs : s.format = some fmt)
    (hmem : self.shared_mem = none) (hdata : self.rgba_data = some rgba)
    (hw : self.actual_width = w) (hh : self.actual_height = h)
    (hw0 : 0 < w) (hh0 : 0 < h) (hw2 : w < 2147483648) (hh2 : h < 2147483648)
    (hstride : self.rgba_stride = ((4 * w : Nat) : Int))
    (hsize : self.rgba_size = w * h * 4) (hlen : rgba.length = w * h * 4) :
    ∃ self1 buffer, gst_static_png_src_create env self = .ok (self1, some buffer) ∧
      buffer.memory = rgba ∧ self1.shared_mem = some rgba ∧
      buffer.vmeta.n_planes = 1 ∧ self1.num_planes = 1 ∧
      buffer.vmeta.offsets = [0, 0, 0, 0] ∧
      buffer.vmeta.strides = [((4 * w : Nat) : Int), 0, 0, 0] ∧
      buffer.vmeta.width = (w : Int) ∧ buffer.vmeta.height = (h : Int) ∧
      self1.frame_size = 4 * w * h ∧ buffer.memory.length = self1.frame_size ∧
      (env.gst_video_format_from_string (g_strlcpy5 fmt) = GstVideoFormat.UNKNOWN →
        buffer.vmeta.format = GstVideoFormat.RGBA) := by
  obtain ⟨h1, h2, h3, h4, h5, h6⟩ := hfmt
  have hpos : 0 < w * h := Nat.mul_pos hw0 hh0
  have hdup : memdup_fallback (some rgba) (w * h * 4) = .ok (some rgba) := by
    unfold memdup_fallback
    simp only []
    rw [if_neg (by omega), if_pos (by omega), ← hlen, List.take_length]
  have hswz := swizzle_unrecognized rgba w h fmt hw2 hh2 hlen h2 h3 h4
  have hneg : negotiated_caps env self = some (some (s :: rest)) := by
    unfold negotiated_caps
    rw [hcaps]
  have hfm : negotiated_format (some (s :: rest)) = fmt := by
    unfold negotiated_format
    simp only [hs]
  have hgw : gint_cast (w : Int) = (w : Int) := by unfold gint_cast; omega
  have hgh : gint_cast (h : Int) = (h : Int) := by unfold gint_cast; omega
  unfold gst_static_png_src_create
  rw [hmem]
  simp only []
  unfold build_output
  rw [hdata]
  simp only [hneg, hfm]
  unfold convert_output
  simp only [if_neg h5, if_neg h6, hsize, hdup, hw, hh, hswz, ne_eq, h1,
    not_false_eq_true, if_true, hstride]
  obtain ⟨m1, m2, m3, m4, m5, m6, _⟩ := video_meta_packed env
    { self with
      selected_format := g_strlcpy5 fmt, frame_size := w * h * 4,
      frame_stride := ((4 * w : Nat) : Int), frame_data := some rgba, num_planes := 1,
      actual_width := (w : Int), actual_height := (h : Int), shared_mem := some rgba }
    (g_strlcpy5 fmt) rfl hvn hvi
  have e1 : w * h * 4 = 4 * w * h := by ring
  exact ⟨_, _, rfl, rfl, rfl, m1, rfl, m2, m3, m4.trans hgw, m5.trans hgh, e1, hlen, m6⟩

/-- Witness of C9, amended: the format name `GRAY8` on a loaded 1x1 image. -/
theorem create_unrecognized_format_passes_rgba_witness :
    ∃ self1 buffer, gst_static_png_src_create gray8_env loaded_1x1 = .ok (self1, some buffer) ∧
      buffer.memory = red_1x1 ∧ self1.shared_mem = some red_1x1 ∧
      buffer.vmeta.n_planes = 1 ∧ self1.num_planes = 1 ∧
      buffer.vmeta.offsets = [0, 0, 0, 0] ∧
      buffer.vmeta.strides = [((4 * 1 : Nat) : Int), 0, 0, 0] ∧
      buffer.vmeta.width = ((1 : Nat) : Int) ∧ buffer.vmeta.height = ((1 : Nat) : Int) ∧
      self1.frame_size = 4 * 1 * 1 ∧ buffer.memory.length = self1.frame_size ∧
      (gray8_env.gst_video_format_from_string (g_strlcpy5 "GRAY8") = GstVideoFormat.UNKNOWN →
        buffer.vmeta.format = GstVideoFormat.RGBA) :=
  create_unrecognized_format_passes_rgba gray8_env loaded_1x1 red_1x1 1 1
    { format := some "GRAY8", width := some 1, height := some 1, framerate := some (25, 1) }
    [] "GRAY8" (by decide) (by decide) (by decide) rfl rfl rfl rfl rfl rfl (by decide)
    (by decide) (by decide) (by decide) rfl rfl rfl

/-- C9, as stated, fails: with the format name `GRAY8` negotiated, the first
frame request of a loaded element returns `GST_FLOW_OK` and a frame holding the
RGBA bytes. -/
theorem gray8_request_emits_rgba_frame :
    (gst_static_png_src_create gray8_env loaded_1x1).map (fun r => r.2.map GstBuffer.memory)
      = .ok (some red_1x1) := by
  decide

/-- A name of more than four characters that begins with `I420`: the 5-byte
field `selected_format` keeps `I420`, so the RGBA bytes are handed out tagged
I420 with three planes. -/
theorem truncated_planar_name_tagged_planar :
    (gst_static_png_src_create i420_10le_env loaded_1x1).map
        (fun r => r.2.map (fun b => (b.memory, b.vmeta.format, b.vmeta.n_planes)))
      = .ok (some (red_1x1, GstVideoFormat.I420, 3)) := by
  decide

/-! ## Timestamps (C10) -/

theorem convert_output_frame_fields (fmt : String) (rgba : Buf) (self self1 : GstStaticPngSrc)
    (b : Bool) (h : convert_output fmt rgba self = .ok (self1, b)) :
    self1.frame_count = self.frame_count ∧ self1.frame_duration = self.frame_duration := by
  unfold convert_output at h
  simp only [] at h
  repeat' split at h
  all_goals first
    | (cases h; exact ⟨rfl, rfl⟩)
    | (cases h)

theorem build_output_frame_fields (env : CreateEnv) (self self1 : GstStaticPngSrc) (b : Bool)
    (h : build_output env self = .ok (self1, b)) :
    self1.frame_count = self.frame_count ∧ self1.frame_duration = self.frame_duration := by
  unfold build_output at h
  simp only [] at h
  split at h
  · cases h; exact ⟨rfl, rfl⟩
  · split at h
    · cases h; exact ⟨rfl, rfl⟩
    · split at h
      · cases h
      · next s2 hc =>
        cases h
        have := convert_output_frame_fields _ _ _ _ _ hc
        exact ⟨this.1, this.2⟩
      · next s2 hc =>
        cases h
        have := convert_output_frame_fields _ _ _ _ _ hc
        exact ⟨this.1, this.2⟩

/-- One successful frame request: the stamp of the buffer and the effect on the
frame counter. -/
theorem create_frame_fields (env : CreateEnv) (self self1 : GstStaticPngSrc) (buffer : GstBuffer)
    (h : gst_static_png_src_create env self = .ok (self1, some buffer)) :
    buffer.pts = (self.frame_count * self.frame_duration) % 18446744073709551616 ∧
    buffer.duration = self.frame_duration ∧
    self1.frame_count = (self.frame_count + 1) % 18446744073709551616 ∧
    self1.frame_duration = self.frame_duration := by
  unfold gst_static_png_src_create at h
  simp only [] at h
  split at h
  · cases h
  · cases h
  · next s2 hb =>
    have hf : s2.frame_count = self.frame_count ∧ s2.frame_duration = self.frame_duration := by
      split at hb
      · exact build_output_frame_fields _ _ _ _ hb
      · cases hb; exact ⟨rfl, rfl⟩
    split at h
    · cases h
    · cases h
      simp only [hf.1, hf.2, and_self]

/-- A successful `start` resets the frame counter. -/
theorem start_frame_count (env : StartEnv) (self self1 : GstStaticPngSrc)
    (h : gst_static_png_src_start env self = .ok (self1, true)) : self1.frame_count = 0 := by
  unfold gst_static_png_src_start at h
  simp only [] at h
  repeat' split at h
  all_goals first
    | (cases h; rfl)
    | (cases h)

/-- Stamps of consecutive successful frame requests from any element state,
in 64-bit arithmetic. -/
theorem frames_of_stamps : ∀ (envs : List CreateEnv) (self self2 : GstStaticPngSrc)
    (fs : List GstBuffer), frames_of envs self = some (fs, self2) →
    fs.length = envs.length ∧
    self2.frame_duration = self.frame_duration ∧
    self2.frame_count % 18446744073709551616
      = (self.frame_count + envs.length) % 18446744073709551616 ∧
    ∀ k b, fs[k]? = some b →
      b.pts = ((self.frame_count + k) % 18446744073709551616 * self.frame_duration)
        % 18446744073709551616 ∧
      b.duration = self.frame_duration := by
  intro envs
  induction envs with
  | nil =>
    intro self self2 fs h
    simp only [frames_of] at h
    cases h
    refine ⟨rfl, rfl, rfl, ?_⟩
    intro k b hk
    simp at hk
  | cons env envs ih =>
    intro self self2 fs h
    simp only [frames_of] at h
    split at h
    · next self1 buffer hc =>
      obtain ⟨hp, hdur, hcnt, hd1⟩ := create_frame_fields env self self1 buffer hc
      split at h
      · next bs s2 hrest =>
        cases h
        obtain ⟨hl, hd2, hc2, hst⟩ := ih self1 self2 bs hrest
        refine ⟨by simp only [List.length_cons, hl], by rw [hd2, hd1], ?_, ?_⟩
        · rw [hc2, hcnt, List.length_cons]
          omega
        · intro k b hk
          cases k with
          | zero =>
            simp only [List.getElem?_cons_zero, Option.some.injEq] at hk
            subst hk
            rw [hp, hdur, Nat.add_zero, Nat.mod_mul_mod]
            exact ⟨rfl, rfl⟩
          | succ k =>
            rw [List.getElem?_cons_succ] at hk
            obtain ⟨h1, h2⟩ := hst k b hk
            rw [h1, h2, hd1, hcnt]
            refine ⟨?_, rfl⟩
            congr 2
            omega
      · cases h
    · cases h

/-- C10, amended. After a successful `start`, `N` consecutive successful frame
requests with frame duration `d > 0` and `(N-1)*d < 2^64` yield `N` buffers
whose timestamps are exactly `0, d, ..., (N-1)d`, strictly increasing, each
with duration `d`; the frame counter and the duration are 64-bit values, and the counter
ends at `N` modulo `2^64`. -/
theorem frame_timestamps (senv : StartEnv) (self0 self self2 : GstStaticPngSrc)
    (envs : List CreateEnv) (fs : List GstBuffer)
    (hstart : gst_static_png_src_start senv self0 = .ok (self, true))
    (hd : 0 < self.frame_duration)
    (hfs : frames_of envs self = some (fs, self2))
    (hbound : (envs.length - 1) * self.frame_duration < 18446744073709551616) :
    fs.length = envs.length ∧
    self2.frame_count % 18446744073709551616 = envs.length % 18446744073709551616 ∧
    (∀ k b, fs[k]? = some b →
      b.pts = k * self.frame_duration ∧ b.duration = self.frame_duration) ∧
    (∀ k b1 b2, fs[k]? = some b1 → fs[k + 1]? = some b2 → b1.pts < b2.pts) := by
  have h0 := start_frame_count senv self0 self hstart
  obtain ⟨hl, _, hc, hst⟩ := frames_of_stamps envs self self2 fs hfs
  rw [h0, Nat.zero_add] at hc
  have key : ∀ k b, fs[k]? = some b →
      b.pts = k * self.frame_duration ∧ b.duration = self.frame_duration := by
    intro k b hk
    obtain ⟨h1, h2⟩ := hst k b hk
    have hklt : k < fs.length := by
      by_contra hcon
      rw [List.getElem?_eq_none (Nat.le_of_not_lt hcon)] at hk
      cases hk
    have hkd : k * self.frame_duration ≤ (envs.length - 1) * self.frame_duration :=
      Nat.mul_le_mul_right _ (by omega)
    have hkk : k ≤ k * self.frame_duration := Nat.le_mul_of_pos_right k hd
    have e1 : k % 18446744073709551616 = k := Nat.mod_eq_of_lt (by omega)
    have e2 : k * self.frame_duration % 18446744073709551616 = k * self.frame_duration :=
      Nat.mod_eq_of_lt (by omega)
    rw [h0, Nat.zero_add, e1, e2] at h1
    exact ⟨h1, h2⟩
  refine ⟨hl, hc, key, ?_⟩
  intro k b1 b2 hk1 hk2
  rw [(key k b1 hk1).1, (key (k + 1) b2 hk2).1]
  exact Nat.mul_lt_mul_of_pos_right (Nat.lt_succ_self k) hd

/-- Witness of C10, amended: three frame requests at 1 frame per second. -/
theorem frame_timestamps_witness :
    gst_static_png_src_start one_fps_start_env one_fps_element = .ok (one_fps_loaded, true) ∧
    frames_of [default_caps_env, default_caps_env, default_caps_env] one_fps_loaded
      = some (one_fps_three_frames, { one_fps_serving with frame_count := 3 }) ∧
    one_fps_three_frames.length
        = [default_caps_env, default_caps_env, default_caps_env].length ∧
    ({ one_fps_serving with frame_count := 3 } : GstStaticPngSrc).frame_count
        % 18446744073709551616
      = [default_caps_env, default_caps_env, default_caps_env].length % 18446744073709551616 ∧
    (∀ k b, one_fps_three_frames[k]? = some b →
      b.pts = k * one_fps_loaded.frame_duration ∧ b.duration = one_fps_loaded.frame_duration) ∧
    (∀ k b1 b2, one_fps_three_frames[k]? = some b1 → one_fps_three_frames[k + 1]? = some b2 →
      b1.pts < b2.pts) :=
  ⟨by decide, by decide,
    frame_timestamps one_fps_start_env one_fps_element one_fps_loaded
      { one_fps_serving with frame_count := 3 }
      [default_caps_env, default_caps_env, default_caps_env] one_fps_three_frames
      (by decide) (by decide) (by decide) (by decide)⟩

/-- One more successful frame request in front of a successful sequence. -/
theorem frames_of_cons_ok (env : CreateEnv) (envs : List CreateEnv)
    (self self1 self2 : GstStaticPngSrc) (buffer : GstBuffer) (bs : List GstBuffer)
    (hc : gst_static_png_src_create env self = .ok (self1, some buffer))
    (hr : frames_of envs self1 = some (bs, self2)) :
    frames_of (env :: envs) self = some (buffer :: bs, self2) := by
  rw [frames_of, hc]
  simp only []
  rw [hr]

/-- A serving element answers a frame request from its cache. -/
theorem create_serving (env : CreateEnv) (self : GstStaticPngSrc) (mem : Buf)
    (hm : self.shared_mem = some mem) :
    gst_static_png_src_create env self
      = .ok ({ self with frame_count := (self.frame_count + 1) % 18446744073709551616 },
          some (serving_frame env self mem 0)) := by
  unfold gst_static_png_src_create serving_frame
  simp only [hm, Nat.add_zero, Nat.mod_mul_mod]

/-- Any number of frame requests to a serving element succeed. -/
theorem frames_of_serving (env : CreateEnv) (mem : Buf) : ∀ (n : Nat) (self : GstStaticPngSrc),
    self.shared_mem = some mem →
    ∃ self2, frames_of (List.replicate n env) self
      = some ((List.range n).map (serving_frame env self mem), self2) := by
  intro n
  induction n with
  | zero =>
    intro self _
    exact ⟨self, rfl⟩
  | succ n ih =>
    intro self hm
    obtain ⟨self2, h2⟩ :=
      ih { self with frame_count := (self.frame_count + 1) % 18446744073709551616 } hm
    refine ⟨self2, ?_⟩
    rw [List.replicate_succ, List.range_succ_eq_map, List.map_cons, List.map_map]
    refine frames_of_cons_ok env _ self _ self2 _ _ (create_serving env self mem hm) ?_
    rw [h2]
    congr 2
    apply List.map_congr_left
    intro k _
    have hk : ((self.frame_count + 1) % 18446744073709551616 + k) % 18446744073709551616
        = (self.frame_count + Nat.succ k) % 18446744073709551616 := by omega
    simp only [Function.comp, serving_frame, video_meta, hk]

/-- Two stamps read off a successful sequence. -/
theorem stamps_of_pair (fs : List GstBuffer) (self2 : GstStaticPngSrc) (i j a b : Nat)
    (h1 : fs[i]?.map GstBuffer.pts = some a) (h2 : fs[j]?.map GstBuffer.pts = some b) :
    (some (fs, self2)).map
        (fun r => (r.1[i]?.map GstBuffer.pts, r.1[j]?.map GstBuffer.pts))
      = some (some a, some b) := by
  simp only [Option.map_some', h1, h2]

/-- C10, as stated, fails: at 1 frame per second (`d = 10^9` ns) the 64-bit
timestamp of request number 18446744074 after the start is 290448384, not
`18446744074 * d`, and it is smaller than the timestamp before it. -/
theorem timestamp_wraps_at_two_pow_64 :
    gst_static_png_src_start one_fps_start_env one_fps_element = .ok (one_fps_loaded, true) ∧
    one_fps_loaded.frame_duration = 1000000000 ∧
    (frames_of (List.replicate 18446744075 default_caps_env) one_fps_loaded).map
        (fun r => (r.1[18446744073]?.map GstBuffer.pts, r.1[18446744074]?.map GstBuffer.pts))
      = some (some 18446744073000000000, some 290448384) := by
  refine ⟨by decide, by decide, ?_⟩
  have e : (18446744075 : Nat) = 18446744074 + 1 := by norm_num
  have hfirst : gst_static_png_src_create default_caps_env one_fps_loaded
      = .ok (one_fps_serving, some one_fps_first_frame) := by decide
  obtain ⟨self2, h2⟩ := frames_of_serving default_caps_env red_1x1 18446744074 one_fps_serving rfl
  have h3 := frames_of_cons_ok default_caps_env _ one_fps_loaded _ self2 _ _ hfirst h2
  have p1 : (serving_frame default_caps_env one_fps_serving red_1x1 18446744072).pts
      = 18446744073000000000 := by decide
  have p2 : (serving_frame default_caps_env one_fps_serving red_1x1 18446744073).pts
      = 290448384 := by decide
  have g1 : (one_fps_first_frame ::
      List.map (serving_frame default_caps_env one_fps_serving red_1x1)
        (List.range 18446744074))[18446744072 + 1]?.map GstBuffer.pts
      = some 18446744073000000000 := by
    rw [List.getElem?_cons_succ, List.getElem?_map, List.getElem?_range (by norm_num),
      Option.map_some', Option.map_some', p1]
  have g2 : (one_fps_first_frame ::
      List.map (serving_frame default_caps_env one_fps_serving red_1x1)
        (List.range 18446744074))[18446744073 + 1]?.map GstBuffer.pts
      = some 290448384 := by
    rw [List.getElem?_cons_succ, List.getElem?_map, List.getElem?_range (by norm_num),
      Option.map_some', Option.map_some', p2]
  have i1 : (18446744073 : Nat) = 18446744072 + 1 := by norm_num
  have i2 : (18446744074 : Nat) = 18446744073 + 1 := by norm_num
  rw [e, List.replicate_succ, h3]
  exact stamps_of_pair _ self2 _ _ _ _ g1 g2

/-! ## Negotiate once, serve many (C11) -/

/-- C11. Once the cached output frame exists, any number of further frame
requests, whatever caps the environment of each request names, succeed from the
cache: every buffer carries the cached bytes, tagged from the unchanged
`selected_format`, and the element afterwards differs from the element before
in `frame_count` only (cached bytes, size, stride, width, height, plane count
and selected format are the same). -/
theorem serving_keeps_cached_frame (envs : List CreateEnv) (self : GstStaticPngSrc) (mem : Buf)
    (hm : self.shared_mem = some mem) :
    ∃ fs self2, frames_of envs self = some (fs, self2) ∧
      fs.length = envs.length ∧
      (∀ b, b ∈ fs → b.memory = mem ∧ ∃ env, env ∈ envs ∧ b.vmeta = video_meta env self) ∧
      self2 = { self with frame_count := self2.frame_count } ∧
      self2.shared_mem = some mem ∧ self2.frame_data = self.frame_data ∧
      self2.frame_size = self.frame_size ∧ self2.frame_stride = self.frame_stride ∧
      self2.actual_width = self.actual_width ∧ self2.actual_height = self.actual_height ∧
      self2.num_planes = self.num_planes ∧ self2.selected_format = self.selected_format := by
  induction envs generalizing self with
  | nil =>
    exact ⟨[], self, rfl, rfl, (by intro b hb; cases hb), rfl, hm, rfl, rfl, rfl, rfl, rfl, rfl,
      rfl⟩
  | cons env envs ih =>
    obtain ⟨fs, self2, hrun, hlen, hmem, heq, h1, h2, h3, h4, h5, h6, h7, h8⟩ :=
      ih { self with frame_count := (self.frame_count + 1) % 18446744073709551616 } hm
    refine ⟨serving_frame env self mem 0 :: fs, self2,
      frames_of_cons_ok env envs self _ self2 _ fs (create_serving env self mem hm) hrun,
      by simp only [List.length_cons, hlen], ?_, ?_, h1, h2, h3, h4, h5, h6, h7, h8⟩
    · intro b hb
      rcases List.mem_cons.mp hb with hb | hb
      · subst hb
        exact ⟨rfl, env, List.mem_cons_self _ _, rfl⟩
      · obtain ⟨hbm, e, he, hv⟩ := hmem b hb
        exact ⟨hbm, e, List.mem_cons_of_mem _ he, hv⟩
    · rw [heq]

/-- Witness of C11: a serving element asked twice, the second time with caps
that name another format. -/
theorem serving_keeps_cached_frame_witness :
    ∃ fs self2, frames_of [default_caps_env, gray8_env] one_fps_serving = some (fs, self2) ∧
      fs.length = [default_caps_env, gray8_env].length ∧
      (∀ b, b ∈ fs → b.memory = red_1x1 ∧
        ∃ env, env ∈ [default_caps_env, gray8_env] ∧ b.vmeta = video_meta env one_fps_serving) ∧
      self2 = { one_fps_serving with frame_count := self2.frame_count } ∧
      self2.shared_mem = some red_1x1 ∧ self2.frame_data = one_fps_serving.frame_data ∧
      self2.frame_size = one_fps_serving.frame_size ∧
      self2.frame_stride = one_fps_serving.frame_stride ∧
      self2.actual_width = one_fps_serving.actual_width ∧
      self2.actual_height = one_fps_serving.actual_height ∧
      self2.num_planes = one_fps_serving.num_planes ∧
      self2.selected_format = one_fps_serving.selected_format :=
  serving_keeps_cached_frame [default_caps_env, gray8_env] one_fps_serving red_1x1 rfl

/-! ## Frame rate (C12) -/

/-- C12. Writing the `fps` property with `n/d` (two `gint` values) stores
`frame_duration = ⌊1_000_000_000 * d / n⌋` ns when `n > 0` and `d > 0`; when
`n <= 0` or `d <= 0` the rate falls back to 25/1 and the duration is 40_000_000
ns; a freshly initialised element has 25/1 and 40_000_000 ns as well. -/
theorem fps_frame_duration (self : GstStaticPngSrc) (n d : Int)
    (hn : n ≤ 2147483647) (hd : d ≤ 2147483647) :
    (0 < n → 0 < d →
      (gst_static_png_src_set_property self (.fps n d)).fps_n = n ∧
      (gst_static_png_src_set_property self (.fps n d)).fps_d = d ∧
      (gst_static_png_src_set_property self (.fps n d)).frame_duration
        = 1000000000 * d.toNat / n.toNat) ∧
    (n ≤ 0 ∨ d ≤ 0 →
      (gst_static_png_src_set_property self (.fps n d)).fps_n = 25 ∧
      (gst_static_png_src_set_property self (.fps n d)).fps_d = 1 ∧
      (gst_static_png_src_set_property self (.fps n d)).frame_duration = 40000000) ∧
    gst_static_png_src_init.fps_n = 25 ∧ gst_static_png_src_init.fps_d = 1 ∧
    gst_static_png_src_init.frame_duration = 40000000 := by
  refine ⟨?_, ?_, by decide, by decide, by decide⟩
  · intro hn0 hd0
    have hg : ¬ (n ≤ 0 ∨ d ≤ 0) := by omega
    simp only [gst_static_png_src_set_property, if_neg hg, gst_util_uint64_scale_int,
      GST_SECOND, G_MAXUINT64]
    refine ⟨trivial, trivial, ?_⟩
    have h1 : 1000000000 * d.toNat / n.toNat ≤ 1000000000 * d.toNat := Nat.div_le_self _ _
    have h2 : d.toNat ≤ 2147483647 := by omega
    rw [if_neg (by omega)]
  · intro h
    simp only [gst_static_png_src_set_property, if_pos h, gst_util_uint64_scale_int,
      GST_SECOND, G_MAXUINT64]
    exact ⟨trivial, trivial, by decide⟩

/-- Witness of C12: the rate 30000/1001. -/
theorem fps_frame_duration_witness :
    (gst_static_png_src_set_property gst_static_png_src_init (.fps 30000 1001)).frame_duration
      = 33366666 ∧
    ((0 : Int) < 30000 → (0 : Int) < 1001 →
      (gst_static_png_src_set_property gst_static_png_src_init (.fps 30000 1001)).fps_n = 30000 ∧
      (gst_static_png_src_set_property gst_static_png_src_init (.fps 30000 1001)).fps_d = 1001 ∧
      (gst_static_png_src_set_property gst_static_png_src_init (.fps 30000 1001)).frame_duration
        = 1000000000 * (1001 : Int).toNat / (30000 : Int).toNat) ∧
    ((30000 : Int) ≤ 0 ∨ (1001 : Int) ≤ 0 →
      (gst_static_png_src_set_property gst_static_png_src_init (.fps 30000 1001)).fps_n = 25 ∧
      (gst_static_png_src_set_property gst_static_png_src_init (.fps 30000 1001)).fps_d = 1 ∧
      (gst_static_png_src_set_property gst_static_png_src_init (.fps 30000 1001)).frame_duration
        = 40000000) ∧
    gst_static_png_src_init.fps_n = 25 ∧ gst_static_png_src_init.fps_d = 1 ∧
    gst_static_png_src_init.frame_duration = 40000000 :=
  ⟨by decide, fps_frame_duration gst_static_png_src_init 30000 1001 (by decide) (by decide)⟩

/-! ## Stop (C16) -/

/-- C16. From every state `stop` succeeds and leaves `frame_count = 0`, no
canonical RGBA image and no cached output frame; a frame request that follows
without a `start` returns `GST_FLOW_ERROR`, hands out no buffer and changes
nothing; and after a later successful `start` the first buffer handed out is
stamped 0. -/
theorem stop_unloads (self : GstStaticPngSrc) :
    (gst_static_png_src_stop self).2 = true ∧
    (gst_static_png_src_stop self).1.frame_count = 0 ∧
    (gst_static_png_src_stop self).1.rgba_data = none ∧
    (gst_static_png_src_stop self).1.frame_data = none ∧
    (gst_static_png_src_stop self).1.shared_mem = none ∧
    (∀ env, gst_static_png_src_create env (gst_static_png_src_stop self).1
      = .ok ((gst_static_png_src_stop self).1, none)) ∧
    (∀ senv cenv self1 self2 buffer,
      gst_static_png_src_start senv (gst_static_png_src_stop self).1 = .ok (self1, true) →
      gst_static_png_src_create cenv self1 = .ok (self2, some buffer) →
      buffer.pts = 0) := by
  have hr : (gst_static_png_src_stop self).1.rgba_data = none := by
    unfold gst_static_png_src_stop
    simp only []
    split
    · rfl
    · next h => exact h
  have hs : (gst_static_png_src_stop self).1.shared_mem = none := by
    unfold gst_static_png_src_stop
    simp only []
    split <;> rfl
  refine ⟨rfl, rfl, hr, ?_, hs, ?_, ?_⟩
  · unfold gst_static_png_src_stop
    simp only []
    split <;> rfl
  · intro env
    unfold gst_static_png_src_create
    simp only [hs]
    unfold build_output
    simp only [hr]
  · intro senv cenv self1 self2 buffer h1 h2
    have h0 := start_frame_count senv _ self1 h1
    rw [(create_frame_fields cenv self1 self2 buffer h2).1, h0, Nat.zero_mul]

/-- Witness of C16: stopping the serving 1x1 element, then starting it again
and asking for a frame. -/
theorem stop_unloads_witness :
    gst_static_png_src_start one_fps_start_env (gst_static_png_src_stop one_fps_serving).1
      = .ok (one_fps_loaded, true) ∧
    gst_static_png_src_create default_caps_env one_fps_loaded
      = .ok (one_fps_serving, some one_fps_first_frame) ∧
    one_fps_first_frame.pts = 0 :=
  ⟨by decide, by decide,
    (stop_unloads one_fps_serving).2.2.2.2.2.2 one_fps_start_env default_caps_env
      one_fps_loaded one_fps_serving one_fps_first_frame (by decide) (by decide)⟩

/-! ## Decoder selection (C13) -/

theorem strrchr_tail_none (c : Char) : ∀ l : List Char, c ∉ l → strrchr_tail c l = none := by
  intro l
  induction l with
  | nil => intro _; rfl
  | cons x xs ih =>
    intro h
    have hx : ¬ x = c := fun e => h (by rw [e]; exact List.mem_cons_self _ _)
    have hxs : c ∉ xs := fun m => h (List.mem_cons_of_mem _ m)
    simp only [strrchr_tail, ih hxs, if_neg hx]

/-- The text after the last occurrence of `c`. -/
theorem strrchr_tail_append (c : Char) (t : List Char) (ht : c ∉ t) :
    ∀ pre : List Char, strrchr_tail c (pre ++ c :: t) = some t := by
  intro pre
  induction pre with
  | nil => simp only [List.nil_append, strrchr_tail, strrchr_tail_none c t ht, if_true]
  | cons x xs ih =>
    rw [List.cons_append, strrchr_tail, ih]

/-- `start` on a location that selects no decoder. -/
theorem start_no_decoder (env : StartEnv) (self : GstStaticPngSrc) (loc : String)
    (hd : decode_by_extension env loc = none) (hl : self.location = some loc) :
    gst_static_png_src_start env self = .ok (self, false) := by
  unfold gst_static_png_src_start
  simp only [hl, hd]
  split <;> rfl

/-- C13. The decoder `start` uses depends only on the text `t` after the last
`.` of the location, lower-cased (ASCII): `png` gives the result of the PNG
decoder, `jpg`, `jpeg` and `jpp` the result of the JPEG decoder; with any
other text after the last dot (also none at all), or with no dot, no decoder
result is used and `start` fails, whatever the decoders would return; an unset
or empty location makes `start` fail as well. -/
theorem decoder_selection (env : StartEnv) (self : GstStaticPngSrc) :
    (∀ (loc : String) (pre t : List Char), loc.data = pre ++ '.' :: t → '.' ∉ t →
      (String.mk (t.map Char.toLower) = "png" →
        decode_by_extension env loc = env.decode_png_to_rgba loc) ∧
      (String.mk (t.map Char.toLower) = "jpg" ∨ String.mk (t.map Char.toLower) = "jpeg"
          ∨ String.mk (t.map Char.toLower) = "jpp" →
        decode_by_extension env loc = env.decode_jpeg_to_rgba loc) ∧
      (String.mk (t.map Char.toLower) ≠ "png" → String.mk (t.map Char.toLower) ≠ "jpg" →
        String.mk (t.map Char.toLower) ≠ "jpeg" → String.mk (t.map Char.toLower) ≠ "jpp" →
        decode_by_extension env loc = none ∧
        (self.location = some loc → gst_static_png_src_start env self = .ok (self, false)))) ∧
    (∀ loc : String, '.' ∉ loc.data →
      decode_by_extension env loc = none ∧
      (self.location = some loc → gst_static_png_src_start env self = .ok (self, false))) ∧
    (self.location = none → gst_static_png_src_start env self = .ok (self, false)) ∧
    (self.location = some "" → gst_static_png_src_start env self = .ok (self, false)) := by
  refine ⟨?_, ?_, ?_, ?_⟩
  · intro loc pre t hloc ht
    have hs := strrchr_tail_append '.' t ht pre
    rw [← hloc] at hs
    cases t with
    | nil =>
      refine ⟨fun h => absurd h (by decide), fun h => ?_, fun _ _ _ _ => ?_⟩
      · rcases h with h | h | h <;> exact absurd h (by decide)
      · have hd : decode_by_extension env loc = none := by
          unfold decode_by_extension
          simp only [hs]
        exact ⟨hd, start_no_decoder env self loc hd⟩
    | cons c cs =>
      have hu : decode_by_extension env loc =
          if String.mk ((c :: cs).map Char.toLower) = "png" then env.decode_png_to_rgba loc
          else if String.mk ((c :: cs).map Char.toLower) = "jpg"
              ∨ String.mk ((c :: cs).map Char.toLower) = "jpeg"
              ∨ String.mk ((c :: cs).map Char.toLower) = "jpp" then env.decode_jpeg_to_rgba loc
          else none := by
        unfold decode_by_extension
        simp only [hs, g_ascii_strdown]
      generalize String.mk ((c :: cs).map Char.toLower) = ext at hu ⊢
      refine ⟨fun h => ?_, fun h => ?_, fun h1 h2 h3 h4 => ?_⟩
      · rw [hu, if_pos h]
      · have hp : ext ≠ "png" := by
          rcases h with h | h | h <;> (rw [h]; decide)
        rw [hu, if_neg hp, if_pos h]
      · have hd : decode_by_extension env loc = none := by
          have hj : ¬ (ext = "jpg" ∨ ext = "jpeg" ∨ ext = "jpp") := by
            rintro (h | h | h)
            · exact h2 h
            · exact h3 h
            · exact h4 h
          rw [hu, if_neg h1, if_neg hj]
        exact ⟨hd, start_no_decoder env self loc hd⟩
  · intro loc hdot
    have hd : decode_by_extension env loc = none := by
      unfold decode_by_extension
      simp only [strrchr_tail_none '.' loc.data hdot]
    exact ⟨hd, start_no_decoder env self loc hd⟩
  · intro h
    unfold gst_static_png_src_start
    simp only [h]
  · intro h
    unfold gst_static_png_src_start
    simp only [h]
    rfl

/-- Witness of C13: an upper-case `JPEG` extension selects the JPEG decoder, and
a `gif` location makes `start` fail. -/
theorem decoder_selection_witness :
    decode_by_extension priority_env "photo.JPEG"
      = priority_env.decode_jpeg_to_rgba "photo.JPEG" ∧
    gst_static_png_src_start priority_env
        (gst_static_png_src_set_property gst_static_png_src_init (.location (some "anim.gif")))
      = .ok (gst_static_png_src_set_property gst_static_png_src_init
          (.location (some "anim.gif")), false) :=
  ⟨((decoder_selection priority_env gst_static_png_src_init).1 "photo.JPEG" "photo".data
      "JPEG".data (by decide) (by decide)).2.1 (Or.inr (Or.inl (by decide))),
   (((decoder_selection priority_env
      (gst_static_png_src_set_property gst_static_png_src_init
        (.location (some "anim.gif")))).1 "anim.gif" "anim".data "gif".data
      (by decide) (by decide)).2.2 (by decide) (by decide) (by decide) (by decide)).2 rfl⟩

/-! ## Start: native size and scaling (C14) -/

/-- A proposal that pins no size leaves `out_w` and `out_h` alone. -/
theorem peer_caps_step_dims (w h : Int) (f : String) (s : GstStructure)
    (hs : pins_size s = false) :
    (peer_caps_step (w, h, f) s).1 = w ∧ (peer_caps_step (w, h, f) s).2.1 = h := by
  unfold pins_size at hs
  unfold peer_caps_step
  simp only []
  split at hs
  · next w1 h1 hw hh =>
    have hn : ¬ (w1 > 0 ∧ h1 > 0) := by simpa using hs
    simp only [hw, hh, if_neg hn, and_self]
  · exact ⟨rfl, rfl⟩

theorem peer_caps_fold_dims (caps : List GstStructure) :
    ∀ (w h : Int) (f : String), (∀ s, s ∈ caps → pins_size s = false) →
      (caps.foldl peer_caps_step (w, h, f)).1 = w ∧
      (caps.foldl peer_caps_step (w, h, f)).2.1 = h := by
  induction caps with
  | nil => intro w h f _; exact ⟨rfl, rfl⟩
  | cons s caps ih =>
    intro w h f hall
    obtain ⟨h1, h2⟩ := peer_caps_step_dims w h f s (hall s (List.mem_cons_self _ _))
    rw [List.foldl_cons]
    generalize hr : peer_caps_step (w, h, f) s = r at h1 h2
    obtain ⟨w1, h1', f1⟩ := r
    simp only at h1 h2
    subst h1 h2
    exact ih _ _ f1 (fun s1 hs1 => hall s1 (List.mem_cons_of_mem _ hs1))

/-- `start` after a successful decode, in terms of the resolved output. -/
theorem start_decoded (env : StartEnv) (self : GstStaticPngSrc) (loc : String) (decoded : Buf)
    (img_w img_h ow oh : Int) (f : String)
    (hloc : self.location = some loc) (hne : loc.data ≠ [])
    (hdec : decode_by_extension env loc = some (decoded, img_w, img_h))
    (hr : resolve_output self env.peer_caps img_w img_h = (ow, oh, f)) :
    gst_static_png_src_start env self =
      match (if ow ≠ img_w ∨ oh ≠ img_h then scale_rgba_nearest decoded img_w img_h ow oh
             else .ok (some decoded)) with
      | .error e => .error e
      | .ok none => .ok ({ self with selected_format := f }, false)
      | .ok (some p) => .ok (loaded_state self f ow oh p, true) := by
  unfold gst_static_png_src_start
  simp only [hloc, if_neg hne, hdec, hr]
  generalize (if ow ≠ img_w ∨ oh ≠ img_h then scale_rgba_nearest decoded img_w img_h ow oh
    else Except.ok (some decoded)) = r
  rcases r with e | _ | p
  · rfl
  · rfl
  · simp only [loaded_state, hloc]

/-- C14. After a successful decode to an image of `img_w x img_h` pixels:
with no size pinned downstream and the width or the height property 0, the
resolved output size is the native one; when the resolved size is the native
one `start` keeps the decoded buffer itself as the canonical RGBA image,
whatever that buffer is, with stride `width*4` and size `width*height*4`; and
when the resolved size differs the outcome of `start` is that of
`scale_rgba_nearest` on the decoded buffer. -/
theorem start_native_or_scaled (env : StartEnv) (self : GstStaticPngSrc) (loc : String)
    (decoded : Buf) (img_w img_h : Int)
    (hloc : self.location = some loc) (hne : loc.data ≠ [])
    (hdec : decode_by_extension env loc = some (decoded, img_w, img_h)) :
    ((∀ caps, env.peer_caps = some caps → ∀ s, s ∈ caps → pins_size s = false) →
      (self.target_width = 0 ∨ self.target_height = 0) →
      (resolve_output self env.peer_caps img_w img_h).1 = img_w ∧
      (resolve_output self env.peer_caps img_w img_h).2.1 = img_h) ∧
    ((resolve_output self env.peer_caps img_w img_h).1 = img_w →
      (resolve_output self env.peer_caps img_w img_h).2.1 = img_h →
      gst_static_png_src_start env self
        = .ok (loaded_state self (resolve_output self env.peer_caps img_w img_h).2.2
            img_w img_h decoded, true) ∧
      (loaded_state self (resolve_output self env.peer_caps img_w img_h).2.2
            img_w img_h decoded).rgba_data = some decoded ∧
      ∀ w h : Nat, img_w = w → img_h = h → w * 4 < 2147483648 → h < 2147483648 →
        (loaded_state self (resolve_output self env.peer_caps img_w img_h).2.2
            img_w img_h decoded).rgba_stride = ((w * 4 : Nat) : Int) ∧
        (loaded_state self (resolve_output self env.peer_caps img_w img_h).2.2
            img_w img_h decoded).rgba_size = w * h * 4) ∧
    ((resolve_output self env.peer_caps img_w img_h).1 ≠ img_w
        ∨ (resolve_output self env.peer_caps img_w img_h).2.1 ≠ img_h →
      gst_static_png_src_start env self =
        match scale_rgba_nearest decoded img_w img_h
            (resolve_output self env.peer_caps img_w img_h).1
            (resolve_output self env.peer_caps img_w img_h).2.1 with
        | .error e => .error e
        | .ok none =>
          .ok ({ self with
            selected_format := (resolve_output self env.peer_caps img_w img_h).2.2 }, false)
        | .ok (some p) =>
          .ok (loaded_state self (resolve_output self env.peer_caps img_w img_h).2.2
            (resolve_output self env.peer_caps img_w img_h).1
            (resolve_output self env.peer_caps img_w img_h).2.1 p, true)) := by
  refine ⟨?_, ?_, ?_⟩
  · intro hpins hzero
    have hprop : ¬ (self.target_width > 0 ∧ self.target_height > 0) := by omega
    unfold resolve_output
    simp only [if_neg hprop]
    cases hc : env.peer_caps with
    | none => exact ⟨rfl, rfl⟩
    | some caps =>
      simp only []
      exact peer_caps_fold_dims caps img_w img_h _ (hpins caps hc)
  · generalize hr : resolve_output self env.peer_caps img_w img_h = r
    obtain ⟨ow, oh, f⟩ := r
    intro h1 h2
    simp only at h1 h2
    subst h1 h2
    have hstart := start_decoded env self loc decoded ow oh ow oh f hloc hne hdec hr
    have hg : ¬ (ow ≠ ow ∨ oh ≠ oh) := by simp
    rw [if_neg hg] at hstart
    refine ⟨hstart, rfl, ?_⟩
    intro w h hw hh hw4 hh2
    subst hw hh
    have e1 : gint_cast (((w : Nat) : Int) * 4) = ((w * 4 : Nat) : Int) := by
      unfold gint_cast
      omega
    have hprod : w * 4 * h < 18446744073709551616 := by
      have := mul_lt_two62 (w * 4) h hw4 hh2
      omega
    simp only [loaded_state, e1]
    rw [gsize_natCast (w * 4) (by omega), gsize_natCast h (by omega),
      gsize_mul_of_lt _ _ hprod]
    exact ⟨trivial, by ring⟩
  · generalize hr : resolve_output self env.peer_caps img_w img_h = r
    obtain ⟨ow, oh, f⟩ := r
    intro hne2
    simp only at hne2 ⊢
    have hstart := start_decoded env self loc decoded img_w img_h ow oh f hloc hne hdec hr
    rw [if_pos hne2] at hstart
    exact hstart

/-- Witness of C14: a 1x1 PNG with no peer and no size property. -/
theorem start_native_or_scaled_witness :
    gst_static_png_src_start one_fps_start_env one_fps_element
      = .ok (loaded_state one_fps_element
          (resolve_output one_fps_element one_fps_start_env.peer_caps 1 1).2.2
          1 1 red_1x1, true) ∧
    (loaded_state one_fps_element
        (resolve_output one_fps_element one_fps_start_env.peer_caps 1 1).2.2
        1 1 red_1x1).rgba_data = some red_1x1 ∧
    ∀ w h : Nat, (1 : Int) = w → (1 : Int) = h → w * 4 < 2147483648 → h < 2147483648 →
      (loaded_state one_fps_element
        (resolve_output one_fps_element one_fps_start_env.peer_caps 1 1).2.2
        1 1 red_1x1).rgba_stride = ((w * 4 : Nat) : Int) ∧
      (loaded_state one_fps_element
        (resolve_output one_fps_element one_fps_start_env.peer_caps 1 1).2.2
        1 1 red_1x1).rgba_size = w * h * 4 :=
  (start_native_or_scaled one_fps_start_env one_fps_element "image.png" red_1x1 1 1
    rfl (by decide) rfl).2.1
    ((start_native_or_scaled one_fps_start_env one_fps_element "image.png" red_1x1 1 1
      rfl (by decide) rfl).1 (by intro caps h; cases h) (Or.inl rfl)).1
    ((start_native_or_scaled one_fps_start_env one_fps_element "image.png" red_1x1 1 1
      rfl (by decide) rfl).1 (by intro caps h; cases h) (Or.inl rfl)).2

/-! ## Whole-buffer form of the planar converters -/

/-- Every byte of the NV12 output: the luma plane, then the interleaved chroma
plane. -/
theorem convert_rgba_to_nv12_bytes (src : Buf) (w h : Nat)
    (hw : 0 < w) (hh : 0 < h) (hwe : w % 2 = 0) (hhe : h % 2 = 0)
    (hw2 : w < 2147483648) (hh2 : h < 2147483648)
    (hsrc : src.length = w * h * 4) (hb : ∀ v ∈ src, v < 256) :
    ∃ dst, convert_rgba_to_nv12 (some src) w h = .ok (some dst) ∧
      dst.length = w * h + w * h / 2 ∧
      (∀ j, j < w * h → dst[j]? = some (spec_luma_at src j)) ∧
      (∀ k, k < w * h / 2 → dst[w * h + k]? = some (spec_nv12_uv src w k)) := by
  have b1 : w * h < 4611686018427387904 := mul_lt_two62 w h hw2 hh2
  have hhalf := even_half_mul w h hhe
  have hguard : ¬ ((w : Int) ≤ 0 ∨ (h : Int) ≤ 0) := by omega
  unfold convert_rgba_to_nv12
  simp only []
  rw [if_neg hguard, gsize_natCast w (by omega), gsize_natCast h (by omega),
    gsize_mul_of_lt w h (by omega), gsize_add_of_lt _ _ (by omega)]
  obtain ⟨d0, hrun0, hlen0, hd0⟩ := luma_loop_ok src (g_malloc (w * h + w * h / 2)) w h hw2 hh2
    hsrc (by rw [g_malloc_length]; omega)
  rw [g_malloc_length] at hlen0
  obtain ⟨d1, hrun1, hlen1, hd1⟩ := nv12_chroma_loop_ok src d0 w h (w * h) hwe hhe hw2 hh2
    hsrc hb (by omega)
  rw [hrun0]
  simp only []
  rw [hrun1]
  refine ⟨d1, rfl, by omega, ?_, ?_⟩
  · intro j hj
    have n1 : ¬ (w * h ≤ j ∧ j < w * h + h / 2 * w) := by omega
    rw [hd1, if_neg n1, hd0, if_pos hj]
  · intro k hk
    have p1 : w * h ≤ w * h + k ∧ w * h + k < w * h + h / 2 * w := by omega
    rw [hd1, if_pos p1, Nat.add_sub_cancel_left]

/-- Every byte of the I420 output: the luma plane, the `U` plane, the `V`
plane. -/
theorem convert_rgba_to_i420_bytes (src : Buf) (w h : Nat)
    (hw : 0 < w) (hh : 0 < h) (hwe : w % 2 = 0) (hhe : h % 2 = 0)
    (hw2 : w < 2147483648) (hh2 : h < 2147483648)
    (hsrc : src.length = w * h * 4) (hb : ∀ v ∈ src, v < 256) :
    ∃ dst, convert_rgba_to_i420 (some src) w h = .ok (some dst) ∧
      dst.length = w * h + w * h / 4 * 2 ∧
      (∀ j, j < w * h → dst[j]? = some (spec_luma_at src j)) ∧
      (∀ k, k < w * h / 4 →
        dst[w * h + k]? = some (spec_i420_plane spec_chroma_u src w k) ∧
        dst[w * h + w * h / 4 + k]? = some (spec_i420_plane spec_chroma_v src w k)) := by
  have b1 : w * h < 4611686018427387904 := mul_lt_two62 w h hw2 hh2
  have hq := even_quarter_mul w h hwe hhe
  have hguard : ¬ ((w : Int) ≤ 0 ∨ (h : Int) ≤ 0) := by omega
  unfold convert_rgba_to_i420
  simp only []
  rw [if_neg hguard, gsize_natCast w (by omega), gsize_natCast h (by omega),
    gsize_mul_of_lt w h (by omega), gsize_mul_of_lt _ 2 (by omega),
    gsize_add_of_lt _ _ (by omega)]
  obtain ⟨d0, hrun0, hlen0, hd0⟩ := luma_loop_ok src (g_malloc (w * h + w * h / 4 * 2)) w h
    hw2 hh2 hsrc (by rw [g_malloc_length]; omega)
  rw [g_malloc_length] at hlen0
  obtain ⟨d1, hrun1, hlen1, hd1⟩ := i420_chroma_loop_ok src d0 w h (w * h) (w * h + w * h / 4)
    hwe hhe hw2 hh2 hsrc hb (by omega) (by omega)
  rw [hrun0]
  simp only []
  rw [hrun1]
  refine ⟨d1, rfl, by omega, ?_, ?_⟩
  · intro j hj
    have n1 : ¬ (w * h ≤ j ∧ j < w * h + h / 2 * (w / 2)) := by omega
    have n2 : ¬ (w * h + w * h / 4 ≤ j ∧ j < w * h + w * h / 4 + h / 2 * (w / 2)) := by omega
    rw [hd1, if_neg n1, if_neg n2, hd0, if_pos hj]
  · intro k hk
    constructor
    · have p1 : w * h ≤ w * h + k ∧ w * h + k < w * h + h / 2 * (w / 2) := by omega
      rw [hd1, if_pos p1, Nat.add_sub_cancel_left]
    · have n1 : ¬ (w * h ≤ w * h + w * h / 4 + k ∧
          w * h + w * h / 4 + k < w * h + h / 2 * (w / 2)) := by omega
      have p2 : w * h + w * h / 4 ≤ w * h + w * h / 4 + k ∧
          w * h + w * h / 4 + k < w * h + w * h / 4 + h / 2 * (w / 2) := by omega
      rw [hd1, if_neg n1, if_pos p2, Nat.add_sub_cancel_left]

/-! ## NV12 against I420 (C18) -/

theorem two_mul_div_mod (k a : Nat) (ha : 0 < a) :
    (2 * k) / (2 * a) = k / a ∧ (2 * k) % (2 * a) = 2 * (k % a) ∧
    (2 * k + 1) / (2 * a) = k / a ∧ (2 * k + 1) % (2 * a) = 2 * (k % a) + 1 := by
  have hk := Nat.div_add_mod k a
  have hr : k % a < a := Nat.mod_lt _ ha
  generalize k / a = q at hk ⊢
  generalize k % a = r at hk hr ⊢
  have e0 : 2 * k = q * (2 * a) + 2 * r := by rw [← hk]; ring
  have e1 : 2 * k + 1 = q * (2 * a) + (2 * r + 1) := by rw [← hk]; ring
  obtain ⟨d0, m0⟩ := index_div_mod q (2 * a) (2 * r) (by omega)
  obtain ⟨d1, m1⟩ := index_div_mod q (2 * a) (2 * r + 1) (by omega)
  refine ⟨?_, ?_, ?_, ?_⟩
  · rw [e0]; exact d0
  · rw [e0]; exact m0
  · rw [e1]; exact d1
  · rw [e1]; exact m1

/-- The interleaved NV12 chroma plane holds the I420 `U` byte `k` at `2k` and
the `V` byte `k` at `2k+1`. -/
theorem nv12_uv_eq_i420 (src : Buf) (w k : Nat) (hw : 0 < w) (hwe : w % 2 = 0) :
    spec_nv12_uv src w (2 * k) = spec_i420_plane spec_chroma_u src w k ∧
    spec_nv12_uv src w (2 * k + 1) = spec_i420_plane spec_chroma_v src w k := by
  obtain ⟨a, rfl⟩ : ∃ a, w = 2 * a := ⟨w / 2, by omega⟩
  obtain ⟨d0, m0, d1, m1⟩ := two_mul_div_mod k a (by omega)
  have ha : 2 * a / 2 = a := by omega
  unfold spec_nv12_uv spec_i420_plane
  rw [d0, m0, d1, m1, ha]
  have x0 : 2 * (k % a) % 2 = 0 := by omega
  have x1 : ¬ ((2 * (k % a) + 1) % 2 = 0) := by omega
  have x2 : 2 * (k % a) / 2 * 2 = k % a * 2 := by omega
  have x3 : (2 * (k % a) + 1) / 2 * 2 = k % a * 2 := by omega
  rw [if_pos x0, if_neg x1, x2, x3]
  exact ⟨rfl, rfl⟩

/-- C18. For positive even `w`, `h` and an RGBA buffer of `w*h*4` bytes, both
planar converters succeed; their first `w*h` bytes (the luma planes) are the
same, and for every chroma index `k < w*h/4` byte `k` of the I420 `U` plane is
byte `2k` of the NV12 interleaved plane and byte `k` of the I420 `V` plane is
byte `2k+1` of it. -/
theorem nv12_i420_same_samples (src : Buf) (w h : Nat)
    (hw : 0 < w) (hh : 0 < h) (hwe : w % 2 = 0) (hhe : h % 2 = 0)
    (hw2 : w < 2147483648) (hh2 : h < 2147483648)
    (hsrc : src.length = w * h * 4) (hb : ∀ v ∈ src, v < 256) :
    ∃ nv12 i420, convert_rgba_to_nv12 (some src) w h = .ok (some nv12) ∧
      convert_rgba_to_i420 (some src) w h = .ok (some i420) ∧
      (∀ j, j < w * h → ∃ v, nv12[j]? = some v ∧ i420[j]? = some v) ∧
      (∀ k, k < w * h / 4 →
        (∃ u, i420[w * h + k]? = some u ∧ nv12[w * h + 2 * k]? = some u) ∧
        (∃ v, i420[w * h + w * h / 4 + k]? = some v ∧ nv12[w * h + (2 * k + 1)]? = some v)) := by
  obtain ⟨n, hn, _, hnl, hnc⟩ := convert_rgba_to_nv12_bytes src w h hw hh hwe hhe hw2 hh2 hsrc hb
  obtain ⟨i, hi, _, hil, hic⟩ := convert_rgba_to_i420_bytes src w h hw hh hwe hhe hw2 hh2 hsrc hb
  have h4 : w * h % 4 = 0 := by
    obtain ⟨a, rfl⟩ : ∃ a, w = 2 * a := ⟨w / 2, by omega⟩
    obtain ⟨b, rfl⟩ : ∃ b, h = 2 * b := ⟨h / 2, by omega⟩
    rw [show 2 * a * (2 * b) = 4 * (a * b) by ring]
    exact Nat.mul_mod_right 4 _
  refine ⟨n, i, hn, hi, ?_, ?_⟩
  · intro j hj
    exact ⟨_, hnl j hj, hil j hj⟩
  · intro k hk
    obtain ⟨e0, e1⟩ := nv12_uv_eq_i420 src w k hw hwe
    obtain ⟨iu, iv⟩ := hic k hk
    refine ⟨⟨_, iu, ?_⟩, ⟨_, iv, ?_⟩⟩
    · rw [hnc (2 * k) (by omega), e0]
    · rw [hnc (2 * k + 1) (by omega), e1]

/-- Witness of C18: the 2x2 test image. -/
theorem nv12_i420_same_samples_witness :
    (∀ v ∈ sample_2x2, v < 256) ∧
    ∃ nv12 i420, convert_rgba_to_nv12 (some sample_2x2) ((2 : Nat) : Int) ((2 : Nat) : Int)
        = .ok (some nv12) ∧
      convert_rgba_to_i420 (some sample_2x2) ((2 : Nat) : Int) ((2 : Nat) : Int)
        = .ok (some i420) ∧
      (∀ j, j < 2 * 2 → ∃ v, nv12[j]? = some v ∧ i420[j]? = some v) ∧
      (∀ k, k < 2 * 2 / 4 →
        (∃ u, i420[2 * 2 + k]? = some u ∧ nv12[2 * 2 + 2 * k]? = some u) ∧
        (∃ v, i420[2 * 2 + 2 * 2 / 4 + k]? = some v ∧ nv12[2 * 2 + (2 * k + 1)]? = some v)) :=
  ⟨by decide, nv12_i420_same_samples sample_2x2 2 2 (by decide) (by decide) (by decide)
    (by decide) (by decide) (by decide) (by decide) (by decide)⟩

/-! ## Ranges of the BT.601 conversion (C17) -/

theorem spec_luma_range (r g b : Nat) (hr : r < 256) (hg : g < 256) (hb : b < 256) :
    16 ≤ ((66 * (r : Int) + 129 * (g : Int) + 25 * (b : Int) + 128) >>> (8 : Nat)) + 16 ∧
    ((66 * (r : Int) + 129 * (g : Int) + 25 * (b : Int) + 128) >>> (8 : Nat)) + 16 ≤ 235 ∧
    ((spec_luma r g b : Nat) : Int)
      = ((66 * (r : Int) + 129 * (g : Int) + 25 * (b : Int) + 128) >>> (8 : Nat)) + 16 := by
  unfold spec_luma spec_clamp
  simp only [shiftRight_eight]
  have h1 : 0 ≤ (66 * (r : Int) + 129 * (g : Int) + 25 * (b : Int) + 128) / 256 := by omega
  have h2 : (66 * (r : Int) + 129 * (g : Int) + 25 * (b : Int) + 128) / 256 ≤ 219 := by omega
  generalize (66 * (r : Int) + 129 * (g : Int) + 25 * (b : Int) + 128) / 256 = t at h1 h2 ⊢
  refine ⟨by omega, by omega, ?_⟩
  rw [if_neg (by omega), if_neg (by omega)]
  omega

theorem spec_chroma_range (r g b : Nat) (hr : r < 256) (hg : g < 256) (hb : b < 256) :
    (-112 ≤ spec_chroma_u r g b ∧ spec_chroma_u r g b ≤ 112) ∧
    (-112 ≤ spec_chroma_v r g b ∧ spec_chroma_v r g b ≤ 112) := by
  unfold spec_chroma_u spec_chroma_v
  simp only [shiftRight_eight]
  omega

theorem tdiv_four_range (s : Int) (h1 : -448 ≤ s) (h2 : s ≤ 448) :
    -112 ≤ Int.tdiv s 4 ∧ Int.tdiv s 4 ≤ 112 := by
  by_cases h : 0 ≤ s
  · rw [Int.tdiv_eq_ediv h (by decide)]
    omega
  · have e : s = -(-s) := by omega
    rw [e, Int.neg_tdiv, Int.tdiv_eq_ediv (by omega) (by decide)]
    omega

/-- A chroma byte of a 2x2 block is the unclamped `S/4 + 128` and lies in
`[16, 240]`. -/
theorem spec_block_range (f : Nat → Nat → Nat → Int) (src : Buf) (w x y : Nat)
    (hf : ∀ r g b, r < 256 → g < 256 → b < 256 → -112 ≤ f r g b ∧ f r g b ≤ 112)
    (hb : ∀ v ∈ src, v < 256) :
    16 ≤ spec_block f src w x y ∧ spec_block f src w x y ≤ 240 ∧
    ((spec_block f src w x y : Nat) : Int)
      = Int.tdiv
          (term_at f src ((y * w + x) * 4) + term_at f src ((y * w + (x + 1)) * 4)
            + term_at f src (((y + 1) * w + x) * 4)
            + term_at f src (((y + 1) * w + (x + 1)) * 4)) 4 + 128 := by
  have hlt := getD_lt_of_bytes src hb
  have ht : ∀ p, -112 ≤ term_at f src p ∧ term_at f src p ≤ 112 := by
    intro p
    unfold term_at
    exact hf _ _ _ (hlt _) (hlt _) (hlt _)
  have t0 := ht ((y * w + x) * 4)
  have t1 := ht ((y * w + (x + 1)) * 4)
  have t2 := ht (((y + 1) * w + x) * 4)
  have t3 := ht (((y + 1) * w + (x + 1)) * 4)
  unfold spec_block spec_clamp
  generalize term_at f src ((y * w + x) * 4) = a0 at t0 ⊢
  generalize term_at f src ((y * w + (x + 1)) * 4) = a1 at t1 ⊢
  generalize term_at f src (((y + 1) * w + x) * 4) = a2 at t2 ⊢
  generalize term_at f src (((y + 1) * w + (x + 1)) * 4) = a3 at t3 ⊢
  obtain ⟨q1, q2⟩ := tdiv_four_range (a0 + a1 + a2 + a3) (by omega) (by omega)
  generalize Int.tdiv (a0 + a1 + a2 + a3) 4 = q at q1 q2 ⊢
  rw [if_neg (by omega), if_neg (by omega)]
  omega

/-- Every byte of either planar output lies in `[16, 240]`, luma bytes in
`[16, 235]`. -/
theorem planar_bytes_range (src : Buf) (w h : Nat)
    (hw : 0 < w) (hh : 0 < h) (hwe : w % 2 = 0) (hhe : h % 2 = 0)
    (hw2 : w < 2147483648) (hh2 : h < 2147483648)
    (hsrc : src.length = w * h * 4) (hb : ∀ v ∈ src, v < 256) (dst : Buf)
    (hrun : convert_rgba_to_nv12 (some src) w h = .ok (some dst)
      ∨ convert_rgba_to_i420 (some src) w h = .ok (some dst)) :
    ∀ j v, dst[j]? = some v → 16 ≤ v ∧ v ≤ 240 ∧ (j < w * h → v ≤ 235) := by
  have hlt := getD_lt_of_bytes src hb
  have hu : ∀ r g b, r < 256 → g < 256 → b < 256 →
      -112 ≤ spec_chroma_u r g b ∧ spec_chroma_u r g b ≤ 112 :=
    fun r g b hr hg hb1 => (spec_chroma_range r g b hr hg hb1).1
  have hv : ∀ r g b, r < 256 → g < 256 → b < 256 →
      -112 ≤ spec_chroma_v r g b ∧ spec_chroma_v r g b ≤ 112 :=
    fun r g b hr hg hb1 => (spec_chroma_range r g b hr hg hb1).2
  have hluma : ∀ j, 16 ≤ spec_luma_at src j ∧ spec_luma_at src j ≤ 235 := by
    intro j
    unfold spec_luma_at
    obtain ⟨l1, l2, l3⟩ := spec_luma_range _ _ _ (hlt (j * 4)) (hlt (j * 4 + 1)) (hlt (j * 4 + 2))
    omega
  have h4 : w * h % 4 = 0 := by
    obtain ⟨a, rfl⟩ : ∃ a, w = 2 * a := ⟨w / 2, by omega⟩
    obtain ⟨b, rfl⟩ : ∃ b, h = 2 * b := ⟨h / 2, by omega⟩
    rw [show 2 * a * (2 * b) = 4 * (a * b) by ring]
    exact Nat.mul_mod_right 4 _
  intro j v hj
  have hjlt : j < dst.length := by
    by_contra hcon
    rw [List.getElem?_eq_none (Nat.le_of_not_lt hcon)] at hj
    cases hj
  rcases hrun with hrun | hrun
  · obtain ⟨d, hd, hlen, hl, hc⟩ :=
      convert_rgba_to_nv12_bytes src w h hw hh hwe hhe hw2 hh2 hsrc hb
    rw [hd] at hrun
    injection hrun with hrun
    injection hrun with hrun
    subst hrun
    by_cases hjl : j < w * h
    · rw [hl j hjl] at hj
      injection hj with hj
      subst hj
      have := hluma j
      omega
    · obtain ⟨k, rfl⟩ : ∃ k, j = w * h + k := ⟨j - w * h, by omega⟩
      rw [hc k (by omega)] at hj
      injection hj with hj
      subst hj
      refine ⟨?_, ?_, fun hcon => absurd hcon hjl⟩
      · unfold spec_nv12_uv
        split
        · exact (spec_block_range _ src w _ _ hu hb).1
        · exact (spec_block_range _ src w _ _ hv hb).1
      · unfold spec_nv12_uv
        split
        · exact (spec_block_range _ src w _ _ hu hb).2.1
        · exact (spec_block_range _ src w _ _ hv hb).2.1
  · obtain ⟨d, hd, hlen, hl, hc⟩ :=
      convert_rgba_to_i420_bytes src w h hw hh hwe hhe hw2 hh2 hsrc hb
    rw [hd] at hrun
    injection hrun with hrun
    injection hrun with hrun
    subst hrun
    by_cases hjl : j < w * h
    · rw [hl j hjl] at hj
      injection hj with hj
      subst hj
      have := hluma j
      omega
    · by_cases hju : j < w * h + w * h / 4
      · obtain ⟨k, rfl⟩ : ∃ k, j = w * h + k := ⟨j - w * h, by omega⟩
        rw [(hc k (by omega)).1] at hj
        injection hj with hj
        subst hj
        unfold spec_i420_plane
        exact ⟨(spec_block_range _ src w _ _ hu hb).1, (spec_block_range _ src w _ _ hu hb).2.1,
          fun hcon => absurd hcon hjl⟩
      · obtain ⟨k, rfl⟩ : ∃ k, j = w * h + w * h / 4 + k := ⟨j - (w * h + w * h / 4), by omega⟩
        rw [(hc k (by omega)).2] at hj
        injection hj with hj
        subst hj
        unfold spec_i420_plane
        exact ⟨(spec_block_range _ src w _ _ hv hb).1, (spec_block_range _ src w _ _ hv hb).2.1,
          fun hcon => absurd hcon hjl⟩

/-- C17. For bytes `R, G, B` the luma value `((66R+129G+25B+128)>>8)+16` lies in
`[16, 235]` and is stored unclamped, each per-pixel chroma term lies in
`[-112, 112]` and comes out of the 16-bit accumulator unchanged; and every byte
of the output of `convert_rgba_to_nv12` and of `convert_rgba_to_i420` (positive
even sizes) lies in `[16, 240]`, so none is 0 or 255. -/
theorem bt601_clamps_never_fire :
    (∀ r g b : Nat, r < 256 → g < 256 → b < 256 →
      16 ≤ ((66 * (r : Int) + 129 * (g : Int) + 25 * (b : Int) + 128) >>> (8 : Nat)) + 16 ∧
      ((66 * (r : Int) + 129 * (g : Int) + 25 * (b : Int) + 128) >>> (8 : Nat)) + 16 ≤ 235 ∧
      (((rgba_to_yuv_bt601 r g b 0 0).y : Nat) : Int)
        = ((66 * (r : Int) + 129 * (g : Int) + 25 * (b : Int) + 128) >>> (8 : Nat)) + 16 ∧
      -112 ≤ (-38 * (r : Int) - 74 * (g : Int) + 112 * (b : Int) + 128) >>> (8 : Nat) ∧
      (-38 * (r : Int) - 74 * (g : Int) + 112 * (b : Int) + 128) >>> (8 : Nat) ≤ 112 ∧
      -112 ≤ (112 * (r : Int) - 94 * (g : Int) - 18 * (b : Int) + 128) >>> (8 : Nat) ∧
      (112 * (r : Int) - 94 * (g : Int) - 18 * (b : Int) + 128) >>> (8 : Nat) ≤ 112 ∧
      (rgba_to_yuv_bt601 r g b 0 0).u_acc
        = (-38 * (r : Int) - 74 * (g : Int) + 112 * (b : Int) + 128) >>> (8 : Nat) ∧
      (rgba_to_yuv_bt601 r g b 0 0).v_acc
        = (112 * (r : Int) - 94 * (g : Int) - 18 * (b : Int) + 128) >>> (8 : Nat)) ∧
    (∀ (src : Buf) (w h : Nat), 0 < w → 0 < h → w % 2 = 0 → h % 2 = 0 →
      w < 2147483648 → h < 2147483648 → src.length = w * h * 4 → (∀ v ∈ src, v < 256) →
      ∀ dst, (convert_rgba_to_nv12 (some src) w h = .ok (some dst)
          ∨ convert_rgba_to_i420 (some src) w h = .ok (some dst)) →
        ∀ j v, dst[j]? = some v →
          16 ≤ v ∧ v ≤ 240 ∧ (j < w * h → v ≤ 235) ∧ v ≠ 0 ∧ v ≠ 255) := by
  refine ⟨?_, ?_⟩
  · intro r g b hr hg hb
    obtain ⟨l1, l2, l3⟩ := spec_luma_range r g b hr hg hb
    obtain ⟨⟨u1, u2⟩, v1, v2⟩ := spec_chroma_range r g b hr hg hb
    refine ⟨l1, l2, ?_, u1, u2, v1, v2, bt601_u_acc r g b hr hg hb, bt601_v_acc r g b hr hg hb⟩
    rw [bt601_y]
    exact l3
  · intro src w h hw hh hwe hhe hw2 hh2 hsrc hb dst hrun j v hj
    obtain ⟨a1, a2, a3⟩ :=
      planar_bytes_range src w h hw hh hwe hhe hw2 hh2 hsrc hb dst hrun j v hj
    exact ⟨a1, a2, a3, by omega, by omega⟩

/-- Witness of C17: the bytes of the NV12 output of the 2x2 test image. -/
theorem bt601_clamps_never_fire_witness :
    convert_rgba_to_nv12 (some sample_2x2) ((2 : Nat) : Int) ((2 : Nat) : Int)
      = .ok (some [82, 144, 41, 235, 128, 128]) ∧
    ∀ j v, [82, 144, 41, 235, 128, 128][j]? = some v →
      16 ≤ v ∧ v ≤ 240 ∧ (j < 2 * 2 → v ≤ 235) ∧ v ≠ 0 ∧ v ≠ 255 :=
  ⟨by decide,
    bt601_clamps_never_fire.2 sample_2x2 2 2 (by decide) (by decide) (by decide) (by decide)
      (by decide) (by decide) (by decide) (by decide) [82, 144, 41, 235, 128, 128]
      (Or.inl (by decide))⟩

/-! ## The scaler stays inside its source (C19) -/

/-- The scaler runs to its end without leaving either buffer, and copies. -/
theorem scale_rgba_nearest_runs (src : Buf) (sw sh dw dh : Nat)
    (hsw : 0 < sw) (hsh : 0 < sh) (hdw : 0 < dw) (hdh : 0 < dh)
    (hsw2 : sw < 2147483648) (hsh2 : sh < 2147483648)
    (hdw2 : dw < 2147483648) (hdh2 : dh < 2147483648)
    (hsrc : src.length = sw * sh * 4) :
    ∃ dst, scale_rgba_nearest src sw sh dw dh = .ok (some dst) ∧
      dst.length = dw * dh * 4 ∧
      ∀ x y c, x < dw → y < dh → c < 4 →
        ((y * sh / dh) * sw + x * sw / dw) * 4 + c < src.length ∧
        dst[(y * dw + x) * 4 + c]? = src[((y * sh / dh) * sw + x * sw / dw) * 4 + c]? := by
  have b1 : dw * dh < 4611686018427387904 := mul_lt_two62 dw dh hdw2 hdh2
  have hguard : ¬ ((sw : Int) ≤ 0 ∨ (sh : Int) ≤ 0 ∨ (dw : Int) ≤ 0 ∨ (dh : Int) ≤ 0) := by omega
  unfold scale_rgba_nearest
  rw [if_neg hguard]
  simp only []
  rw [gsize_natCast dw (by omega), gsize_natCast dh (by omega), gsize_mul_of_lt dw dh (by omega),
    gsize_mul_of_lt (dw * dh) 4 (by omega)]
  have key := forLoop_inv (dh : Int) 1 Nat.one_pos (scale_row src sw sh dw dh)
    (fun y d => y ≤ dh ∧ d.length = dw * dh * 4 ∧
      ∀ j, j < y * dw * 4 → d[j]? = src[scale_src_index sw sh dw dh j]?)
    (by
      intro y d hy ⟨_, hlen, hd⟩
      have hy : y < dh := by omega
      obtain ⟨d1, hrun, hlen1, hd1⟩ := scale_row_ok src d sw sh dw dh y hsw hsh hsw2 hsh2
        hdw2 hdh2 hy hsrc hlen
      refine ⟨d1, hrun, by omega, by omega, ?_⟩
      intro j hj
      have e : (y + 1) * dw * 4 = (y * dw + dw) * 4 := by ring
      rw [hd1 j]
      by_cases h1 : y * dw * 4 ≤ j ∧ j < (y * dw + dw) * 4
      · rw [if_pos h1]
      · rw [if_neg h1]
        exact hd j (by omega))
    (dh : Int).toNat 0 (g_malloc (dw * dh * 4)) (by omega)
    ⟨by omega, g_malloc_length _, by intro j hj; omega⟩
  obtain ⟨y, d1, hrun, ⟨hyle, hlen, hd⟩, hstop⟩ := key
  have hy : y = dh := by omega
  subst hy
  refine ⟨d1, by rw [hrun], hlen, ?_⟩
  intro x y' c hx hy' hc
  have hsx := (scale_coord x sw dw hx hdw2 hsw2).2 hsw
  have hsy := (scale_coord y' sh y hy' hdh2 hsh2).2 hsh
  have hJ := index_lt _ sh _ sw hsy hsx
  have hQ := index_lt y' y x dw hy' hx
  constructor
  · rw [hsrc]
    have : sh * sw = sw * sh := Nat.mul_comm _ _
    omega
  · have e : y * dw * 4 = (y * dw) * 4 := rfl
    rw [hd ((y' * dw + x) * 4 + c) (by omega)]
    obtain ⟨hdv, hmd⟩ := index_div_mod y' dw x hx
    unfold scale_src_index
    have hj4 : ((y' * dw + x) * 4 + c) / 4 = y' * dw + x := by omega
    have hj5 : ((y' * dw + x) * 4 + c) % 4 = c := by omega
    rw [hj4, hj5, hdv, hmd]

/-- C19. For positive `gint` dimensions and every `x < dst_w`, `y < dst_h` the
64-bit products `x*src_w` and `y*src_h` do not overflow, the source coordinates
computed by the scaler are `x*src_w/dst_w < src_w` and `y*src_h/dst_h < src_h`
(and not negative), every source byte index is below `src_w*src_h*4`, and the
scaler runs without a fault; and when one of the four dimensions is zero or
negative the scaler returns `NULL` before it allocates or reads anything,
whatever the source is. -/
theorem scale_reads_in_bounds (sw sh dw dh : Nat)
    (hsw : 0 < sw) (hsh : 0 < sh) (hdw : 0 < dw) (hdh : 0 < dh)
    (hsw2 : sw ≤ 2147483647) (hsh2 : sh ≤ 2147483647)
    (hdw2 : dw ≤ 2147483647) (hdh2 : dh ≤ 2147483647) :
    (∀ x y : Nat, x < dw → y < dh →
      gint64_cast ((x : Int) * (sw : Int)) = (x : Int) * (sw : Int) ∧
      gint64_cast ((y : Int) * (sh : Int)) = (y : Int) * (sh : Int) ∧
      gint_cast (Int.tdiv (gint64_cast ((x : Int) * (sw : Int))) (dw : Int))
        = ((x * sw / dw : Nat) : Int) ∧
      gint_cast (Int.tdiv (gint64_cast ((y : Int) * (sh : Int))) (dh : Int))
        = ((y * sh / dh : Nat) : Int) ∧
      x * sw / dw < sw ∧ y * sh / dh < sh ∧
      ∀ c, c < 4 → ((y * sh / dh) * sw + x * sw / dw) * 4 + c < sw * sh * 4) ∧
    (∀ src : Buf, src.length = sw * sh * 4 →
      ∃ dst, scale_rgba_nearest src sw sh dw dh = .ok (some dst)) ∧
    (∀ (src : Buf) (a b c d : Int), a ≤ 0 ∨ b ≤ 0 ∨ c ≤ 0 ∨ d ≤ 0 →
      scale_rgba_nearest src a b c d = .ok none) := by
  refine ⟨?_, ?_, ?_⟩
  · intro x y hx hy
    obtain ⟨cx, lx⟩ := scale_coord x sw dw hx (by omega) (by omega)
    obtain ⟨cy, ly⟩ := scale_coord y sh dh hy (by omega) (by omega)
    have px : x * sw < 4611686018427387904 := mul_lt_two62 x sw (by omega) (by omega)
    have py : y * sh < 4611686018427387904 := mul_lt_two62 y sh (by omega) (by omega)
    have ex : (x : Int) * (sw : Int) = ((x * sw : Nat) : Int) := by push_cast; rfl
    have ey : (y : Int) * (sh : Int) = ((y * sh : Nat) : Int) := by push_cast; rfl
    have gx : gint64_cast ((x : Int) * (sw : Int)) = (x : Int) * (sw : Int) := by
      rw [ex]; unfold gint64_cast; omega
    have gy : gint64_cast ((y : Int) * (sh : Int)) = (y : Int) * (sh : Int) := by
      rw [ey]; unfold gint64_cast; omega
    refine ⟨gx, gy, cx, cy, lx hsw, ly hsh, ?_⟩
    intro c hc
    have hJ := index_lt _ sh _ sw (ly hsh) (lx hsw)
    have hcomm : sh * sw = sw * sh := Nat.mul_comm _ _
    clear cx cy gx gy
    omega
  · intro src hsrc
    obtain ⟨dst, hrun, _, _⟩ := scale_rgba_nearest_runs src sw sh dw dh hsw hsh hdw hdh
      (by omega) (by omega) (by omega) (by omega) hsrc
    exact ⟨dst, hrun⟩
  · intro src a b c d h
    unfold scale_rgba_nearest
    rw [if_pos h]

/-- Witness of C19: a 2x2 source scaled to 4x2. -/
theorem scale_reads_in_bounds_witness :
    (∀ x y : Nat, x < 4 → y < 2 →
      gint64_cast ((x : Int) * ((2 : Nat) : Int)) = (x : Int) * ((2 : Nat) : Int) ∧
      gint64_cast ((y : Int) * ((2 : Nat) : Int)) = (y : Int) * ((2 : Nat) : Int) ∧
      gint_cast (Int.tdiv (gint64_cast ((x : Int) * ((2 : Nat) : Int))) ((4 : Nat) : Int))
        = ((x * 2 / 4 : Nat) : Int) ∧
      gint_cast (Int.tdiv (gint64_cast ((y : Int) * ((2 : Nat) : Int))) ((2 : Nat) : Int))
        = ((y * 2 / 2 : Nat) : Int) ∧
      x * 2 / 4 < 2 ∧ y * 2 / 2 < 2 ∧
      ∀ c, c < 4 → ((y * 2 / 2) * 2 + x * 2 / 4) * 4 + c < 2 * 2 * 4) ∧
    (∀ src : Buf, src.length = 2 * 2 * 4 →
      ∃ dst, scale_rgba_nearest src ((2 : Nat) : Int) ((2 : Nat) : Int) ((4 : Nat) : Int)
        ((2 : Nat) : Int) = .ok (some dst)) ∧
    (∀ (src : Buf) (a b c d : Int), a ≤ 0 ∨ b ≤ 0 ∨ c ≤ 0 ∨ d ≤ 0 →
      scale_rgba_nearest src a b c d = .ok none) :=
  scale_reads_in_bounds 2 2 4 2 (by decide) (by decide) (by decide) (by decide)
    (by decide) (by decide) (by decide) (by decide)

/-! ## Plane metadata against the converted buffer (C15) -/

/-- A frame request of a loaded element whose negotiated caps name `fmt`: when
the conversion step succeeds with buffer `d`, the request returns that buffer
with the video meta computed from the converted element. -/
theorem create_builds (env : CreateEnv) (self s1 : GstStaticPngSrc) (rgba d : Buf)
    (s : GstStructure) (rest : List GstStructure) (fmt : String)
    (hsm : self.shared_mem = none) (hrg : self.rgba_data = some rgba)
    (hcaps : env.current_caps = some (s :: rest)) (hf : s.format = some fmt)
    (hconv : convert_output fmt rgba { self with selected_format := g_strlcpy5 fmt }
      = .ok (s1, true))
    (hd : s1.frame_data = some d) :
    ∃ self1 buffer, gst_static_png_src_create env self = .ok (self1, some buffer) ∧
      buffer.memory = d ∧
      buffer.vmeta = video_meta env { s1 with shared_mem := some d } ∧
      self1.frame_size = s1.frame_size ∧ self1.num_planes = s1.num_planes := by
  have hb : build_output env self = .ok ({ s1 with shared_mem := some d }, true) := by
    simp only [hrg] at hconv
    unfold build_output
    simp only [hrg, negotiated_caps, hcaps, negotiated_format, hf, hconv, hd]
  unfold gst_static_png_src_create
  simp only [hsm, hb]
  exact ⟨_, _, rfl, rfl, rfl, rfl, rfl⟩

/-- The conversion step for NV12 on even positive dimensions. -/
theorem convert_output_nv12 (rgba : Buf) (self : GstStaticPngSrc) (w h : Nat)
    (haw : self.actual_width = (w : Int)) (hah : self.actual_height = (h : Int))
    (hw : 0 < w) (hh : 0 < h) (hwe : w % 2 = 0) (hhe : h % 2 = 0)
    (hw2 : w < 2147483648) (hh2 : h < 2147483648)
    (hsrc : rgba.length = w * h * 4) (hb : ∀ v ∈ rgba, v < 256) :
    ∃ s1 d, convert_output "NV12" rgba self = .ok (s1, true) ∧ s1.frame_data = some d ∧
      s1.frame_size = w * h * 3 / 2 ∧ s1.frame_stride = (w : Int) ∧ s1.num_planes = 2 ∧
      s1.actual_width = (w : Int) ∧ s1.actual_height = (h : Int) ∧
      s1.selected_format = self.selected_format ∧
      d.length = w * h + w * h / 2 ∧
      (∀ j, j < w * h → d[j]? = some (spec_luma_at rgba j)) ∧
      (∀ k, k < w * h / 2 → d[w * h + k]? = some (spec_nv12_uv rgba w k)) := by
  obtain ⟨d, hrun, hlen, hy, huv⟩ :=
    convert_rgba_to_nv12_bytes rgba w h hw hh hwe hhe hw2 hh2 hsrc hb
  have hp := mul_lt_two62 w h hw2 hh2
  have hsz : gsize_mul (gsize_mul (gsize (w : Int)) (gsize (h : Int))) 3 / 2 = w * h * 3 / 2 := by
    rw [gsize_natCast w (by omega), gsize_natCast h (by omega), gsize_mul_of_lt w h (by omega),
      gsize_mul_of_lt (w * h) 3 (by omega)]
  unfold convert_output
  rw [if_pos rfl, haw, hah, hrun]
  exact ⟨_, d, rfl, rfl, hsz, rfl, rfl, rfl, rfl, rfl, hlen, hy, huv⟩

/-- The conversion step for I420 on even positive dimensions. -/
theorem convert_output_i420 (rgba : Buf) (self : GstStaticPngSrc) (w h : Nat)
    (haw : self.actual_width = (w : Int)) (hah : self.actual_height = (h : Int))
    (hw : 0 < w) (hh : 0 < h) (hwe : w % 2 = 0) (hhe : h % 2 = 0)
    (hw2 : w < 2147483648) (hh2 : h < 2147483648)
    (hsrc : rgba.length = w * h * 4) (hb : ∀ v ∈ rgba, v < 256) :
    ∃ s1 d, convert_output "I420" rgba self = .ok (s1, true) ∧ s1.frame_data = some d ∧
      s1.frame_size = w * h * 3 / 2 ∧ s1.frame_stride = (w : Int) ∧ s1.num_planes = 3 ∧
      s1.actual_width = (w : Int) ∧ s1.actual_height = (h : Int) ∧
      s1.selected_format = self.selected_format ∧
      d.length = w * h + w * h / 4 * 2 ∧
      (∀ j, j < w * h → d[j]? = some (spec_luma_at rgba j)) ∧
      (∀ k, k < w * h / 4 → d[w * h + k]? = some (spec_i420_plane spec_chroma_u rgba w k) ∧
        d[w * h + w * h / 4 + k]? = some (spec_i420_plane spec_chroma_v rgba w k)) := by
  obtain ⟨d, hrun, hlen, hy, huv⟩ :=
    convert_rgba_to_i420_bytes rgba w h hw hh hwe hhe hw2 hh2 hsrc hb
  have hp := mul_lt_two62 w h hw2 hh2
  have hsz : gsize_mul (gsize_mul (gsize (w : Int)) (gsize (h : Int))) 3 / 2 = w * h * 3 / 2 := by
    rw [gsize_natCast w (by omega), gsize_natCast h (by omega), gsize_mul_of_lt w h (by omega),
      gsize_mul_of_lt (w * h) 3 (by omega)]
  unfold convert_output
  rw [if_neg (by decide), if_pos rfl, haw, hah, hrun]
  exact ⟨_, d, rfl, rfl, hsz, rfl, rfl, rfl, rfl, rfl, hlen, hy, huv⟩

/-- The conversion step for a packed format: a copy of the RGBA bytes,
swizzled. -/
theorem convert_output_packed (fmt : String) (rgba : Buf) (self : GstStaticPngSrc) (w h : Nat)
    (hn : fmt ≠ "NV12") (hi : fmt ≠ "I420")
    (haw : self.actual_width = (w : Int)) (hah : self.actual_height = (h : Int))
    (hsize : self.rgba_size = w * h * 4)
    (hw : 0 < w) (hh : 0 < h) (hw2 : w < 2147483648) (hh2 : h < 2147483648)
    (hsrc : rgba.length = w * h * 4) :
    ∃ s1 d, convert_output fmt rgba self = .ok (s1, true) ∧ s1.frame_data = some d ∧
      s1.frame_size = w * h * 4 ∧ s1.frame_stride = self.rgba_stride ∧ s1.num_planes = 1 ∧
      s1.actual_width = (w : Int) ∧ s1.actual_height = (h : Int) ∧
      s1.selected_format = self.selected_format ∧
      d.length = w * h * 4 ∧
      (∀ j, d[j]? = rgba[j / 4 * 4 + swizzle_perm fmt (j % 4)]?) := by
  obtain ⟨out, hrun, hlen, hperm⟩ := swizzle_ok rgba w h fmt hw2 hh2 hsrc
  have hpos : 0 < w * h * 4 := by positivity
  have hdup : memdup_fallback (some rgba) self.rgba_size = .ok (some rgba) := by
    unfold memdup_fallback
    simp only [hsize]
    rw [if_neg (by omega), if_pos (by omega), ← hsrc, List.take_length]
  unfold convert_output
  rw [if_neg hn, if_neg hi, hdup]
  simp only [haw, hah]
  by_cases hr : fmt = "RGBA"
  · have hout : out = rgba := by
      unfold swizzle_from_rgba_inplace at hrun
      simp only [] at hrun
      rw [if_pos hr] at hrun
      cases hrun
      rfl
    subst hout
    simp only [hr, ne_eq, not_true_eq_false, if_false]
    exact ⟨_, out, rfl, rfl, hsize, rfl, rfl, rfl, rfl, rfl, hsrc, by rw [← hr]; exact hperm⟩
  · simp only [ne_eq, hr, not_false_eq_true, if_true, hrun]
    exact ⟨_, out, rfl, rfl, hsize, rfl, rfl, rfl, rfl, rfl, by rw [hlen, hsrc], hperm⟩

/-- The stride and size `start` stores for a `w` by `h` image. -/
theorem loaded_state_rgba (self0 : GstStaticPngSrc) (f0 : String) (rgba : Buf) (w h : Nat)
    (hw4 : w * 4 ≤ 2147483647) (hh2 : h ≤ 2147483647) :
    (loaded_state self0 f0 (w : Int) (h : Int) rgba).rgba_stride = ((4 * w : Nat) : Int) ∧
    (loaded_state self0 f0 (w : Int) (h : Int) rgba).rgba_size = w * h * 4 := by
  have hg : gint_cast ((w : Int) * 4) = ((4 * w : Nat) : Int) := by
    unfold gint_cast; omega
  have hp := mul_lt_two62 (4 * w) h (by omega) (by omega)
  unfold loaded_state
  simp only []
  rw [hg, gsize_natCast (4 * w) (by omega), gsize_natCast h (by omega),
    gsize_mul_of_lt (4 * w) h (by omega)]
  exact ⟨rfl, by ring⟩

/-- A frame request in a packed format: one plane at offset 0 with the RGBA
stride, holding the swizzled copy. -/
theorem create_packed (env : CreateEnv) (self0 : GstStaticPngSrc) (f0 fmt : String) (rgba : Buf)
    (w h : Nat) (s : GstStructure) (rest : List GstStructure)
    (hw : 0 < w) (hh : 0 < h) (hw4 : w * 4 ≤ 2147483647) (hh2 : h ≤ 2147483647)
    (hsrc : rgba.length = w * h * 4)
    (hcaps : env.current_caps = some (s :: rest)) (hf : s.format = some fmt)
    (hv : env.gst_video_format_from_string fmt = video_format_of_name fmt)
    (hn : fmt ≠ "NV12") (hi : fmt ≠ "I420") (hstr : g_strlcpy5 fmt = fmt)
    (hvu : video_format_of_name fmt ≠ GstVideoFormat.UNKNOWN)
    (hvn : video_format_of_name fmt ≠ GstVideoFormat.NV12)
    (hvi : video_format_of_name fmt ≠ GstVideoFormat.I420) :
    ∃ self1 buffer,
      gst_static_png_src_create env (loaded_state self0 f0 (w : Int) (h : Int) rgba)
        = .ok (self1, some buffer) ∧
      buffer.vmeta.format = video_format_of_name fmt ∧
      buffer.vmeta.width = (w : Int) ∧ buffer.vmeta.height = (h : Int) ∧
      buffer.memory.length = self1.frame_size ∧
      buffer.vmeta.n_planes = 1 ∧ self1.num_planes = 1 ∧
      buffer.vmeta.offsets = [0, 0, 0, 0] ∧
      buffer.vmeta.strides = [((4 * w : Nat) : Int), 0, 0, 0] ∧
      self1.frame_size = 4 * w * h ∧
      ∀ j, j < 4 * w * h →
        buffer.memory[0 + j]? = rgba[j / 4 * 4 + swizzle_perm fmt (j % 4)]? := by
  obtain ⟨hstride, hsize⟩ := loaded_state_rgba self0 f0 rgba w h hw4 hh2
  obtain ⟨s1, d, hconv, hd, hfs, hst, hnp, haw, hah, hsel, hlen, hperm⟩ :=
    convert_output_packed fmt rgba
      { loaded_state self0 f0 (w : Int) (h : Int) rgba with selected_format := g_strlcpy5 fmt }
      w h hn hi rfl rfl hsize hw hh (by omega) (by omega) hsrc
  obtain ⟨self1, buffer, hrun, hmem, hvm, hsz1, hnp1⟩ :=
    create_builds env (loaded_state self0 f0 (w : Int) (h : Int) rgba) s1 rgba d s rest fmt
      rfl rfl hcaps hf hconv hd
  have hgw : gint_cast (w : Int) = (w : Int) := by unfold gint_cast; omega
  have hgh : gint_cast (h : Int) = (h : Int) := by unfold gint_cast; omega
  have hsel2 : s1.selected_format = fmt := by rw [hsel]; exact hstr
  have hmeta : buffer.vmeta =
      { format := video_format_of_name fmt, width := (w : Int), height := (h : Int),
        n_planes := 1, offsets := [0, 0, 0, 0],
        strides := [((4 * w : Nat) : Int), 0, 0, 0] } := by
    rw [hvm]
    unfold video_meta
    simp only [hsel2, hv, if_neg hvu, if_neg hvn, if_neg hvi, haw, hah, hgw, hgh, hst, hstride]
  refine ⟨self1, buffer, hrun, ?_, ?_, ?_, ?_, ?_, ?_, ?_, ?_, ?_, ?_⟩
  · rw [hmeta]
  · rw [hmeta]
  · rw [hmeta]
  · rw [hmem, hlen, hsz1, hfs]
  · rw [hmeta]
  · rw [hnp1, hnp]
  · rw [hmeta]
  · rw [hmeta]
  · rw [hsz1, hfs]; ring
  · intro j _
    rw [hmem, Nat.zero_add]
    exact hperm j

/-- Sizes of the planar layouts for even dimensions. -/
theorem planar_sizes (w h : Nat) (hwe : w % 2 = 0) (hhe : h % 2 = 0) :
    w * h + w * h / 2 = w * h * 3 / 2 ∧ w * h + w * h / 4 * 2 = w * h * 3 / 2 ∧
    w * h / 4 = w / 2 * (h / 2) := by
  obtain ⟨a, rfl⟩ : ∃ a, w = 2 * a := ⟨w / 2, by omega⟩
  obtain ⟨b, rfl⟩ : ∃ b, h = 2 * b := ⟨h / 2, by omega⟩
  have e : 2 * a * (2 * b) = 4 * (a * b) := by ring
  rw [e, Nat.mul_div_cancel_left a (by decide), Nat.mul_div_cancel_left b (by decide)]
  generalize a * b = n
  omega

/-- A frame request in NV12: two planes, the interleaved chroma plane right
after the luma plane. -/
theorem create_nv12 (env : CreateEnv) (self0 : GstStaticPngSrc) (f0 : String) (rgba : Buf)
    (w h : Nat) (s : GstStructure) (rest : List GstStructure)
    (hw : 0 < w) (hh : 0 < h) (hwe : w % 2 = 0) (hhe : h % 2 = 0)
    (hw4 : w * 4 ≤ 2147483647) (hh2 : h ≤ 2147483647)
    (hsrc : rgba.length = w * h * 4) (hb : ∀ v ∈ rgba, v < 256)
    (hcaps : env.current_caps = some (s :: rest)) (hf : s.format = some "NV12")
    (hv : env.gst_video_format_from_string "NV12" = video_format_of_name "NV12") :
    ∃ self1 buffer,
      gst_static_png_src_create env (loaded_state self0 f0 (w : Int) (h : Int) rgba)
        = .ok (self1, some buffer) ∧
      buffer.vmeta.format = video_format_of_name "NV12" ∧
      buffer.vmeta.width = (w : Int) ∧ buffer.vmeta.height = (h : Int) ∧
      buffer.memory.length = self1.frame_size ∧
      buffer.vmeta.n_planes = 2 ∧ self1.num_planes = 2 ∧
      buffer.vmeta.offsets = [0, w * h, 0, 0] ∧
      buffer.vmeta.strides = [(w : Int), (w : Int), 0, 0] ∧
      self1.frame_size = w * h * 3 / 2 ∧
      (∀ j, j < w * h → buffer.memory[0 + j]? = some (spec_luma_at rgba j)) ∧
      (∀ k, k < w * h / 2 → buffer.memory[w * h + k]? = some (spec_nv12_uv rgba w k)) := by
  obtain ⟨s1, d, hconv, hd, hfs, hst, hnp, haw, hah, hsel, hlen, hy, huv⟩ :=
    convert_output_nv12 rgba
      { loaded_state self0 f0 (w : Int) (h : Int) rgba with selected_format := g_strlcpy5 "NV12" }
      w h rfl rfl hw hh hwe hhe (by omega) (by omega) hsrc hb
  obtain ⟨self1, buffer, hrun, hmem, hvm, hsz1, hnp1⟩ :=
    create_builds env (loaded_state self0 f0 (w : Int) (h : Int) rgba) s1 rgba d s rest "NV12"
      rfl rfl hcaps hf hconv hd
  have hgw : gint_cast (w : Int) = (w : Int) := by unfold gint_cast; omega
  have hgh : gint_cast (h : Int) = (h : Int) := by unfold gint_cast; omega
  have hp := mul_lt_two62 w h (by omega) (by omega)
  have hsel2 : s1.selected_format = "NV12" := by
    rw [hsel]
    show g_strlcpy5 "NV12" = "NV12"
    decide
  have hu : ¬ (GstVideoFormat.NV12 = GstVideoFormat.UNKNOWN) := by decide
  have hvf : video_format_of_name "NV12" = GstVideoFormat.NV12 := by decide
  have hmeta : buffer.vmeta =
      { format := GstVideoFormat.NV12, width := (w : Int), height := (h : Int),
        n_planes := 2, offsets := [0, w * h, 0, 0],
        strides := [(w : Int), (w : Int), 0, 0] } := by
    rw [hvm]
    unfold video_meta
    simp only [hsel2, hv, hvf, if_neg hu, haw, hah, hgw, hgh]
    rw [gsize_natCast w (by omega), gsize_natCast h (by omega),
      gsize_mul_of_lt w h (by omega), if_pos trivial]
  obtain ⟨e1, _, _⟩ := planar_sizes w h hwe hhe
  refine ⟨self1, buffer, hrun, ?_, ?_, ?_, ?_, ?_, ?_, ?_, ?_, ?_, ?_, ?_⟩
  · rw [hmeta, hvf]
  · rw [hmeta]
  · rw [hmeta]
  · rw [hmem, hlen, hsz1, hfs, e1]
  · rw [hmeta]
  · rw [hnp1, hnp]
  · rw [hmeta]
  · rw [hmeta]
  · rw [hsz1, hfs]
  · intro j hj
    rw [hmem, Nat.zero_add]
    exact hy j hj
  · intro k hk
    rw [hmem]
    exact huv k hk

/-- A frame request in I420: three planes, `U` right after the luma plane and
`V` right after `U`. -/
theorem create_i420 (env : CreateEnv) (self0 : GstStaticPngSrc) (f0 : String) (rgba : Buf)
    (w h : Nat) (s : GstStructure) (rest : List GstStructure)
    (hw : 0 < w) (hh : 0 < h) (hwe : w % 2 = 0) (hhe : h % 2 = 0)
    (hw4 : w * 4 ≤ 2147483647) (hh2 : h ≤ 2147483647)
    (hsrc : rgba.length = w * h * 4) (hb : ∀ v ∈ rgba, v < 256)
    (hcaps : env.current_caps = some (s :: rest)) (hf : s.format = some "I420")
    (hv : env.gst_video_format_from_string "I420" = video_format_of_name "I420") :
    ∃ self1 buffer,
      gst_static_png_src_create env (loaded_state self0 f0 (w : Int) (h : Int) rgba)
        = .ok (self1, some buffer) ∧
      buffer.vmeta.format = video_format_of_name "I420" ∧
      buffer.vmeta.width = (w : Int) ∧ buffer.vmeta.height = (h : Int) ∧
      buffer.memory.length = self1.frame_size ∧
      buffer.vmeta.n_planes = 3 ∧ self1.num_planes = 3 ∧
      buffer.vmeta.offsets = [0, w * h, w * h + w / 2 * (h / 2), 0] ∧
      buffer.vmeta.strides = [(w : Int), ((w / 2 : Nat) : Int), ((w / 2 : Nat) : Int), 0] ∧
      self1.frame_size = w * h * 3 / 2 ∧
      (∀ j, j < w * h → buffer.memory[0 + j]? = some (spec_luma_at rgba j)) ∧
      (∀ k, k < w / 2 * (h / 2) →
        buffer.memory[w * h + k]? = some (spec_i420_plane spec_chroma_u rgba w k) ∧
        buffer.memory[w * h + w / 2 * (h / 2) + k]?
          = some (spec_i420_plane spec_chroma_v rgba w k)) := by
  obtain ⟨s1, d, hconv, hd, hfs, hst, hnp, haw, hah, hsel, hlen, hy, huv⟩ :=
    convert_output_i420 rgba
      { loaded_state self0 f0 (w : Int) (h : Int) rgba with selected_format := g_strlcpy5 "I420" }
      w h rfl rfl hw hh hwe hhe (by omega) (by omega) hsrc hb
  obtain ⟨self1, buffer, hrun, hmem, hvm, hsz1, hnp1⟩ :=
    create_builds env (loaded_state self0 f0 (w : Int) (h : Int) rgba) s1 rgba d s rest "I420"
      rfl rfl hcaps hf hconv hd
  have hgw : gint_cast (w : Int) = (w : Int) := by unfold gint_cast; omega
  have hgh : gint_cast (h : Int) = (h : Int) := by unfold gint_cast; omega
  have hp := mul_lt_two62 w h (by omega) (by omega)
  have hq := mul_lt_two62 (w / 2) (h / 2) (by omega) (by omega)
  have hsel2 : s1.selected_format = "I420" := by
    rw [hsel]
    show g_strlcpy5 "I420" = "I420"
    decide
  have hu : ¬ (GstVideoFormat.I420 = GstVideoFormat.UNKNOWN) := by decide
  have hnv : ¬ (GstVideoFormat.I420 = GstVideoFormat.NV12) := by decide
  have hvf : video_format_of_name "I420" = GstVideoFormat.I420 := by decide
  have htd : Int.tdiv (w : Int) 2 = ((w / 2 : Nat) : Int) := (Int.ofNat_tdiv w 2).symm
  have hmeta : buffer.vmeta =
      { format := GstVideoFormat.I420, width := (w : Int), height := (h : Int),
        n_planes := 3, offsets := [0, w * h, w * h + w / 2 * (h / 2), 0],
        strides := [(w : Int), ((w / 2 : Nat) : Int), ((w / 2 : Nat) : Int), 0] } := by
    rw [hvm]
    unfold video_meta
    simp only [hsel2, hv, hvf, if_neg hu, if_neg hnv, haw, hah, hgw, hgh, htd]
    rw [gsize_natCast w (by omega),
      gsize_natCast h (by omega), gsize_mul_of_lt w h (by omega),
      gsize_mul_of_lt (w / 2) (h / 2) (by omega),
      gsize_add_of_lt (w * h) (w / 2 * (h / 2)) (by omega), if_pos trivial]
  obtain ⟨_, e2, e3⟩ := planar_sizes w h hwe hhe
  refine ⟨self1, buffer, hrun, ?_, ?_, ?_, ?_, ?_, ?_, ?_, ?_, ?_, ?_, ?_⟩
  · rw [hmeta, hvf]
  · rw [hmeta]
  · rw [hmeta]
  · rw [hmem, hlen, hsz1, hfs, e2]
  · rw [hmeta]
  · rw [hnp1, hnp]
  · rw [hmeta]
  · rw [hmeta]
  · rw [hsz1, hfs]
  · intro j hj
    rw [hmem, Nat.zero_add]
    exact hy j hj
  · intro k hk
    rw [hmem, ← e3]
    exact huv k (by rw [e3]; exact hk)

/-- C15. A frame request of an element loaded with a `w` by `h` image (both
positive and even, `4*w` and `h` in `gint` range, `w*h*4` bytes) whose
negotiated caps name one of the six template formats returns a buffer whose
video meta carries that format, width `w` and height `h`, and whose memory is as
long as the declared `frame_size`. A packed format is tagged 1 plane, offset 0,
stride `4*w`, size `4*w*h`, and the memory is the swizzled RGBA copy from
position 0. NV12 is tagged 2 planes, offsets `(0, w*h)`, strides `(w, w)`, size
`w*h*3/2`, with the luma bytes at `0 + j` and the interleaved chroma bytes at
`w*h + k`. I420 is tagged 3 planes, offsets `(0, w*h, w*h + (w/2)*(h/2))`,
strides `(w, w/2, w/2)`, size `w*h*3/2`, with the luma bytes at `0 + j`, the `U`
bytes at `w*h + k` and the `V` bytes at `w*h + (w/2)*(h/2) + k`. -/
theorem plane_metadata_agrees (env : CreateEnv) (self0 : GstStaticPngSrc) (f0 fmt : String)
    (rgba : Buf) (w h : Nat) (s : GstStructure) (rest : List GstStructure)
    (hw : 0 < w) (hh : 0 < h) (hwe : w % 2 = 0) (hhe : h % 2 = 0)
    (hw4 : w * 4 ≤ 2147483647) (hh2 : h ≤ 2147483647)
    (hsrc : rgba.length = w * h * 4) (hb : ∀ v ∈ rgba, v < 256)
    (hcaps : env.current_caps = some (s :: rest)) (hf : s.format = some fmt)
    (hfmt : fmt = "RGBA" ∨ fmt = "BGRA" ∨ fmt = "ARGB" ∨ fmt = "ABGR" ∨ fmt = "NV12"
      ∨ fmt = "I420")
    (hv : env.gst_video_format_from_string fmt = video_format_of_name fmt) :
    ∃ self1 buffer,
      gst_static_png_src_create env (loaded_state self0 f0 ((w : Nat) : Int) ((h : Nat) : Int) rgba)
        = .ok (self1, some buffer) ∧
      buffer.vmeta.format = video_format_of_name fmt ∧
      buffer.vmeta.width = ((w : Nat) : Int) ∧ buffer.vmeta.height = ((h : Nat) : Int) ∧
      buffer.memory.length = self1.frame_size ∧
      ((fmt = "RGBA" ∨ fmt = "BGRA" ∨ fmt = "ARGB" ∨ fmt = "ABGR") →
        buffer.vmeta.n_planes = 1 ∧ self1.num_planes = 1 ∧
        buffer.vmeta.offsets = [0, 0, 0, 0] ∧
        buffer.vmeta.strides = [((4 * w : Nat) : Int), 0, 0, 0] ∧
        self1.frame_size = 4 * w * h ∧
        ∀ j, j < 4 * w * h →
          buffer.memory[0 + j]? = rgba[j / 4 * 4 + swizzle_perm fmt (j % 4)]?) ∧
      (fmt = "NV12" →
        buffer.vmeta.n_planes = 2 ∧ self1.num_planes = 2 ∧
        buffer.vmeta.offsets = [0, w * h, 0, 0] ∧
        buffer.vmeta.strides = [((w : Nat) : Int), ((w : Nat) : Int), 0, 0] ∧
        self1.frame_size = w * h * 3 / 2 ∧
        (∀ j, j < w * h → buffer.memory[0 + j]? = some (spec_luma_at rgba j)) ∧
        (∀ k, k < w * h / 2 → buffer.memory[w * h + k]? = some (spec_nv12_uv rgba w k))) ∧
      (fmt = "I420" →
        buffer.vmeta.n_planes = 3 ∧ self1.num_planes = 3 ∧
        buffer.vmeta.offsets = [0, w * h, w * h + w / 2 * (h / 2), 0] ∧
        buffer.vmeta.strides
          = [((w : Nat) : Int), ((w / 2 : Nat) : Int), ((w / 2 : Nat) : Int), 0] ∧
        self1.frame_size = w * h * 3 / 2 ∧
        (∀ j, j < w * h → buffer.memory[0 + j]? = some (spec_luma_at rgba j)) ∧
        (∀ k, k < w / 2 * (h / 2) →
          buffer.memory[w * h + k]? = some (spec_i420_plane spec_chroma_u rgba w k) ∧
          buffer.memory[w * h + w / 2 * (h / 2) + k]?
            = some (spec_i420_plane spec_chroma_v rgba w k))) := by
  rcases hfmt with e | e | e | e | e | e
  · subst e
    obtain ⟨self1, buffer, hrun, h1, h2, h3, h4, h5, h6, h7, h8, h9, h10⟩ :=
      create_packed env self0 f0 _ rgba w h s rest hw hh hw4 hh2 hsrc hcaps hf hv
        (by decide) (by decide) (by decide) (by decide) (by decide) (by decide)
    exact ⟨self1, buffer, hrun, h1, h2, h3, h4, fun _ => ⟨h5, h6, h7, h8, h9, h10⟩,
      fun e => absurd e (by decide), fun e => absurd e (by decide)⟩
  · subst e
    obtain ⟨self1, buffer, hrun, h1, h2, h3, h4, h5, h6, h7, h8, h9, h10⟩ :=
      create_packed env self0 f0 _ rgba w h s rest hw hh hw4 hh2 hsrc hcaps hf hv
        (by decide) (by decide) (by decide) (by decide) (by decide) (by decide)
    exact ⟨self1, buffer, hrun, h1, h2, h3, h4, fun _ => ⟨h5, h6, h7, h8, h9, h10⟩,
      fun e => absurd e (by decide), fun e => absurd e (by decide)⟩
  · subst e
    obtain ⟨self1, buffer, hrun, h1, h2, h3, h4, h5, h6, h7, h8, h9, h10⟩ :=
      create_packed env self0 f0 _ rgba w h s rest hw hh hw4 hh2 hsrc hcaps hf hv
        (by decide) (by decide) (by decide) (by decide) (by decide) (by decide)
    exact ⟨self1, buffer, hrun, h1, h2, h3, h4, fun _ => ⟨h5, h6, h7, h8, h9, h10⟩,
      fun e => absurd e (by decide), fun e => absurd e (by decide)⟩
  · subst e
    obtain ⟨self1, buffer, hrun, h1, h2, h3, h4, h5, h6, h7, h8, h9, h10⟩ :=
      create_packed env self0 f0 _ rgba w h s rest hw hh hw4 hh2 hsrc hcaps hf hv
        (by decide) (by decide) (by decide) (by decide) (by decide) (by decide)
    exact ⟨self1, buffer, hrun, h1, h2, h3, h4, fun _ => ⟨h5, h6, h7, h8, h9, h10⟩,
      fun e => absurd e (by decide), fun e => absurd e (by decide)⟩
  · subst e
    obtain ⟨self1, buffer, hrun, h1, h2, h3, h4, h5, h6, h7, h8, h9, h10, h11⟩ :=
      create_nv12 env self0 f0 rgba w h s rest hw hh hwe hhe hw4 hh2 hsrc hb hcaps hf hv
    exact ⟨self1, buffer, hrun, h1, h2, h3, h4, fun e => absurd e (by decide),
      fun _ => ⟨h5, h6, h7, h8, h9, h10, h11⟩, fun e => absurd e (by decide)⟩
  · subst e
    obtain ⟨self1, buffer, hrun, h1, h2, h3, h4, h5, h6, h7, h8, h9, h10, h11⟩ :=
      create_i420 env self0 f0 rgba w h s rest hw hh hwe hhe hw4 hh2 hsrc hb hcaps hf hv
    exact ⟨self1, buffer, hrun, h1, h2, h3, h4, fun e => absurd e (by decide),
      fun e => absurd e (by decide), fun _ => ⟨h5, h6, h7, h8, h9, h10, h11⟩⟩

/-- Witness of C15: the 2x2 sample image requested as NV12. -/
theorem plane_metadata_agrees_witness :
    ∃ self1 buffer,
      gst_static_png_src_create nv12_env (loaded_state gst_static_png_src_init "RGBA" ((2 : Nat) : Int) ((2 : Nat) : Int) sample_2x2)
        = .ok (self1, some buffer) ∧
      buffer.vmeta.format = video_format_of_name "NV12" ∧
      buffer.vmeta.width = ((2 : Nat) : Int) ∧ buffer.vmeta.height = ((2 : Nat) : Int) ∧
      buffer.memory.length = self1.frame_size ∧
      (("NV12" = "RGBA" ∨ "NV12" = "BGRA" ∨ "NV12" = "ARGB" ∨ "NV12" = "ABGR") →
        buffer.vmeta.n_planes = 1 ∧ self1.num_planes = 1 ∧
        buffer.vmeta.offsets = [0, 0, 0, 0] ∧
        buffer.vmeta.strides = [((4 * 2 : Nat) : Int), 0, 0, 0] ∧
        self1.frame_size = 4 * 2 * 2 ∧
        ∀ j, j < 4 * 2 * 2 →
          buffer.memory[0 + j]? = sample_2x2[j / 4 * 4 + swizzle_perm "NV12" (j % 4)]?) ∧
      ("NV12" = "NV12" →
        buffer.vmeta.n_planes = 2 ∧ self1.num_planes = 2 ∧
        buffer.vmeta.offsets = [0, 2 * 2, 0, 0] ∧
        buffer.vmeta.strides = [((2 : Nat) : Int), ((2 : Nat) : Int), 0, 0] ∧
        self1.frame_size = 2 * 2 * 3 / 2 ∧
        (∀ j, j < 2 * 2 → buffer.memory[0 + j]? = some (spec_luma_at sample_2x2 j)) ∧
        (∀ k, k < 2 * 2 / 2 → buffer.memory[2 * 2 + k]? = some (spec_nv12_uv sample_2x2 2 k))) ∧
      ("NV12" = "I420" →
        buffer.vmeta.n_planes = 3 ∧ self1.num_planes = 3 ∧
        buffer.vmeta.offsets = [0, 2 * 2, 2 * 2 + 2 / 2 * (2 / 2), 0] ∧
        buffer.vmeta.strides
          = [((2 : Nat) : Int), ((2 / 2 : Nat) : Int), ((2 / 2 : Nat) : Int), 0] ∧
        self1.frame_size = 2 * 2 * 3 / 2 ∧
        (∀ j, j < 2 * 2 → buffer.memory[0 + j]? = some (spec_luma_at sample_2x2 j)) ∧
        (∀ k, k < 2 / 2 * (2 / 2) →
          buffer.memory[2 * 2 + k]? = some (spec_i420_plane spec_chroma_u sample_2x2 2 k) ∧
          buffer.memory[2 * 2 + 2 / 2 * (2 / 2) + k]?
            = some (spec_i420_plane spec_chroma_v sample_2x2 2 k))) :=
  plane_metadata_agrees nv12_env gst_static_png_src_init "RGBA" "NV12" sample_2x2 2 2
    { format := some "NV12", width := some 2, height := some 2, framerate := some (25, 1) } []
    (by decide) (by decide) (by decide) (by decide) (by decide) (by decide) (by decide)
    (by decide) rfl rfl (by decide) rfl

end StaticImageSrc
